import Mathlib

/-!
# Verification development for the `c-parser` TypeScript repository

This file gives a shallow embedding, in Lean 4, of the core of the
`c-parser` repository (a hand-written C11 lexer and recursive-descent
parser written in TypeScript), together with theorems settling the
frozen claims about it.

Modelling conventions
* A JavaScript string is modelled as a list of UTF-16 code units
  (`JsStr := List Nat`); `charCodeAt` is `chAt` below.  All call sites in
  the source guard their index, so the out-of-range default is irrelevant.
* JavaScript 32-bit integer operations (`|0`, `<<`, `>>`, `>>>`, `&`, `|`,
  `^`, `~`, `Math.imul`) are modelled exactly on `Int` via `toInt32` /
  `toUint32`.  Plain JavaScript number arithmetic on values below `2^53`
  is exact and is modelled as exact integer arithmetic; rounding of
  doubles beyond `2^53` (reachable only through pathological literals) is
  outside the scope of this embedding.
* The numeric value of floating-point literal tokens is produced in the
  source by `parseFloat`; IEEE-754 semantics are out of scope here (the
  repository's own spec disclaims float accuracy), so such token values
  carry the literal text (`JsVal.flt`) instead of a double.  No claim
  observes a float value.
* `Map`/`Set` on strings are modelled by association lists with
  first-match lookup and in-place update, matching insertion-order
  semantics.
* The parser (which in the source is a class whose methods are spread
  over several modules via prototype extension) is modelled as explicit
  state passing over the `Parser` structure.  Recursion of the grammar is
  not structurally decreasing, so every parser function takes a fuel
  argument; running out of fuel sets the sticky `fuelExhausted` flag on
  the state.  Concrete runs are checked to leave the flag `false`, and
  non-termination is expressed as exhaustion at every fuel.
  The scanner, in contrast, is defined fuel-free by well-founded
  recursion and proved total.
-/

set_option maxHeartbeats 2000000

/-! ## JavaScript primitives -/

/-- A JavaScript string: a list of UTF-16 code units. -/
abbrev JsStr := List Nat

/-- Convert a Lean string literal (ASCII in all our uses) to a `JsStr`. -/
def litStr (s : String) : JsStr := s.data.map Char.toNat

/-- `s.charCodeAt i` (all uses in the source are range-guarded). -/
def chAt (src : JsStr) (i : Nat) : Nat := src.getD i 0

/-- ECMAScript `ToUint32`. -/
def toUint32 (i : Int) : Int := i.emod 4294967296

/-- ECMAScript `ToInt32`. -/
def toInt32 (i : Int) : Int :=
  let u := i.emod 4294967296
  if u < 2147483648 then u else u - 4294967296

/-- JavaScript `x | 0`. -/
def jsOr0 (i : Int) : Int := toInt32 i

/-- JavaScript `l << r`. -/
def jsShl (l r : Int) : Int :=
  toInt32 (toInt32 l * 2 ^ ((toUint32 r).toNat % 32))

/-- JavaScript `l >> r` (sign-propagating). -/
def jsShr (l r : Int) : Int :=
  Int.fdiv (toInt32 l) (2 ^ ((toUint32 r).toNat % 32))

/-- JavaScript `l >>> r` (zero-fill). -/
def jsShrU (l r : Int) : Int :=
  Int.fdiv (toUint32 l) (2 ^ ((toUint32 r).toNat % 32))

/-- JavaScript bitwise `&`. -/
def jsAnd (l r : Int) : Int :=
  toInt32 (Int.ofNat (Nat.land (toUint32 l).toNat (toUint32 r).toNat))

/-- JavaScript bitwise `|`. -/
def jsOr (l r : Int) : Int :=
  toInt32 (Int.ofNat (Nat.lor (toUint32 l).toNat (toUint32 r).toNat))

/-- JavaScript bitwise `^`. -/
def jsXor (l r : Int) : Int :=
  toInt32 (Int.ofNat (Nat.xor (toUint32 l).toNat (toUint32 r).toNat))

/-- JavaScript `~x`. -/
def jsNot (i : Int) : Int := -(toInt32 i) - 1

/-- JavaScript `Math.imul`. -/
def jsImul (l r : Int) : Int := toInt32 (toUint32 l * toUint32 r)

/-- JavaScript `Math.max` on two integers. -/
def jsMax (l r : Int) : Int := max l r

/-- `String.fromCharCode(c)` as a one-unit string. -/
def fromCharCode (c : Int) : JsStr := [(toUint32 c).toNat % 65536]

/-- `String.fromCodePoint`, including the `try`/`catch` fallback to
U+FFFD used by `lexUnicodeEscape` for out-of-range values. -/
def fromCodePointOrReplacement (v : Nat) : JsStr :=
  if v ≤ 0xFFFF then [v]
  else if v ≤ 0x10FFFF then
    [0xD800 + (v - 0x10000) / 0x400, 0xDC00 + (v - 0x10000) % 0x400]
  else [0xFFFD]

/-- `s.codePointAt(i)`: combines a surrogate pair when present. -/
def codePointAt (s : JsStr) (i : Nat) : Nat :=
  let u := chAt s i
  if 0xD800 ≤ u ∧ u ≤ 0xDBFF ∧ i + 1 < s.length then
    let lo := chAt s (i + 1)
    if 0xDC00 ≤ lo ∧ lo ≤ 0xDFFF then
      0x10000 + (u - 0xD800) * 0x400 + (lo - 0xDC00)
    else u
  else u

/-- A JavaScript `string | number` token/AST value.  `flt` carries the
raw literal text of a float (see the module docstring). -/
inductive JsVal where
  | num (i : Int)
  | str (s : JsStr)
  | flt (text : JsStr)
  deriving DecidableEq

/-- `(v as number) ?? 0` as used by the parser on token values. -/
def jsValAsNum (v : Option JsVal) : Int :=
  match v with
  | some (.num i) => i
  | _ => 0

/-- `(v as string) ?? ''` as used by the parser on token values. -/
def jsValAsStr (v : Option JsVal) : JsStr :=
  match v with
  | some (.str s) => s
  | _ => []

/-! ## Token model (`src/lexer/token.ts`) -/

/-- `TokenKind`: the closed enumeration of lexical categories. -/
inductive TokenKind where
  | IntLiteral | UIntLiteral | LongLiteral | ULongLiteral
  | LongLongLiteral | ULongLongLiteral
  | FloatLiteral | FloatLiteralF32 | FloatLiteralLongDouble
  | ImaginaryLiteral | ImaginaryLiteralF32 | ImaginaryLiteralLongDouble
  | StringLiteral | WideStringLiteral | Char16StringLiteral | CharLiteral
  | Identifier
  | Auto | Break | Case | Char | Const | Continue | Default | Do | Double
  | Else | Enum | Extern | Float | For | Goto | If | Inline | Int | Long
  | Register | Restrict | Return | Short | Signed | Sizeof | Static
  | Struct | Switch | Typedef | Union | Unsigned | Void | Volatile | While
  | Alignas | Alignof | Atomic | Bool | Complex | Generic | Imaginary
  | Noreturn | StaticAssert | ThreadLocal
  | Typeof | Asm | Attribute | Extension | Builtin | BuiltinVaArg
  | BuiltinTypesCompatibleP | Int128 | UInt128 | RealPart | ImagPart
  | AutoType | GnuAlignof | GnuLabel | SegGs | SegFs
  | PragmaPackSet | PragmaPackPush | PragmaPackPushOnly | PragmaPackPop
  | PragmaPackReset | PragmaVisibilityPush | PragmaVisibilityPop
  | LParen | RParen | LBrace | RBrace | LBracket | RBracket
  | Semicolon | Comma | Dot | Arrow | Ellipsis
  | Plus | Minus | Star | Slash | Percent | Amp | Pipe | Caret | Tilde
  | Bang | Assign | Less | Greater | Question | Colon
  | PlusPlus | MinusMinus | PlusAssign | MinusAssign | StarAssign
  | SlashAssign | PercentAssign | AmpAssign | PipeAssign | CaretAssign
  | LessLess | GreaterGreater | LessLessAssign | GreaterGreaterAssign
  | EqualEqual | BangEqual | LessEqual | GreaterEqual | AmpAmp | PipePipe
  | Hash | HashHash
  | Eof
  deriving DecidableEq

/-- A source span (byte offsets); `end` is a Lean keyword, hence `end_`. -/
structure Span where
  start : Nat
  end_ : Nat
  deriving DecidableEq

def dummySpan : Span := ⟨0, 0⟩

/-- A token (`value?: string|number`, `bigValue?: bigint`). -/
structure Token where
  kind : TokenKind
  start : Nat
  end_ : Nat
  value : Option JsVal := none
  bigValue : Option Int := none
  deriving DecidableEq

/-- The keyword table of `keywordFromString`, in source order (split in
three chunks purely because very long Lean list literals elaborate
slowly; `keywordTable` below is their concatenation). -/
def kwTable1 : List (JsStr × Option TokenKind) :=
  [ (litStr "auto", some .Auto),
    (litStr "break", some .Break),
    (litStr "case", some .Case),
    (litStr "char", some .Char),
    (litStr "const", some .Const),
    (litStr "continue", some .Continue),
    (litStr "default", some .Default),
    (litStr "do", some .Do),
    (litStr "double", some .Double),
    (litStr "else", some .Else),
    (litStr "enum", some .Enum),
    (litStr "extern", some .Extern),
    (litStr "float", some .Float),
    (litStr "for", some .For),
    (litStr "goto", some .Goto),
    (litStr "if", some .If),
    (litStr "inline", some .Inline),
    (litStr "int", some .Int),
    (litStr "long", some .Long),
    (litStr "register", some .Register),
    (litStr "restrict", some .Restrict),
    (litStr "return", some .Return),
    (litStr "short", some .Short),
    (litStr "signed", some .Signed),
    (litStr "sizeof", some .Sizeof),
    (litStr "static", some .Static),
    (litStr "struct", some .Struct),
    (litStr "switch", some .Switch),
    (litStr "typedef", some .Typedef),
    (litStr "union", some .Union) ]

def kwTable2 (gnuExtensions : Bool) : List (JsStr × Option TokenKind) :=
  [ (litStr "unsigned", some .Unsigned),
    (litStr "void", some .Void),
    (litStr "volatile", some .Volatile),
    (litStr "__volatile__", some .Volatile),
    (litStr "__volatile", some .Volatile),
    (litStr "__const", some .Const),
    (litStr "__const__", some .Const),
    (litStr "__inline", some .Inline),
    (litStr "__inline__", some .Inline),
    (litStr "__restrict", some .Restrict),
    (litStr "__restrict__", some .Restrict),
    (litStr "__signed__", some .Signed),
    (litStr "while", some .While),
    (litStr "_Alignas", some .Alignas),
    (litStr "_Alignof", some .Alignof),
    (litStr "_Atomic", some .Atomic),
    (litStr "_Bool", some .Bool),
    (litStr "_Complex", some .Complex),
    (litStr "__complex__", some .Complex),
    (litStr "__complex", some .Complex),
    (litStr "_Generic", some .Generic),
    (litStr "_Imaginary", some .Imaginary),
    (litStr "_Noreturn", some .Noreturn),
    (litStr "__noreturn__", some .Noreturn),
    (litStr "_Static_assert", some .StaticAssert),
    (litStr "static_assert", some .StaticAssert),
    (litStr "_Thread_local", some .ThreadLocal),
    (litStr "__thread", some .ThreadLocal),
    (litStr "typeof", if gnuExtensions then some .Typeof else none),
    (litStr "__typeof__", some .Typeof) ]

def kwTable3 (gnuExtensions : Bool) : List (JsStr × Option TokenKind) :=
  [ (litStr "__typeof", some .Typeof),
    (litStr "asm", if gnuExtensions then some .Asm else none),
    (litStr "__asm__", some .Asm),
    (litStr "__asm", some .Asm),
    (litStr "__attribute__", some .Attribute),
    (litStr "__attribute", some .Attribute),
    (litStr "__extension__", some .Extension),
    (litStr "__builtin_va_list", some .Builtin),
    (litStr "__builtin_va_arg", some .BuiltinVaArg),
    (litStr "__builtin_types_compatible_p", some .BuiltinTypesCompatibleP),
    (litStr "__int128", some .Int128),
    (litStr "__int128_t", some .Int128),
    (litStr "__uint128_t", some .UInt128),
    (litStr "__real__", some .RealPart),
    (litStr "__real", some .RealPart),
    (litStr "__imag__", some .ImagPart),
    (litStr "__imag", some .ImagPart),
    (litStr "__auto_type", some .AutoType),
    (litStr "__alignof", some .GnuAlignof),
    (litStr "__alignof__", some .GnuAlignof),
    (litStr "__label__", some .GnuLabel),
    (litStr "__seg_gs", some .SegGs),
    (litStr "__seg_fs", some .SegFs) ]

def keywordTable (gnuExtensions : Bool) : List (JsStr × Option TokenKind) :=
  kwTable1 ++ kwTable2 gnuExtensions ++ kwTable3 gnuExtensions

/-- `keywordFromString` from `token.ts`: length filter, first-character
filter, then the keyword switch (modelled as the table above). -/
def keywordFromString (s : JsStr) (gnuExtensions : Bool) :
    Option TokenKind :=
  let len := s.length
  if len < 2 ∨ (len > 17 ∧ len ≠ 28) then none
  else
    let first := chAt s 0
    if first ≠ 0x5f ∧ first ≠ 0x61 ∧ first ≠ 0x62 ∧ first ≠ 0x63 ∧
       first ≠ 0x64 ∧ first ≠ 0x65 ∧ first ≠ 0x66 ∧ first ≠ 0x67 ∧
       first ≠ 0x69 ∧ first ≠ 0x6c ∧ first ≠ 0x72 ∧ first ≠ 0x73 ∧
       first ≠ 0x74 ∧ first ≠ 0x75 ∧ first ≠ 0x76 ∧ first ≠ 0x77 then
      none
    else
      match (keywordTable gnuExtensions).lookup s with
      | some res => res
      | none => none

/-! ## Scanner (`src/lexer/scanner.ts`) -/

namespace Scanner

def CH_0 : Nat := 0x30
def CH_7 : Nat := 0x37
def CH_9 : Nat := 0x39
def CH_A : Nat := 0x41
def CH_B : Nat := 0x42
def CH_E : Nat := 0x45
def CH_F : Nat := 0x46
def CH_I : Nat := 0x49
def CH_J : Nat := 0x4a
def CH_L : Nat := 0x4c
def CH_P : Nat := 0x50
def CH_U : Nat := 0x55
def CH_X : Nat := 0x58
def CH_a : Nat := 0x61
def CH_b : Nat := 0x62
def CH_e : Nat := 0x65
def CH_f : Nat := 0x66
def CH_i : Nat := 0x69
def CH_j : Nat := 0x6a
def CH_l : Nat := 0x6c
def CH_n : Nat := 0x6e
def CH_p : Nat := 0x70
def CH_r : Nat := 0x72
def CH_t : Nat := 0x74
def CH_u : Nat := 0x75
def CH_v : Nat := 0x76
def CH_x : Nat := 0x78
def CH_DQUOTE : Nat := 0x22
def CH_SQUOTE : Nat := 0x27
def CH_BSLASH : Nat := 0x5c
def CH_UNDERSCORE : Nat := 0x5f
def CH_DOLLAR : Nat := 0x24
def CH_DOT : Nat := 0x2e
def CH_HASH : Nat := 0x23
def CH_SLASH : Nat := 0x2f
def CH_STAR : Nat := 0x2a
def CH_NEWLINE : Nat := 0x0a
def CH_SPACE : Nat := 0x20
def CH_PLUS : Nat := 0x2b
def CH_MINUS : Nat := 0x2d
def CH_LPAREN : Nat := 0x28
def CH_RPAREN : Nat := 0x29
def CH_LBRACE : Nat := 0x7b
def CH_RBRACE : Nat := 0x7d
def CH_LBRACKET : Nat := 0x5b
def CH_RBRACKET : Nat := 0x5d
def CH_SEMICOLON : Nat := 0x3b
def CH_COMMA : Nat := 0x2c
def CH_TILDE : Nat := 0x7e
def CH_QUESTION : Nat := 0x3f
def CH_COLON : Nat := 0x3a
def CH_PERCENT : Nat := 0x25
def CH_AMP : Nat := 0x26
def CH_PIPE : Nat := 0x7c
def CH_CARET : Nat := 0x5e
def CH_BANG : Nat := 0x21
def CH_EQUAL : Nat := 0x3d
def CH_LESS : Nat := 0x3c
def CH_GREATER : Nat := 0x3e

/-- `Number.MAX_SAFE_INTEGER`. -/
def MAX_SAFE : Int := 9007199254740991

def isDigit (c : Nat) : Bool := CH_0 ≤ c ∧ c ≤ CH_9

def isHexDigit (c : Nat) : Bool :=
  (CH_0 ≤ c ∧ c ≤ CH_9) ∨ (CH_a ≤ c ∧ c ≤ CH_f) ∨ (CH_A ≤ c ∧ c ≤ CH_F)

def isAlpha (c : Nat) : Bool :=
  (CH_a ≤ c ∧ c ≤ 0x7a) ∨ (CH_A ≤ c ∧ c ≤ 0x5a)

def isAlphanumeric (c : Nat) : Bool := isAlpha c ∨ isDigit c

def isIdentStart (c : Nat) : Bool :=
  c = CH_UNDERSCORE ∨ c = CH_DOLLAR ∨ isAlpha c

def isIdentContinue (c : Nat) : Bool :=
  c = CH_UNDERSCORE ∨ c = CH_DOLLAR ∨ isAlphanumeric c

def isWhitespace (c : Nat) : Bool :=
  c = CH_SPACE ∨ c = 0x09 ∨ c = CH_NEWLINE ∨ c = 0x0d ∨ c = 0x0c ∨ c = 0x0b

def hexDigitVal (c : Nat) : Nat :=
  if CH_0 ≤ c ∧ c ≤ CH_9 then c - CH_0
  else if CH_a ≤ c ∧ c ≤ CH_f then c - CH_a + 10
  else if CH_A ≤ c ∧ c ≤ CH_F then c - CH_A + 10
  else 0

/-- Generic `while (pos < len && p(ch)) pos++` loop, used by the many
character-run loops of the scanner. -/
def advanceWhile (src : JsStr) (p : Nat → Bool) (pos : Nat) : Nat :=
  if pos < src.length ∧ p (chAt src pos) then advanceWhile src p (pos + 1)
  else pos
termination_by src.length - pos
decreasing_by omega

theorem advanceWhile_ge (src : JsStr) (p : Nat → Bool) (pos : Nat) :
    pos ≤ advanceWhile src p pos := by
  unfold advanceWhile
  split
  · exact le_trans (Nat.le_succ pos) (advanceWhile_ge src p (pos + 1))
  · exact le_refl pos
termination_by src.length - pos
decreasing_by omega

theorem advanceWhile_le_len (src : JsStr) (p : Nat → Bool) (pos : Nat)
    (h : pos ≤ src.length) : advanceWhile src p pos ≤ src.length := by
  unfold advanceWhile
  split
  · rename_i hc
    exact advanceWhile_le_len src p (pos + 1) (by omega)
  · exact h
termination_by src.length - pos
decreasing_by omega

theorem advanceWhile_gt (src : JsStr) (p : Nat → Bool) (pos : Nat)
    (h : pos < src.length) (hp : p (chAt src pos) = true) :
    pos + 1 ≤ advanceWhile src p pos := by
  unfold advanceWhile
  rw [if_pos ⟨h, hp⟩]
  exact advanceWhile_ge src p (pos + 1)

/-- The body of the block-comment skip loop
(`while (pos+1 < len) { ... }` after the leading `pos += 2`). -/
def skipBlockCommentLoop (src : JsStr) (pos : Nat) : Nat :=
  if pos + 1 < src.length then
    if chAt src pos = CH_STAR ∧ chAt src (pos + 1) = CH_SLASH then pos + 2
    else skipBlockCommentLoop src (pos + 1)
  else pos
termination_by src.length - pos
decreasing_by omega

theorem skipBlockCommentLoop_ge (src : JsStr) (pos : Nat) :
    pos ≤ skipBlockCommentLoop src pos := by
  unfold skipBlockCommentLoop
  split
  · split
    · omega
    · exact le_trans (Nat.le_succ pos) (skipBlockCommentLoop_ge src (pos + 1))
  · exact le_refl pos
termination_by src.length - pos
decreasing_by omega

theorem skipBlockCommentLoop_le_len (src : JsStr) (pos : Nat)
    (h : pos ≤ src.length) : skipBlockCommentLoop src pos ≤ src.length := by
  unfold skipBlockCommentLoop
  split
  · split
    · omega
    · exact skipBlockCommentLoop_le_len src (pos + 1) (by omega)
  · exact h
termination_by src.length - pos
decreasing_by omega

/-- `isLineMarker`: `'#'` at start of line followed (after spaces) by a
digit. -/
def isLineMarker (src : JsStr) (pos : Nat) : Bool :=
  if pos ≥ src.length ∨ chAt src pos ≠ CH_HASH then false
  else if pos > 0 ∧ chAt src (pos - 1) ≠ CH_NEWLINE then false
  else
    let j := advanceWhile src (fun c => c = CH_SPACE) (pos + 1)
    j < src.length ∧ isDigit (chAt src j)

/-- `skipWhitespaceAndComments` (the outer `for(;;)` loop).  The source
mutates `this.pos` through the inner whitespace loop; here that position
(`advanceWhile src isWhitespace pos`) is written out at each use. -/
def skipWsLoop (src : JsStr) (pos : Nat) : Nat :=
  if advanceWhile src isWhitespace pos ≥ src.length then
    advanceWhile src isWhitespace pos
  else if chAt src (advanceWhile src isWhitespace pos) = CH_HASH ∧
      isLineMarker src (advanceWhile src isWhitespace pos) then
    skipWsLoop src (advanceWhile src (fun c => c ≠ CH_NEWLINE)
      (advanceWhile src isWhitespace pos))
  else if advanceWhile src isWhitespace pos + 1 < src.length ∧
      chAt src (advanceWhile src isWhitespace pos) = CH_SLASH ∧
      chAt src (advanceWhile src isWhitespace pos + 1) = CH_SLASH then
    skipWsLoop src (advanceWhile src (fun c => c ≠ CH_NEWLINE)
      (advanceWhile src isWhitespace pos))
  else if advanceWhile src isWhitespace pos + 1 < src.length ∧
      chAt src (advanceWhile src isWhitespace pos) = CH_SLASH ∧
      chAt src (advanceWhile src isWhitespace pos + 1) = CH_STAR then
    skipWsLoop src (skipBlockCommentLoop src
      (advanceWhile src isWhitespace pos + 2))
  else advanceWhile src isWhitespace pos
termination_by src.length - pos
decreasing_by
  · rename_i h1 hm
    have hge := advanceWhile_ge src isWhitespace pos
    have hgt : advanceWhile src isWhitespace pos + 1 ≤
        advanceWhile src (fun c => c ≠ CH_NEWLINE)
          (advanceWhile src isWhitespace pos) := by
      apply advanceWhile_gt src _ _ (by omega)
      simp only [hm.1]
      decide
    omega
  · rename_i h1 hm hlc
    have hge := advanceWhile_ge src isWhitespace pos
    have hgt : advanceWhile src isWhitespace pos + 1 ≤
        advanceWhile src (fun c => c ≠ CH_NEWLINE)
          (advanceWhile src isWhitespace pos) := by
      apply advanceWhile_gt src _ _ (by omega)
      simp only [hlc.2.1]
      decide
    omega
  · rename_i h1 hm hlc hbc
    have hge := advanceWhile_ge src isWhitespace pos
    have h2 := skipBlockCommentLoop_ge src
      (advanceWhile src isWhitespace pos + 2)
    omega

theorem skipWsLoop_ge (src : JsStr) (pos : Nat) : pos ≤ skipWsLoop src pos := by
  refine skipWsLoop.induct src (fun pos => pos ≤ skipWsLoop src pos)
    ?_ ?_ ?_ ?_ ?_ pos
  · intro pos h
    unfold skipWsLoop
    rw [if_pos h]
    exact advanceWhile_ge src isWhitespace pos
  · intro pos h1 hm ih
    unfold skipWsLoop
    rw [if_neg h1, if_pos hm]
    have hge := advanceWhile_ge src isWhitespace pos
    have hnl := advanceWhile_ge src (fun c => c ≠ CH_NEWLINE)
      (advanceWhile src isWhitespace pos)
    omega
  · intro pos h1 hm hlc ih
    unfold skipWsLoop
    rw [if_neg h1, if_neg hm, if_pos hlc]
    have hge := advanceWhile_ge src isWhitespace pos
    have hnl := advanceWhile_ge src (fun c => c ≠ CH_NEWLINE)
      (advanceWhile src isWhitespace pos)
    omega
  · intro pos h1 hm hlc hbc ih
    unfold skipWsLoop
    rw [if_neg h1, if_neg hm, if_neg hlc, if_pos hbc]
    have hge := advanceWhile_ge src isWhitespace pos
    have hbk := skipBlockCommentLoop_ge src (advanceWhile src isWhitespace pos + 2)
    omega
  · intro pos h1 hm hlc hbc
    unfold skipWsLoop
    rw [if_neg h1, if_neg hm, if_neg hlc, if_neg hbc]
    exact advanceWhile_ge src isWhitespace pos

theorem skipWsLoop_le_len (src : JsStr) (pos : Nat) (h : pos ≤ src.length) :
    skipWsLoop src pos ≤ src.length := by
  refine skipWsLoop.induct src
    (fun pos => pos ≤ src.length → skipWsLoop src pos ≤ src.length)
    ?_ ?_ ?_ ?_ ?_ pos h
  · intro pos h1 h
    unfold skipWsLoop
    rw [if_pos h1]
    exact advanceWhile_le_len src isWhitespace pos h
  · intro pos h1 hm ih h
    unfold skipWsLoop
    rw [if_neg h1, if_pos hm]
    exact ih (advanceWhile_le_len src _ _ (by
      have := advanceWhile_le_len src isWhitespace pos h
      omega))
  · intro pos h1 hm hlc ih h
    unfold skipWsLoop
    rw [if_neg h1, if_neg hm, if_pos hlc]
    exact ih (advanceWhile_le_len src _ _ (by
      have := advanceWhile_le_len src isWhitespace pos h
      omega))
  · intro pos h1 hm hlc hbc ih h
    unfold skipWsLoop
    rw [if_neg h1, if_neg hm, if_neg hlc, if_pos hbc]
    exact ih (skipBlockCommentLoop_le_len src _ (by
      have := advanceWhile_le_len src isWhitespace pos h
      omega))
  · intro pos h1 hm hlc hbc h
    unfold skipWsLoop
    rw [if_neg h1, if_neg hm, if_neg hlc, if_neg hbc]
    exact advanceWhile_le_len src isWhitespace pos h

/-- `s.substring(a, b)` on code units. -/
def substring (src : JsStr) (a b : Nat) : JsStr := (src.drop a).take (b - a)

/-- `parseBigHex` (`BigInt('0x'+s)` with catch-to-0): callers only pass
runs of hex digits, on which this fold is exact. -/
def parseBigHex (s : JsStr) : Int :=
  s.foldl (fun acc c => 16 * acc + (hexDigitVal c : Int)) 0

/-- `parseBigBin`. -/
def parseBigBin (s : JsStr) : Int :=
  s.foldl (fun acc c => 2 * acc + ((c - CH_0 : Nat) : Int)) 0

/-- `parseBigOct`. -/
def parseBigOct (s : JsStr) : Int :=
  s.foldl (fun acc c => 8 * acc + ((c - CH_0 : Nat) : Int)) 0

/-- `parseBigDec`. -/
def parseBigDec (s : JsStr) : Int :=
  s.foldl (fun acc c => 10 * acc + ((c - CH_0 : Nat) : Int)) 0

/-- `makeIntOrBigToken`. -/
def makeIntOrBigToken (kind : TokenKind) (start : Nat) (posEnd : Nat)
    (value : Int) : Token :=
  if value ≤ MAX_SAFE then
    { kind := kind, start := start, end_ := posEnd, value := some (.num value) }
  else
    { kind := kind, start := start, end_ := posEnd, bigValue := some value }

/-- `makeIntToken`: the integer promotion ladder (LP64). -/
def makeIntToken (value : Int) (isUnsigned isLong isLongLong isHexOrOctal :
    Bool) (start : Nat) (posEnd : Nat) : Token :=
  let I32_MAX : Int := 0x7fffffff
  let U32_MAX : Int := 0xffffffff
  let I64_MAX : Int := 0x7fffffffffffffff
  if isUnsigned ∧ isLongLong then
    makeIntOrBigToken .ULongLongLiteral start posEnd value
  else if isUnsigned ∧ isLong then
    makeIntOrBigToken .ULongLiteral start posEnd value
  else if isUnsigned then
    if value > U32_MAX then makeIntOrBigToken .ULongLiteral start posEnd value
    else makeIntOrBigToken .UIntLiteral start posEnd value
  else if isLongLong then
    if isHexOrOctal ∧ value > I64_MAX then
      makeIntOrBigToken .ULongLongLiteral start posEnd value
    else makeIntOrBigToken .LongLongLiteral start posEnd value
  else if isLong then
    if isHexOrOctal ∧ value > I64_MAX then
      makeIntOrBigToken .ULongLiteral start posEnd value
    else makeIntOrBigToken .LongLiteral start posEnd value
  else if isHexOrOctal then
    if value ≤ I32_MAX then makeIntOrBigToken .IntLiteral start posEnd value
    else if value ≤ U32_MAX then
      makeIntOrBigToken .UIntLiteral start posEnd value
    else if value ≤ I64_MAX then
      makeIntOrBigToken .LongLiteral start posEnd value
    else makeIntOrBigToken .ULongLiteral start posEnd value
  else if value > I64_MAX then makeIntOrBigToken .ULongLiteral start posEnd value
  else if value ≤ I32_MAX then makeIntOrBigToken .IntLiteral start posEnd value
  else makeIntOrBigToken .LongLiteral start posEnd value

/-- The `for(;;)` body of `parseIntSuffix` collecting `u`/`l`/`ll`. -/
def intSuffixLoop (src : JsStr) (isU isL isLL : Bool) (pos : Nat) :
    (Bool × Bool × Bool) × Nat :=
  if pos < src.length ∧ (chAt src pos = CH_u ∨ chAt src pos = CH_U) then
    intSuffixLoop src true isL isLL (pos + 1)
  else if pos < src.length ∧ (chAt src pos = CH_l ∨ chAt src pos = CH_L) then
    if pos + 1 < src.length ∧
        (chAt src (pos + 1) = CH_l ∨ chAt src (pos + 1) = CH_L) then
      intSuffixLoop src isU isL true (pos + 2)
    else intSuffixLoop src isU true isLL (pos + 1)
  else ((isU, isL, isLL), pos)
termination_by src.length - pos
decreasing_by all_goals omega

/-- `parseIntSuffix`. -/
def parseIntSuffix (src : JsStr) (pos : Nat) :
    (Bool × Bool × Bool × Bool) × Nat :=
  if pos < src.length ∧ (chAt src pos = CH_i ∨ chAt src pos = CH_I) ∧
     (let next := if pos + 1 < src.length then chAt src (pos + 1) else 0
      ¬(isAlphanumeric next) ∧ next ≠ CH_UNDERSCORE) then
    ((false, false, false, true), pos + 1)
  else
    let r := intSuffixLoop src false false false pos
    let p := r.2
    if p < src.length ∧
       (chAt src p = CH_i ∨ chAt src p = CH_I ∨ chAt src p = CH_j ∨
        chAt src p = CH_J) ∧
       (let next := if p + 1 < src.length then chAt src (p + 1) else 0
        ¬(isAlphanumeric next) ∧ next ≠ CH_UNDERSCORE) then
      ((r.1.1, r.1.2.1, r.1.2.2, true), p + 1)
    else ((r.1.1, r.1.2.1, r.1.2.2, false), p)

/-- `finishIntLiteral`. -/
def finishIntLiteral (src : JsStr) (value : Int) (isHexOrOctal : Bool)
    (start pos : Nat) : Token × Nat :=
  let r := parseIntSuffix src pos
  let p := r.2
  if r.1.2.2.2 then
    ({ kind := .ImaginaryLiteral, start := start, end_ := p,
       value := some (.num value) }, p)
  else (makeIntToken value r.1.1 r.1.2.1 r.1.2.2.1 isHexOrOctal start p, p)

/-- `parseSimpleFloatSuffix` (`f`→1, `l`→2, none→0). -/
def parseSimpleFloatSuffix (src : JsStr) (pos : Nat) : Nat × Nat :=
  if pos < src.length ∧ (chAt src pos = CH_f ∨ chAt src pos = CH_F) then
    (1, pos + 1)
  else if pos < src.length ∧ (chAt src pos = CH_l ∨ chAt src pos = CH_L) then
    (2, pos + 1)
  else (0, pos)

/-- `parseFloatSuffix` (float kind and imaginary flag). -/
def parseFloatSuffix (src : JsStr) (pos : Nat) : (Nat × Bool) × Nat :=
  let r :=
    if pos < src.length ∧ (chAt src pos = CH_f ∨ chAt src pos = CH_F) then
      if pos + 1 < src.length ∧
          (chAt src (pos + 1) = CH_i ∨ chAt src (pos + 1) = CH_I) then
        ((1, true), pos + 2)
      else ((1, false), pos + 1)
    else if pos < src.length ∧ (chAt src pos = CH_l ∨ chAt src pos = CH_L) then
      if pos + 1 < src.length ∧
          (chAt src (pos + 1) = CH_i ∨ chAt src (pos + 1) = CH_I) then
        ((2, true), pos + 2)
      else ((2, false), pos + 1)
    else if pos < src.length ∧ (chAt src pos = CH_i ∨ chAt src pos = CH_I) then
      if pos + 1 < src.length ∧
          (chAt src (pos + 1) = CH_f ∨ chAt src (pos + 1) = CH_F) then
        ((1, true), pos + 2)
      else if pos + 1 < src.length ∧
          (chAt src (pos + 1) = CH_l ∨ chAt src (pos + 1) = CH_L) then
        ((2, true), pos + 2)
      else ((0, true), pos + 1)
    else ((0, false), pos)
  -- trailing 'j'/'J' (only when not already imaginary)
  if ¬r.1.2 ∧ r.2 < src.length ∧
      (chAt src r.2 = CH_j ∨ chAt src r.2 = CH_J) then
    ((r.1.1, true), r.2 + 1)
  else r

/-- `makeFloatToken`.  The double produced by `parseFloat(text) || 0.0`
is carried opaquely as the literal text (see module docstring). -/
def makeFloatToken (text : JsStr) (floatKind : Nat) (isImaginary : Bool)
    (start posEnd : Nat) : Token × Nat :=
  let v : JsVal := .flt text
  if isImaginary then
    if floatKind = 1 then
      ({ kind := .ImaginaryLiteralF32, start := start, end_ := posEnd,
         value := some v }, posEnd)
    else if floatKind = 2 then
      ({ kind := .ImaginaryLiteralLongDouble, start := start, end_ := posEnd,
         value := some v }, posEnd)
    else
      ({ kind := .ImaginaryLiteral, start := start, end_ := posEnd,
         value := some v }, posEnd)
  else if floatKind = 1 then
    ({ kind := .FloatLiteralF32, start := start, end_ := posEnd,
       value := some v }, posEnd)
  else if floatKind = 2 then
    ({ kind := .FloatLiteralLongDouble, start := start, end_ := posEnd,
       value := some v }, posEnd)
  else
    ({ kind := .FloatLiteral, start := start, end_ := posEnd,
       value := some v }, posEnd)

/-- The fractional-digit cursor of `lexHexFloat` (`hexEnd` is `this.pos`
after the integral hex run). -/
def hexFracEnd (src : JsStr) (hexEnd : Nat) (hasDot : Bool) : Nat :=
  if hasDot then advanceWhile src isHexDigit (hexEnd + 1) else hexEnd

/-- The exponent cursor of `lexHexFloat`: `p`/`P`, optional sign, digit
run. -/
def hexExpEnd (src : JsStr) (fracEnd : Nat) : Nat :=
  if fracEnd < src.length ∧
      (chAt src fracEnd = CH_p ∨ chAt src fracEnd = CH_P) then
    advanceWhile src isDigit
      (if fracEnd + 1 < src.length ∧
          (chAt src (fracEnd + 1) = CH_MINUS ∨
           chAt src (fracEnd + 1) = CH_PLUS) then fracEnd + 2
       else fracEnd + 1)
  else fracEnd

/-- `lexHexFloat`.  The double value `(intVal + fracVal) * 2^exp` is
carried opaquely as the literal text. -/
def lexHexFloat (src : JsStr) (start hexStart hexEnd : Nat) (hasDot : Bool) :
    Token × Nat :=
  let expEnd := hexExpEnd src (hexFracEnd src hexEnd hasDot)
  let r := parseSimpleFloatSuffix src expEnd
  let text := substring src start expEnd
  if r.1 = 1 then
    ({ kind := .FloatLiteralF32, start := start, end_ := r.2,
       value := some (.flt text) }, r.2)
  else if r.1 = 2 then
    ({ kind := .FloatLiteralLongDouble, start := start, end_ := r.2,
       value := some (.flt text) }, r.2)
  else
    ({ kind := .FloatLiteral, start := start, end_ := r.2,
       value := some (.flt text) }, r.2)

/-- `lexHexNumber` (entered at `start` on `0x`/`0X`). -/
def lexHexNumber (src : JsStr) (start : Nat) : Token × Nat :=
  let hexStart := start + 2
  let hexEnd := advanceWhile src isHexDigit hexStart
  let hasDot := hexEnd < src.length ∧ chAt src hexEnd = CH_DOT
  let afterDotHasP :=
    hasDot ∧
    (let look := advanceWhile src isHexDigit (hexEnd + 1)
     look < src.length ∧ (chAt src look = CH_p ∨ chAt src look = CH_P))
  let hasP := hexEnd < src.length ∧
    (chAt src hexEnd = CH_p ∨ chAt src hexEnd = CH_P)
  if (hasDot ∧ afterDotHasP) ∨ hasP then
    lexHexFloat src start hexStart hexEnd hasDot
  else
    let hexStr := substring src hexStart hexEnd
    let value := if hexStr.length > 0 then parseBigHex hexStr else 0
    finishIntLiteral src value true start hexEnd

/-- `lexBinaryNumber`. -/
def lexBinaryNumber (src : JsStr) (start : Nat) : Token × Nat :=
  let binStart := start + 2
  let binEnd := advanceWhile src
    (fun c => c = CH_0 ∨ c = 0x31) binStart
  let binStr := substring src binStart binEnd
  let value := if binStr.length > 0 then parseBigBin binStr else 0
  finishIntLiteral src value true start binEnd

/-- `lexOctalNumber`: `none` means "backtrack to decimal". -/
def lexOctalNumber (src : JsStr) (start : Nat) : Option (Token × Nat) :=
  if chAt src start ≠ CH_0 then none
  else if ¬(start + 1 < src.length ∧ isDigit (chAt src (start + 1))) then none
  else
    let octStart := start + 1
    let octEnd := advanceWhile src (fun c => CH_0 ≤ c ∧ c ≤ CH_7) octStart
    let c := chAt src octEnd
    if octEnd < src.length ∧
        (c = CH_DOT ∨ c = CH_e ∨ c = CH_E ∨ c = 0x38 ∨ c = CH_9) ∧
        ¬(c = CH_DOT ∧ octEnd + 2 < src.length ∧
          chAt src (octEnd + 1) = CH_DOT ∧ chAt src (octEnd + 2) = CH_DOT) then
      none
    else
      let octStr := substring src octStart octEnd
      let value := if octStr.length > 0 then parseBigOct octStr else 0
      some (finishIntLiteral src value true start octEnd)

/-- `lexDecimalNumber`. -/
def lexDecimalNumber (src : JsStr) (start : Nat) : Token × Nat :=
  let intEnd := advanceWhile src isDigit start
  let hasDot := intEnd < src.length ∧ chAt src intEnd = CH_DOT ∧
    ¬(intEnd + 2 < src.length ∧ chAt src (intEnd + 1) = CH_DOT ∧
      chAt src (intEnd + 2) = CH_DOT)
  let p1 := if hasDot then advanceWhile src isDigit (intEnd + 1) else intEnd
  let hasExp := p1 < src.length ∧
    (chAt src p1 = CH_e ∨ chAt src p1 = CH_E)
  let numEnd :=
    if hasExp then
      let p2 := if p1 + 1 < src.length ∧
          (chAt src (p1 + 1) = CH_PLUS ∨ chAt src (p1 + 1) = CH_MINUS) then
        p1 + 2
      else p1 + 1
      advanceWhile src isDigit p2
    else p1
  if hasDot ∨ hasExp then
    let r := parseFloatSuffix src numEnd
    makeFloatToken (substring src start numEnd) r.1.1 r.1.2 start r.2
  else
    finishIntLiteral src (parseBigDec (substring src start numEnd)) false
      start numEnd

/-- `lexNumber` dispatch. -/
def lexNumber (src : JsStr) (start : Nat) : Token × Nat :=
  if start + 1 < src.length ∧ chAt src start = CH_0 ∧
      (chAt src (start + 1) = CH_x ∨ chAt src (start + 1) = CH_X) then
    lexHexNumber src start
  else if start + 1 < src.length ∧ chAt src start = CH_0 ∧
      (chAt src (start + 1) = CH_b ∨ chAt src (start + 1) = CH_B) then
    lexBinaryNumber src start
  else
    match lexOctalNumber src start with
    | some r => r
    | none => lexDecimalNumber src start

/-- Hex-escape digit loop of `lexEscapeChar` (`\\xNN...`, unbounded). -/
def escHexLoop (src : JsStr) (val : Nat) (pos : Nat) : Nat × Nat :=
  if pos < src.length ∧ isHexDigit (chAt src pos) then
    escHexLoop src (val * 16 + hexDigitVal (chAt src pos)) (pos + 1)
  else (val, pos)
termination_by src.length - pos
decreasing_by omega

theorem escHexLoop_ge (src : JsStr) (val pos : Nat) :
    pos ≤ (escHexLoop src val pos).2 := by
  unfold escHexLoop
  split
  · exact le_trans (Nat.le_succ pos)
      (escHexLoop_ge src (val * 16 + hexDigitVal (chAt src pos)) (pos + 1))
  · exact le_refl pos
termination_by src.length - pos
decreasing_by omega

theorem escHexLoop_le_len (src : JsStr) (val pos : Nat)
    (h : pos ≤ src.length) : (escHexLoop src val pos).2 ≤ src.length := by
  unfold escHexLoop
  split
  · exact escHexLoop_le_len src _ (pos + 1) (by omega)
  · exact h
termination_by src.length - pos
decreasing_by omega

/-- `lexUnicodeEscape`'s bounded digit loop. -/
def uniEscLoop (src : JsStr) (val : Nat) : Nat → Nat → Nat × Nat
  | 0, pos => (val, pos)
  | n + 1, pos =>
    if pos < src.length ∧ isHexDigit (chAt src pos) then
      uniEscLoop src (val * 16 + hexDigitVal (chAt src pos)) n (pos + 1)
    else (val, pos)

theorem uniEscLoop_ge (src : JsStr) (val n pos : Nat) :
    pos ≤ (uniEscLoop src val n pos).2 := by
  induction n generalizing val pos with
  | zero => exact le_refl pos
  | succ n ih =>
    unfold uniEscLoop
    split
    · exact le_trans (Nat.le_succ pos) (ih _ (pos + 1))
    · exact le_refl pos

theorem uniEscLoop_le_len (src : JsStr) (val n pos : Nat)
    (h : pos ≤ src.length) : (uniEscLoop src val n pos).2 ≤ src.length := by
  induction n generalizing val pos with
  | zero => exact h
  | succ n ih =>
    unfold uniEscLoop
    split
    · exact ih _ (pos + 1) (by omega)
    · exact h

/-- `lexUnicodeEscape`. -/
def lexUnicodeEscape (src : JsStr) (numDigits pos : Nat) : JsStr × Nat :=
  (fromCodePointOrReplacement (uniEscLoop src 0 numDigits pos).1,
   (uniEscLoop src 0 numDigits pos).2)

/-- The bounded (at most two more digits) octal-escape loop. -/
def octEscLoop (src : JsStr) (val : Nat) : Nat → Nat → Nat × Nat
  | 0, pos => (val, pos)
  | n + 1, pos =>
    if pos < src.length ∧ CH_0 ≤ chAt src pos ∧ chAt src pos ≤ CH_7 then
      octEscLoop src (val * 8 + (chAt src pos - CH_0)) n (pos + 1)
    else (val, pos)

theorem octEscLoop_ge (src : JsStr) (val n pos : Nat) :
    pos ≤ (octEscLoop src val n pos).2 := by
  induction n generalizing val pos with
  | zero => exact le_refl pos
  | succ n ih =>
    unfold octEscLoop
    split
    · exact le_trans (Nat.le_succ pos) (ih _ (pos + 1))
    · exact le_refl pos

theorem octEscLoop_le_len (src : JsStr) (val n pos : Nat)
    (h : pos ≤ src.length) : (octEscLoop src val n pos).2 ≤ src.length := by
  induction n generalizing val pos with
  | zero => exact h
  | succ n ih =>
    unfold octEscLoop
    split
    · exact ih _ (pos + 1) (by omega)
    · exact h

/-- The single-character escapes of `lexEscapeChar` (its branches that
consume no further input).  In the source these cases are interleaved
with the `\\x`/`\\u`/`\\U`/octal cases of `lexEscapeChar` below; all the
conditions are mutually exclusive, so hoisting the multi-character cases
first is equivalent. -/
def escSimple (c : Nat) : JsStr :=
  if c = CH_n then [0x0a]
  else if c = CH_t then [0x09]
  else if c = CH_r then [0x0d]
  else if c = CH_BSLASH then [CH_BSLASH]
  else if c = CH_SQUOTE then [CH_SQUOTE]
  else if c = CH_DQUOTE then [CH_DQUOTE]
  else if c = 0x61 then [0x07]
  else if c = CH_b then [0x08]
  else if c = CH_e ∨ c = CH_E then [0x1b]
  else if c = CH_f then [0x0c]
  else if c = CH_v then [0x0b]
  else [c]

/-- `lexEscapeChar` (called on the character after the backslash; if at
end of input it returns `"\\0"` without advancing).  `val & 0xff` for
hex/octal escapes is `% 256` since the accumulators are non-negative. -/
def lexEscapeChar (src : JsStr) (pos : Nat) : JsStr × Nat :=
  if pos ≥ src.length then ([0], pos)
  else if chAt src pos = CH_x then
    ([(escHexLoop src 0 (pos + 1)).1 % 256], (escHexLoop src 0 (pos + 1)).2)
  else if chAt src pos = CH_u then lexUnicodeEscape src 4 (pos + 1)
  else if chAt src pos = CH_U then lexUnicodeEscape src 8 (pos + 1)
  else if CH_0 ≤ chAt src pos ∧ chAt src pos ≤ CH_7 then
    ([(octEscLoop src (chAt src pos - CH_0) 2 (pos + 1)).1 % 256],
     (octEscLoop src (chAt src pos - CH_0) 2 (pos + 1)).2)
  else (escSimple (chAt src pos), pos + 1)

theorem lexEscapeChar_ge (src : JsStr) (pos : Nat) :
    pos ≤ (lexEscapeChar src pos).2 := by
  have h1 := escHexLoop_ge src 0 (pos + 1)
  have h2 := uniEscLoop_ge src 0 4 (pos + 1)
  have h3 := uniEscLoop_ge src 0 8 (pos + 1)
  have h4 := octEscLoop_ge src (chAt src pos - CH_0) 2 (pos + 1)
  unfold lexEscapeChar lexUnicodeEscape
  split
  · omega
  · split
    · omega
    · split
      · omega
      · split
        · omega
        · split
          · omega
          · omega

theorem lexEscapeChar_le_len (src : JsStr) (pos : Nat) (h : pos ≤ src.length) :
    (lexEscapeChar src pos).2 ≤ src.length := by
  by_cases hp : pos ≥ src.length
  · unfold lexEscapeChar
    rw [if_pos hp]
    omega
  · have h1 := escHexLoop_le_len src 0 (pos + 1) (by omega)
    have h2 := uniEscLoop_le_len src 0 4 (pos + 1) (by omega)
    have h3 := uniEscLoop_le_len src 0 8 (pos + 1) (by omega)
    have h4 := octEscLoop_le_len src (chAt src pos - CH_0) 2 (pos + 1)
      (by omega)
    unfold lexEscapeChar lexUnicodeEscape
    split
    · omega
    · split
      · omega
      · split
        · omega
        · split
          · omega
          · split
            · omega
            · omega

/-- UTF-8 byte encoding of one code point, as the `push`/`fromCharCode`
sequences in `lexString`/`lexChar` produce it (cp ≥ 0x80 cases). -/
def utf8Bytes (cp : Nat) : List Nat :=
  if cp < 0x80 then [cp]
  else if cp < 0x800 then [0xc0 + cp / 64, 0x80 + cp % 64]
  else if cp < 0x10000 then
    [0xe0 + cp / 4096, 0x80 + cp / 64 % 64, 0x80 + cp % 64]
  else
    [0xf0 + cp / 262144, 0x80 + cp / 4096 % 64, 0x80 + cp / 64 % 64,
     0x80 + cp % 64]

/-- The `for (i...)` loop in `lexString` encoding every code point of an
escape result as UTF-8 (a surrogate pair consumes two units). -/
def utf8Expand (s : JsStr) : JsStr :=
  match s with
  | [] => []
  | u :: rest =>
    let cp := codePointAt (u :: rest) 0
    utf8Bytes cp ++ (if cp > 0xffff then utf8Expand (rest.drop 1)
                     else utf8Expand rest)
termination_by s.length
decreasing_by
  · simp only [List.length_cons, List.length_drop]
    omega
  · simp only [List.length_cons]
    omega

/-- The `if (ch.codePointAt(0)! > 0xff) ... else s += ch` step of the
`lexString` loop body. -/
def strAppendEsc (acc : JsStr) (e : JsStr) : JsStr :=
  if codePointAt e 0 > 0xff then acc ++ utf8Expand e else acc ++ e

/-- The accumulation loop of `lexString`. -/
def lexStringLoop (src : JsStr) (acc : JsStr) (pos : Nat) : JsStr × Nat :=
  if pos < src.length ∧ chAt src pos ≠ CH_DQUOTE then
    if chAt src pos = CH_BSLASH then
      if pos + 1 < src.length then
        lexStringLoop src (strAppendEsc acc (lexEscapeChar src (pos + 1)).1)
          (lexEscapeChar src (pos + 1)).2
      else lexStringLoop src acc (pos + 1)
    else lexStringLoop src (acc ++ [chAt src pos]) (pos + 1)
  else (acc, pos)
termination_by src.length - pos
decreasing_by
  all_goals have := lexEscapeChar_ge src (pos + 1)
  all_goals omega

theorem lexStringLoop_ge (src : JsStr) (acc : JsStr) (pos : Nat) :
    pos ≤ (lexStringLoop src acc pos).2 := by
  unfold lexStringLoop
  have he := lexEscapeChar_ge src (pos + 1)
  split
  · split
    · split
      · exact le_trans (by omega)
          (lexStringLoop_ge src
            (strAppendEsc acc (lexEscapeChar src (pos + 1)).1)
            (lexEscapeChar src (pos + 1)).2)
      · exact le_trans (Nat.le_succ pos) (lexStringLoop_ge src acc (pos + 1))
    · exact le_trans (Nat.le_succ pos)
        (lexStringLoop_ge src (acc ++ [chAt src pos]) (pos + 1))
  · exact le_refl pos
termination_by src.length - pos
decreasing_by
  all_goals omega

theorem lexStringLoop_le_len (src : JsStr) (acc : JsStr) (pos : Nat)
    (h : pos ≤ src.length) : (lexStringLoop src acc pos).2 ≤ src.length := by
  unfold lexStringLoop
  have he := lexEscapeChar_ge src (pos + 1)
  split
  · rename_i hg
    split
    · split
      · exact lexStringLoop_le_len src _ _
          (lexEscapeChar_le_len src (pos + 1) (by omega))
      · exact lexStringLoop_le_len src _ _ (by omega)
    · exact lexStringLoop_le_len src _ _ (by omega)
  · exact h
termination_by src.length - pos
decreasing_by
  all_goals omega

/-- `lexString` (narrow string; Unicode escapes above `0xFF` are UTF-8
expanded byte-by-byte). -/
def lexString (src : JsStr) (start pos : Nat) : Token × Nat :=
  let r := lexStringLoop src [] (pos + 1)
  let p := if r.2 < src.length then r.2 + 1 else r.2
  ({ kind := .StringLiteral, start := start, end_ := p,
     value := some (.str r.1) }, p)

/-- The accumulation loop shared by `lexWideString`/`lexChar16String`
(no UTF-8 expansion). -/
def lexWideStringLoop (src : JsStr) (acc : JsStr) (pos : Nat) : JsStr × Nat :=
  if pos < src.length ∧ chAt src pos ≠ CH_DQUOTE then
    if chAt src pos = CH_BSLASH then
      if pos + 1 < src.length then
        lexWideStringLoop src (acc ++ (lexEscapeChar src (pos + 1)).1)
          (lexEscapeChar src (pos + 1)).2
      else lexWideStringLoop src acc (pos + 1)
    else lexWideStringLoop src (acc ++ [chAt src pos]) (pos + 1)
  else (acc, pos)
termination_by src.length - pos
decreasing_by
  all_goals have := lexEscapeChar_ge src (pos + 1)
  all_goals omega

theorem lexWideStringLoop_ge (src : JsStr) (acc : JsStr) (pos : Nat) :
    pos ≤ (lexWideStringLoop src acc pos).2 := by
  unfold lexWideStringLoop
  have he := lexEscapeChar_ge src (pos + 1)
  split
  · split
    · split
      · exact le_trans (by omega)
          (lexWideStringLoop_ge src (acc ++ (lexEscapeChar src (pos + 1)).1)
            (lexEscapeChar src (pos + 1)).2)
      · exact le_trans (Nat.le_succ pos)
          (lexWideStringLoop_ge src acc (pos + 1))
    · exact le_trans (Nat.le_succ pos)
        (lexWideStringLoop_ge src (acc ++ [chAt src pos]) (pos + 1))
  · exact le_refl pos
termination_by src.length - pos
decreasing_by
  all_goals omega

theorem lexWideStringLoop_le_len (src : JsStr) (acc : JsStr) (pos : Nat)
    (h : pos ≤ src.length) :
    (lexWideStringLoop src acc pos).2 ≤ src.length := by
  unfold lexWideStringLoop
  have he := lexEscapeChar_ge src (pos + 1)
  split
  · rename_i hg
    split
    · split
      · exact lexWideStringLoop_le_len src _ _
          (lexEscapeChar_le_len src (pos + 1) (by omega))
      · exact lexWideStringLoop_le_len src _ _ (by omega)
    · exact lexWideStringLoop_le_len src _ _ (by omega)
  · exact h
termination_by src.length - pos
decreasing_by
  all_goals omega

/-- `lexWideString`. -/
def lexWideString (src : JsStr) (start pos : Nat) : Token × Nat :=
  let r := lexWideStringLoop src [] (pos + 1)
  let p := if r.2 < src.length then r.2 + 1 else r.2
  ({ kind := .WideStringLiteral, start := start, end_ := p,
     value := some (.str r.1) }, p)

/-- `lexChar16String`. -/
def lexChar16String (src : JsStr) (start pos : Nat) : Token × Nat :=
  let r := lexWideStringLoop src [] (pos + 1)
  let p := if r.2 < src.length then r.2 + 1 else r.2
  ({ kind := .Char16StringLiteral, start := start, end_ := p,
     value := some (.str r.1) }, p)

/-- One `(value << 8) | byte` step (JavaScript 32-bit semantics). -/
def packByte (value : Int) (byte : Int) : Int := jsOr (jsShl value 8) byte

/-- The per-character body of the `lexChar` loop: returns the updated
packed value and the number of bytes contributed. -/
def charPack (value : Int) (ch : JsStr) : Int × Nat :=
  let cp := codePointAt ch 0
  if cp > 0xff then
    let buf : List Nat :=
      if cp < 0x800 then [0xc0 + cp / 64, 0x80 + cp % 64]
      else if cp < 0x10000 then
        [0xe0 + cp / 4096, 0x80 + cp / 64 % 64, 0x80 + cp % 64]
      else
        [0xf0 + cp / 262144, 0x80 + cp / 4096 % 64, 0x80 + cp / 64 % 64,
         0x80 + cp % 64]
    (buf.foldl (fun v b => packByte v (Int.ofNat b)) value, buf.length)
  else (packByte value (jsAnd (Int.ofNat cp) 0xff), 1)

/-- The accumulation loop of `lexChar`. -/
def lexCharLoop (src : JsStr) (value : Int) (charCount : Nat) (pos : Nat) :
    Int × Nat × Nat :=
  if pos < src.length ∧ chAt src pos ≠ CH_SQUOTE then
    if chAt src pos = CH_BSLASH then
      lexCharLoop src (charPack value (lexEscapeChar src (pos + 1)).1).1
        (charCount + (charPack value (lexEscapeChar src (pos + 1)).1).2)
        (lexEscapeChar src (pos + 1)).2
    else
      lexCharLoop src (charPack value [chAt src pos]).1
        (charCount + (charPack value [chAt src pos]).2) (pos + 1)
  else (value, charCount, pos)
termination_by src.length - pos
decreasing_by
  all_goals have := lexEscapeChar_ge src (pos + 1)
  all_goals omega

theorem lexCharLoop_ge (src : JsStr) (value : Int) (charCount pos : Nat) :
    pos ≤ (lexCharLoop src value charCount pos).2.2 := by
  unfold lexCharLoop
  have he := lexEscapeChar_ge src (pos + 1)
  split
  · split
    · exact le_trans (by omega)
        (lexCharLoop_ge src (charPack value (lexEscapeChar src (pos + 1)).1).1
          (charCount + (charPack value (lexEscapeChar src (pos + 1)).1).2)
          (lexEscapeChar src (pos + 1)).2)
    · exact le_trans (Nat.le_succ pos)
        (lexCharLoop_ge src (charPack value [chAt src pos]).1
          (charCount + (charPack value [chAt src pos]).2) (pos + 1))
  · exact le_refl pos
termination_by src.length - pos
decreasing_by
  all_goals omega

theorem lexCharLoop_le_len (src : JsStr) (value : Int) (charCount pos : Nat)
    (h : pos ≤ src.length) :
    (lexCharLoop src value charCount pos).2.2 ≤ src.length := by
  unfold lexCharLoop
  have he := lexEscapeChar_ge src (pos + 1)
  split
  · rename_i hg
    split
    · exact lexCharLoop_le_len src _ _ _
        (lexEscapeChar_le_len src (pos + 1) (by omega))
    · exact lexCharLoop_le_len src _ _ _ (by omega)
  · exact h
termination_by src.length - pos
decreasing_by
  all_goals omega

/-- `lexChar` (entered with the cursor `pos` on the opening quote): at
most one packed byte gives a `CharLiteral`, more give a multi-character
`IntLiteral`. -/
def lexChar (src : JsStr) (start pos : Nat) : Token × Nat :=
  let r := lexCharLoop src 0 0 (pos + 1)
  let p := if r.2.2 < src.length ∧ chAt src r.2.2 = CH_SQUOTE then r.2.2 + 1
           else r.2.2
  if r.2.1 ≤ 1 then
    let ch : JsStr := if r.1 = 0 then [0] else fromCharCode (jsAnd r.1 0xff)
    ({ kind := .CharLiteral, start := start, end_ := p,
       value := some (.str ch) }, p)
  else
    ({ kind := .IntLiteral, start := start, end_ := p,
       value := some (.num r.1) }, p)

/-- `lexWideChar` (`L'x'`, `u'x'`, `U'x'`). -/
def lexWideChar (src : JsStr) (start pos0 : Nat) : Token × Nat :=
  let pos := pos0 + 1
  let vr : Int × Nat :=
    if pos < src.length ∧ chAt src pos ≠ CH_SQUOTE then
      if chAt src pos = CH_BSLASH then
        ((Int.ofNat (codePointAt (lexEscapeChar src (pos + 1)).1 0)),
         (lexEscapeChar src (pos + 1)).2)
      else
        (Int.ofNat (codePointAt src pos),
         pos + (if codePointAt src pos > 0xffff then 2 else 1))
    else (0, pos)
  let p1 := advanceWhile src (fun c => c ≠ CH_SQUOTE) vr.2
  let p2 := if p1 < src.length ∧ chAt src p1 = CH_SQUOTE then p1 + 1 else p1
  ({ kind := .IntLiteral, start := start, end_ := p2,
     value := some (.num vr.1) }, p2)

/-- JS `String.prototype.startsWith`. -/
def startsWith : JsStr → JsStr → Bool
  | _, [] => true
  | [], _ :: _ => false
  | c :: s, p :: ps => c == p && startsWith s ps

/-- JS `parseInt(s, 10)`, restricted to the inputs it receives here: the
argument is always a suffix of an identifier (characters drawn from
`[A-Za-z0-9_$]`), so it never starts with whitespace or a sign.
`none` models `NaN`. -/
def parseIntDec (s : JsStr) : Option Int :=
  let ds := s.takeWhile isDigit
  if ds.isEmpty then none
  else some (Int.ofNat (ds.foldl (fun a c => a * 10 + (c - CH_0)) 0))

/-- `Scanner.tryPragmaPackToken` (static). -/
def tryPragmaPackToken (text : JsStr) : Option (TokenKind × Option JsVal) :=
  if ¬ startsWith text (litStr "__ccc_pack_") then none
  else
    let rest := text.drop 11
    if rest = litStr "pop" then some (.PragmaPackPop, none)
    else if rest = litStr "reset" then some (.PragmaPackReset, none)
    else if rest = litStr "push_only" then some (.PragmaPackPushOnly, none)
    else if startsWith rest (litStr "set_") then
      -- a string starting with `set_` cannot also start with `push_`, so
      -- when the digits are absent (NaN) the source falls through to null
      match parseIntDec (rest.drop 4) with
      | some n => some (.PragmaPackSet, some (.num n))
      | none => none
    else if startsWith rest (litStr "push_") then
      match parseIntDec (rest.drop 5) with
      | some n => some (.PragmaPackPush, some (.num n))
      | none => none
    else none

/-- `Scanner.tryPragmaVisibilityToken` (static). -/
def tryPragmaVisibilityToken (text : JsStr) :
    Option (TokenKind × Option JsVal) :=
  if ¬ startsWith text (litStr "__ccc_visibility_") then none
  else
    let rest := text.drop 17
    if rest = litStr "pop" then some (.PragmaVisibilityPop, none)
    else if startsWith rest (litStr "push_") then
      if rest.drop 5 = litStr "hidden" ∨ rest.drop 5 = litStr "default" ∨
         rest.drop 5 = litStr "protected" ∨ rest.drop 5 = litStr "internal" then
        some (.PragmaVisibilityPush, some (.str (rest.drop 5)))
      else none
    else none

/-- The tail of `lexIdentifier` once the identifier text is fixed:
synthetic pragma tokens, then keywords, then a plain identifier. -/
def identFinish (src : JsStr) (gnuExtensions : Bool) (start pos : Nat) :
    Token :=
  let text := substring src start pos
  match tryPragmaPackToken text with
  | some kv => { kind := kv.1, start := start, end_ := pos, value := kv.2 }
  | none =>
    match tryPragmaVisibilityToken text with
    | some kv => { kind := kv.1, start := start, end_ := pos, value := kv.2 }
    | none =>
      match keywordFromString text gnuExtensions with
      | some kw => { kind := kw, start := start, end_ := pos }
      | none =>
        { kind := .Identifier, start := start, end_ := pos,
          value := some (.str text) }

/-- `lexIdentifier` (entered at `start`, where `isIdentStart` holds):
consume the identifier run, then dispatch wide/unicode literal prefixes
(`L' u' U' L" U" u" u8"`), synthetic pragma tokens, keywords, and plain
identifiers.  The string/char lexers receive both the token `start` and
the current cursor (the quote position). -/
def lexIdentifier (src : JsStr) (gnuExtensions : Bool) (start : Nat) :
    Token × Nat :=
  let pos := advanceWhile src isIdentContinue start
  let wide : Option (Token × Nat) :=
    if pos < src.length ∧
        (chAt src pos = CH_SQUOTE ∨ chAt src pos = CH_DQUOTE) then
      let widePfx : Bool :=
        if pos - start = 1 then
          chAt src start == CH_L || chAt src start == CH_u ||
            chAt src start == CH_U
        else if pos - start = 2 then
          chAt src start == CH_u && chAt src (start + 1) == 0x38
        else false
      if widePfx then
        if chAt src pos = CH_SQUOTE then some (lexWideChar src start pos)
        else if pos - start = 1 ∧
            (chAt src start = CH_L ∨ chAt src start = CH_U) then
          some (lexWideString src start pos)
        else if pos - start = 1 ∧ chAt src start = CH_u then
          some (lexChar16String src start pos)
        else some (lexString src start pos)
      else none
    else none
  match wide with
  | some r => r
  | none => (identFinish src gnuExtensions start pos, pos)

/-- The punctuation/operator switch of `lexPunctuation`, split into
four chunks in source order (the guarding characters are mutually
exclusive, so first-match chaining is the same as one switch).  Each
entry is the token kind and end cursor; `none` is the unknown default
case. -/
def punctSwitch1 (src : JsStr) (pos : Nat) : Option (TokenKind × Nat) :=
  if chAt src pos = CH_LPAREN then some (.LParen, pos + 1)
  else if chAt src pos = CH_RPAREN then some (.RParen, pos + 1)
  else if chAt src pos = CH_LBRACE then some (.LBrace, pos + 1)
  else if chAt src pos = CH_RBRACE then some (.RBrace, pos + 1)
  else if chAt src pos = CH_LBRACKET then some (.LBracket, pos + 1)
  else if chAt src pos = CH_RBRACKET then some (.RBracket, pos + 1)
  else if chAt src pos = CH_SEMICOLON then some (.Semicolon, pos + 1)
  else if chAt src pos = CH_COMMA then some (.Comma, pos + 1)
  else if chAt src pos = CH_TILDE then some (.Tilde, pos + 1)
  else if chAt src pos = CH_QUESTION then some (.Question, pos + 1)
  else if chAt src pos = CH_COLON then some (.Colon, pos + 1)
  else none

def punctSwitch2 (src : JsStr) (pos : Nat) : Option (TokenKind × Nat) :=
  if chAt src pos = CH_HASH then
    if pos + 1 < src.length ∧ chAt src (pos + 1) = CH_HASH then
      some (.HashHash, pos + 2)
    else some (.Hash, pos + 1)
  else if chAt src pos = CH_DOT then
    if pos + 2 < src.length ∧ chAt src (pos + 1) = CH_DOT ∧
        chAt src (pos + 2) = CH_DOT then
      some (.Ellipsis, pos + 3)
    else some (.Dot, pos + 1)
  else if chAt src pos = CH_PLUS then
    if pos + 1 < src.length ∧ chAt src (pos + 1) = CH_PLUS then
      some (.PlusPlus, pos + 2)
    else if pos + 1 < src.length ∧ chAt src (pos + 1) = CH_EQUAL then
      some (.PlusAssign, pos + 2)
    else some (.Plus, pos + 1)
  else if chAt src pos = CH_MINUS then
    if pos + 1 < src.length ∧ chAt src (pos + 1) = CH_MINUS then
      some (.MinusMinus, pos + 2)
    else if pos + 1 < src.length ∧ chAt src (pos + 1) = CH_EQUAL then
      some (.MinusAssign, pos + 2)
    else if pos + 1 < src.length ∧ chAt src (pos + 1) = CH_GREATER then
      some (.Arrow, pos + 2)
    else some (.Minus, pos + 1)
  else if chAt src pos = CH_STAR then
    if pos + 1 < src.length ∧ chAt src (pos + 1) = CH_EQUAL then
      some (.StarAssign, pos + 2)
    else some (.Star, pos + 1)
  else none

def punctSwitch3 (src : JsStr) (pos : Nat) : Option (TokenKind × Nat) :=
  if chAt src pos = CH_SLASH then
    if pos + 1 < src.length ∧ chAt src (pos + 1) = CH_EQUAL then
      some (.SlashAssign, pos + 2)
    else some (.Slash, pos + 1)
  else if chAt src pos = CH_PERCENT then
    if pos + 1 < src.length ∧ chAt src (pos + 1) = CH_EQUAL then
      some (.PercentAssign, pos + 2)
    else some (.Percent, pos + 1)
  else if chAt src pos = CH_AMP then
    if pos + 1 < src.length ∧ chAt src (pos + 1) = CH_AMP then
      some (.AmpAmp, pos + 2)
    else if pos + 1 < src.length ∧ chAt src (pos + 1) = CH_EQUAL then
      some (.AmpAssign, pos + 2)
    else some (.Amp, pos + 1)
  else if chAt src pos = CH_PIPE then
    if pos + 1 < src.length ∧ chAt src (pos + 1) = CH_PIPE then
      some (.PipePipe, pos + 2)
    else if pos + 1 < src.length ∧ chAt src (pos + 1) = CH_EQUAL then
      some (.PipeAssign, pos + 2)
    else some (.Pipe, pos + 1)
  else if chAt src pos = CH_CARET then
    if pos + 1 < src.length ∧ chAt src (pos + 1) = CH_EQUAL then
      some (.CaretAssign, pos + 2)
    else some (.Caret, pos + 1)
  else if chAt src pos = CH_BANG then
    if pos + 1 < src.length ∧ chAt src (pos + 1) = CH_EQUAL then
      some (.BangEqual, pos + 2)
    else some (.Bang, pos + 1)
  else none

def punctSwitch4 (src : JsStr) (pos : Nat) : Option (TokenKind × Nat) :=
  if chAt src pos = CH_EQUAL then
    if pos + 1 < src.length ∧ chAt src (pos + 1) = CH_EQUAL then
      some (.EqualEqual, pos + 2)
    else some (.Assign, pos + 1)
  else if chAt src pos = CH_LESS then
    if pos + 1 < src.length ∧ chAt src (pos + 1) = CH_LESS then
      if pos + 2 < src.length ∧ chAt src (pos + 2) = CH_EQUAL then
        some (.LessLessAssign, pos + 3)
      else some (.LessLess, pos + 2)
    else if pos + 1 < src.length ∧ chAt src (pos + 1) = CH_EQUAL then
      some (.LessEqual, pos + 2)
    else some (.Less, pos + 1)
  else if chAt src pos = CH_GREATER then
    if pos + 1 < src.length ∧ chAt src (pos + 1) = CH_GREATER then
      if pos + 2 < src.length ∧ chAt src (pos + 2) = CH_EQUAL then
        some (.GreaterGreaterAssign, pos + 3)
      else some (.GreaterGreater, pos + 2)
    else if pos + 1 < src.length ∧ chAt src (pos + 1) = CH_EQUAL then
      some (.GreaterEqual, pos + 2)
    else some (.Greater, pos + 1)
  else none

def punctSwitch (src : JsStr) (pos : Nat) : Option (TokenKind × Nat) :=
  match punctSwitch1 src pos with
  | some ke => some ke
  | none =>
    match punctSwitch2 src pos with
    | some ke => some ke
    | none =>
      match punctSwitch3 src pos with
      | some ke => some ke
      | none => punctSwitch4 src pos

mutual

/-- `nextToken`: skip whitespace and comments, emit `Eof` at end of
input, otherwise dispatch on the first character of the token. -/
def nextToken (src : JsStr) (gnuExtensions : Bool) (pos : Nat) :
    Token × Nat :=
  if src.length ≤ skipWsLoop src pos then
    ({ kind := .Eof, start := skipWsLoop src pos,
       end_ := skipWsLoop src pos }, skipWsLoop src pos)
  else if isDigit (chAt src (skipWsLoop src pos)) ∨
      (chAt src (skipWsLoop src pos) = CH_DOT ∧
       skipWsLoop src pos + 1 < src.length ∧
       isDigit (chAt src (skipWsLoop src pos + 1))) then
    lexNumber src (skipWsLoop src pos)
  else if chAt src (skipWsLoop src pos) = CH_DQUOTE then
    lexString src (skipWsLoop src pos) (skipWsLoop src pos)
  else if chAt src (skipWsLoop src pos) = CH_SQUOTE then
    lexChar src (skipWsLoop src pos) (skipWsLoop src pos)
  else if isIdentStart (chAt src (skipWsLoop src pos)) then
    lexIdentifier src gnuExtensions (skipWsLoop src pos)
  else
    lexPunctuation src gnuExtensions (skipWsLoop src pos)
termination_by 2 * (src.length - pos) + 1
decreasing_by
  all_goals have := skipWsLoop_ge src pos
  all_goals omega

/-- `lexPunctuation` (entered at `pos = start`, with `pos < len`
guaranteed by `nextToken`; the `len ≤ pos` branch is a defensive
default the source cannot reach).  An unknown character falls through
to `nextToken` at the following position. -/
def lexPunctuation (src : JsStr) (gnuExtensions : Bool) (pos : Nat) :
    Token × Nat :=
  if h : src.length ≤ pos then
    ({ kind := .Eof, start := pos, end_ := pos }, pos)
  else
    match punctSwitch src pos with
    | some ke => ({ kind := ke.1, start := pos, end_ := ke.2 }, ke.2)
    | none =>
      -- unknown character: skip and continue
      nextToken src gnuExtensions (pos + 1)
termination_by 2 * (src.length - pos)
decreasing_by
  all_goals omega

end

/-! ### Cursor-progress and token-kind lemmas for the lexer helpers

For the `scan` contract (termination, exactly one `Eof`) each lexing
routine needs three facts: the returned cursor does not move backwards
(and moves strictly forward from the dispatch position), the cursor
stays within the source, and the produced token is never `Eof`. -/

theorem lookup_ne_some (l : List (JsStr × Option TokenKind))
    (v : Option TokenKind) (h : ∀ e ∈ l, e.2 ≠ v) (s : JsStr) :
    l.lookup s ≠ some v := by
  induction l with
  | nil => exact fun h => Option.noConfusion h
  | cons e es ih =>
    simp only [List.lookup]
    split
    · intro hc
      exact h e (by simp) (Option.some.inj hc)
    · exact ih fun x hx => h x (List.mem_cons_of_mem e hx)

theorem keywordFromString_ne_eof (s : JsStr) (g : Bool) :
    keywordFromString s g ≠ some .Eof := by
  have htab : ∀ e ∈ keywordTable g, e.2 ≠ some TokenKind.Eof := by
    cases g <;> decide
  have hl := lookup_ne_some (keywordTable g) (some .Eof) htab s
  dsimp only [keywordFromString]
  split
  · simp
  · split
    · simp
    · cases hh : List.lookup s (keywordTable g) with
      | none => simp
      | some res =>
        intro hc
        apply hl
        rw [hh]
        exact congrArg Option.some hc

theorem makeIntOrBigToken_kind (k : TokenKind) (s e : Nat) (v : Int) :
    (makeIntOrBigToken k s e v).kind = k := by
  unfold makeIntOrBigToken
  split <;> rfl

theorem makeIntToken_ne_eof (v : Int) (u l ll hx : Bool) (s e : Nat) :
    (makeIntToken v u l ll hx s e).kind ≠ .Eof := by
  simp only [makeIntToken]
  split_ifs <;> simp [makeIntOrBigToken_kind]

theorem intSuffixLoop_ge (src : JsStr) (u l ll : Bool) (pos : Nat) :
    pos ≤ (intSuffixLoop src u l ll pos).2 := by
  unfold intSuffixLoop
  split
  · exact le_trans (Nat.le_succ pos) (intSuffixLoop_ge src true l ll (pos + 1))
  · split
    · split
      · exact le_trans (by omega) (intSuffixLoop_ge src u l true (pos + 2))
      · exact le_trans (Nat.le_succ pos)
          (intSuffixLoop_ge src u true ll (pos + 1))
    · exact le_refl pos
termination_by src.length - pos
decreasing_by all_goals omega

theorem intSuffixLoop_le_len (src : JsStr) (u l ll : Bool) (pos : Nat)
    (h : pos ≤ src.length) : (intSuffixLoop src u l ll pos).2 ≤ src.length := by
  unfold intSuffixLoop
  split
  · rename_i hc
    exact intSuffixLoop_le_len src true l ll (pos + 1) (by omega)
  · split
    · rename_i hc hc2
      split
      · rename_i hc3
        exact intSuffixLoop_le_len src u l true (pos + 2) (by omega)
      · exact intSuffixLoop_le_len src u true ll (pos + 1) (by omega)
    · exact h
termination_by src.length - pos
decreasing_by all_goals omega

theorem parseIntSuffix_ge (src : JsStr) (pos : Nat) :
    pos ≤ (parseIntSuffix src pos).2 := by
  have h1 := intSuffixLoop_ge src false false false pos
  simp only [parseIntSuffix]
  split_ifs <;> dsimp only <;> omega

theorem parseIntSuffix_le_len (src : JsStr) (pos : Nat)
    (h : pos ≤ src.length) : (parseIntSuffix src pos).2 ≤ src.length := by
  have h1 := intSuffixLoop_le_len src false false false pos h
  have h2 := intSuffixLoop_ge src false false false pos
  simp only [parseIntSuffix]
  split_ifs <;> dsimp only <;> omega

theorem finishIntLiteral_ge (src : JsStr) (v : Int) (hx : Bool)
    (start pos : Nat) : pos ≤ (finishIntLiteral src v hx start pos).2 := by
  have h1 := parseIntSuffix_ge src pos
  simp only [finishIntLiteral]
  split_ifs <;> dsimp only <;> omega

theorem finishIntLiteral_le_len (src : JsStr) (v : Int) (hx : Bool)
    (start pos : Nat) (h : pos ≤ src.length) :
    (finishIntLiteral src v hx start pos).2 ≤ src.length := by
  have h1 := parseIntSuffix_le_len src pos h
  simp only [finishIntLiteral]
  split_ifs <;> dsimp only <;> omega

theorem finishIntLiteral_ne_eof (src : JsStr) (v : Int) (hx : Bool)
    (start pos : Nat) : (finishIntLiteral src v hx start pos).1.kind ≠ .Eof := by
  simp only [finishIntLiteral]
  split_ifs
  · intro hc
    exact TokenKind.noConfusion hc
  · exact makeIntToken_ne_eof v _ _ _ hx start _

theorem parseSimpleFloatSuffix_ge (src : JsStr) (pos : Nat) :
    pos ≤ (parseSimpleFloatSuffix src pos).2 := by
  simp only [parseSimpleFloatSuffix]
  split_ifs <;> dsimp only <;> omega

theorem parseSimpleFloatSuffix_le_len (src : JsStr) (pos : Nat)
    (h : pos ≤ src.length) :
    (parseSimpleFloatSuffix src pos).2 ≤ src.length := by
  simp only [parseSimpleFloatSuffix]
  split_ifs <;> dsimp only <;> omega

theorem parseFloatSuffix_ge (src : JsStr) (pos : Nat) :
    pos ≤ (parseFloatSuffix src pos).2 := by
  simp only [parseFloatSuffix]
  split_ifs <;> dsimp only <;> omega

theorem parseFloatSuffix_le_len (src : JsStr) (pos : Nat)
    (h : pos ≤ src.length) : (parseFloatSuffix src pos).2 ≤ src.length := by
  simp only [parseFloatSuffix]
  split_ifs <;> dsimp only <;> omega

theorem makeFloatToken_snd (text : JsStr) (fk : Nat) (im : Bool)
    (start posEnd : Nat) : (makeFloatToken text fk im start posEnd).2 = posEnd := by
  simp only [makeFloatToken]
  split_ifs <;> rfl

theorem makeFloatToken_ne_eof (text : JsStr) (fk : Nat) (im : Bool)
    (start posEnd : Nat) :
    (makeFloatToken text fk im start posEnd).1.kind ≠ .Eof := by
  simp only [makeFloatToken]
  split_ifs <;> exact fun hc => TokenKind.noConfusion hc

theorem chAt_oob (src : JsStr) (i : Nat) (h : src.length ≤ i) :
    chAt src i = 0 := by
  unfold chAt
  exact List.getD_eq_default src 0 (by omega)

theorem isDigit_iff (c : Nat) : isDigit c = true ↔ 48 ≤ c ∧ c ≤ 57 := by
  simp [isDigit, CH_0, CH_9]

theorem advanceWhile_stop (src : JsStr) (p : Nat → Bool) (pos : Nat)
    (hp : p (chAt src pos) = false) : advanceWhile src p pos = pos := by
  unfold advanceWhile
  rw [if_neg]
  simp [hp]

theorem hexFracEnd_ge (src : JsStr) (hexEnd : Nat) (hasDot : Bool) :
    hexEnd ≤ hexFracEnd src hexEnd hasDot := by
  unfold hexFracEnd
  split
  · exact le_trans (Nat.le_succ _) (advanceWhile_ge src isHexDigit (hexEnd + 1))
  · exact le_refl _

theorem hexFracEnd_le_len (src : JsStr) (hexEnd : Nat) (hasDot : Bool)
    (h : hexEnd ≤ src.length) (hdot : hasDot = true → hexEnd < src.length) :
    hexFracEnd src hexEnd hasDot ≤ src.length := by
  unfold hexFracEnd
  split
  · rename_i hd
    exact advanceWhile_le_len src isHexDigit (hexEnd + 1) (by have := hdot hd; omega)
  · exact h

theorem hexExpEnd_ge (src : JsStr) (fracEnd : Nat) :
    fracEnd ≤ hexExpEnd src fracEnd := by
  unfold hexExpEnd
  split
  · refine le_trans ?_ (advanceWhile_ge src isDigit _)
    split <;> omega
  · exact le_refl _

theorem hexExpEnd_le_len (src : JsStr) (fracEnd : Nat)
    (h : fracEnd ≤ src.length) : hexExpEnd src fracEnd ≤ src.length := by
  unfold hexExpEnd
  split
  · rename_i hc
    refine advanceWhile_le_len src isDigit _ ?_
    split
    · rename_i hc2
      have := hc2.1
      omega
    · have := hc.1
      omega
  · exact h

theorem lexHexFloat_ge (src : JsStr) (start hexStart hexEnd : Nat)
    (hasDot : Bool) : hexEnd ≤ (lexHexFloat src start hexStart hexEnd hasDot).2 := by
  have h1 := hexFracEnd_ge src hexEnd hasDot
  have h2 := hexExpEnd_ge src (hexFracEnd src hexEnd hasDot)
  have h3 := parseSimpleFloatSuffix_ge src (hexExpEnd src (hexFracEnd src hexEnd hasDot))
  simp only [lexHexFloat]
  split_ifs <;> dsimp only <;> omega

theorem lexHexFloat_le_len (src : JsStr) (start hexStart hexEnd : Nat)
    (hasDot : Bool) (h : hexEnd ≤ src.length)
    (hdot : hasDot = true → hexEnd < src.length) :
    (lexHexFloat src start hexStart hexEnd hasDot).2 ≤ src.length := by
  have h1 := hexFracEnd_le_len src hexEnd hasDot h hdot
  have h2 := hexExpEnd_le_len src (hexFracEnd src hexEnd hasDot) h1
  have h3 := parseSimpleFloatSuffix_le_len src
    (hexExpEnd src (hexFracEnd src hexEnd hasDot)) h2
  simp only [lexHexFloat]
  split_ifs <;> dsimp only <;> omega

theorem lexHexFloat_ne_eof (src : JsStr) (start hexStart hexEnd : Nat)
    (hasDot : Bool) :
    (lexHexFloat src start hexStart hexEnd hasDot).1.kind ≠ .Eof := by
  simp only [lexHexFloat]
  split_ifs <;> exact fun hc => TokenKind.noConfusion hc

theorem lexHexNumber_gt (src : JsStr) (start : Nat) :
    start < (lexHexNumber src start).2 := by
  simp only [lexHexNumber]
  split_ifs <;> first
    | exact lt_of_lt_of_le
        (lt_of_lt_of_le (by omega) (advanceWhile_ge src isHexDigit (start + 2)))
        (lexHexFloat_ge src start (start + 2) _ _)
    | exact lt_of_lt_of_le
        (lt_of_lt_of_le (by omega) (advanceWhile_ge src isHexDigit (start + 2)))
        (finishIntLiteral_ge src _ _ start _)

theorem lexHexNumber_le_len (src : JsStr) (start : Nat)
    (h : start + 2 ≤ src.length) :
    (lexHexNumber src start).2 ≤ src.length := by
  have haw := advanceWhile_le_len src isHexDigit (start + 2) h
  simp only [lexHexNumber]
  split_ifs <;> first
    | exact lexHexFloat_le_len src start (start + 2) _ _ haw
        (fun hd => (of_decide_eq_true hd).1)
    | exact finishIntLiteral_le_len src _ _ start _ haw

theorem lexHexNumber_ne_eof (src : JsStr) (start : Nat) :
    (lexHexNumber src start).1.kind ≠ .Eof := by
  simp only [lexHexNumber]
  split_ifs <;> first
    | exact lexHexFloat_ne_eof src start (start + 2) _ _
    | exact finishIntLiteral_ne_eof src _ _ start _

theorem lexBinaryNumber_gt (src : JsStr) (start : Nat) :
    start < (lexBinaryNumber src start).2 := by
  simp only [lexBinaryNumber]
  exact lt_of_lt_of_le
    (lt_of_lt_of_le (by omega) (advanceWhile_ge src _ (start + 2)))
    (finishIntLiteral_ge src _ _ start _)

theorem lexBinaryNumber_le_len (src : JsStr) (start : Nat)
    (h : start + 2 ≤ src.length) :
    (lexBinaryNumber src start).2 ≤ src.length := by
  simp only [lexBinaryNumber]
  exact finishIntLiteral_le_len src _ _ start _
    (advanceWhile_le_len src _ (start + 2) h)

theorem lexBinaryNumber_ne_eof (src : JsStr) (start : Nat) :
    (lexBinaryNumber src start).1.kind ≠ .Eof := by
  simp only [lexBinaryNumber]
  exact finishIntLiteral_ne_eof src _ _ start _

theorem lexOctalNumber_spec (src : JsStr) (start : Nat) (r : Token × Nat)
    (h : lexOctalNumber src start = some r) :
    start < r.2 ∧ r.2 ≤ src.length ∧ r.1.kind ≠ .Eof := by
  simp only [lexOctalNumber] at h
  split_ifs at h <;>
    first
      | exact Option.noConfusion h
      | (rename_i hc1 hc2 hc3 hval
         have hA := hc2
         have hr := Option.some.inj h
         subst hr
         exact ⟨lt_of_lt_of_le
             (lt_of_lt_of_le (Nat.lt_succ_self start)
               (advanceWhile_ge src _ (start + 1)))
             (finishIntLiteral_ge src _ _ start _),
           finishIntLiteral_le_len src _ _ start _
             (advanceWhile_le_len src _ (start + 1) (by have := hA.1; omega)),
           finishIntLiteral_ne_eof src _ _ start _⟩)

theorem lexDecimalNumber_ge (src : JsStr) (start : Nat) :
    start ≤ (lexDecimalNumber src start).2 := by
  have hI := advanceWhile_ge src isDigit start
  have hP := advanceWhile_ge src isDigit (advanceWhile src isDigit start + 1)
  simp only [lexDecimalNumber, makeFloatToken_snd]
  split_ifs <;> first
    | (simp only [makeFloatToken_snd]
       refine le_trans ?_ (parseFloatSuffix_ge src _)
       first
        | omega
        | (refine le_trans ?_ (advanceWhile_ge src isDigit _); omega))
    | (refine le_trans ?_ (finishIntLiteral_ge src _ _ start _)
       first
        | omega
        | (refine le_trans ?_ (advanceWhile_ge src isDigit _); omega))

theorem lexDecimalNumber_le_len (src : JsStr) (start : Nat)
    (h : start ≤ src.length) : (lexDecimalNumber src start).2 ≤ src.length := by
  have hIle := advanceWhile_le_len src isDigit start h
  simp only [lexDecimalNumber, makeFloatToken_snd]
  split_ifs <;> first
    | (simp only [makeFloatToken_snd]
       exact parseFloatSuffix_le_len src _ (by
        first
          | omega
          | exact advanceWhile_le_len src isDigit _ (by omega)))
    | exact finishIntLiteral_le_len src _ _ start _ (by
        first
          | omega
          | exact advanceWhile_le_len src isDigit _ (by omega))

theorem lexDecimalNumber_ne_eof (src : JsStr) (start : Nat) :
    (lexDecimalNumber src start).1.kind ≠ .Eof := by
  simp only [lexDecimalNumber]
  split_ifs <;> first
    | exact makeFloatToken_ne_eof _ _ _ _ _
    | exact finishIntLiteral_ne_eof src _ _ start _

theorem lexDecimalNumber_gt (src : JsStr) (start : Nat)
    (hG : isDigit (chAt src start) = true ∨
      (chAt src start = CH_DOT ∧ start + 1 < src.length ∧
       isDigit (chAt src (start + 1)) = true)) :
    start < (lexDecimalNumber src start).2 := by
  rcases hG with hd | ⟨hdot, hlen, hdig⟩
  · -- leading digit: the integer run makes strict progress
    have hsl : start < src.length := by
      by_contra hc
      rw [chAt_oob src start (by omega)] at hd
      exact absurd hd (by decide)
    have hI1 := advanceWhile_gt src isDigit start hsl hd
    have hP := advanceWhile_ge src isDigit (advanceWhile src isDigit start + 1)
    simp only [lexDecimalNumber, makeFloatToken_snd]
    split_ifs <;> first
      | (simp only [makeFloatToken_snd]
         refine lt_of_lt_of_le ?_ (parseFloatSuffix_ge src _)
         first
          | omega
          | (refine lt_of_lt_of_le ?_ (advanceWhile_ge src isDigit _); omega))
      | (refine lt_of_lt_of_le ?_ (finishIntLiteral_ge src _ _ start _)
         first
          | omega
          | (refine lt_of_lt_of_le ?_ (advanceWhile_ge src isDigit _); omega))
  · -- `.5`-style literal: the dot is consumed with at least one digit
    have hIeq : advanceWhile src isDigit start = start :=
      advanceWhile_stop src isDigit start (by rw [hdot]; decide)
    have hP := advanceWhile_ge src isDigit (start + 1)
    have hCH : CH_DOT = 46 := rfl
    have hdig' := (isDigit_iff (chAt src (start + 1))).mp hdig
    simp only [lexDecimalNumber, makeFloatToken_snd, hIeq]
    split_ifs <;> first
      | omega
      | (simp only [makeFloatToken_snd]
         refine lt_of_lt_of_le ?_ (parseFloatSuffix_ge src _)
         first
          | omega
          | (refine lt_of_lt_of_le ?_ (advanceWhile_ge src isDigit _); omega))
      | (refine lt_of_lt_of_le ?_ (finishIntLiteral_ge src _ _ start _)
         first
          | omega
          | (refine lt_of_lt_of_le ?_ (advanceWhile_ge src isDigit _); omega))

theorem lexNumber_gt (src : JsStr) (start : Nat)
    (hG : isDigit (chAt src start) = true ∨
      (chAt src start = CH_DOT ∧ start + 1 < src.length ∧
       isDigit (chAt src (start + 1)) = true)) :
    start < (lexNumber src start).2 := by
  simp only [lexNumber]
  split_ifs
  · exact lexHexNumber_gt src start
  · exact lexBinaryNumber_gt src start
  · cases ho : lexOctalNumber src start with
    | some r =>
      simp only [ho]
      exact (lexOctalNumber_spec src start r ho).1
    | none =>
      simp only [ho]
      exact lexDecimalNumber_gt src start hG

theorem lexNumber_le_len (src : JsStr) (start : Nat)
    (h : start ≤ src.length) : (lexNumber src start).2 ≤ src.length := by
  simp only [lexNumber]
  split_ifs with h1 h2
  · exact lexHexNumber_le_len src start (by omega)
  · exact lexBinaryNumber_le_len src start (by omega)
  · cases ho : lexOctalNumber src start with
    | some r =>
      simp only [ho]
      exact (lexOctalNumber_spec src start r ho).2.1
    | none =>
      simp only [ho]
      exact lexDecimalNumber_le_len src start h

theorem lexNumber_ne_eof (src : JsStr) (start : Nat) :
    (lexNumber src start).1.kind ≠ .Eof := by
  simp only [lexNumber]
  split_ifs
  · exact lexHexNumber_ne_eof src start
  · exact lexBinaryNumber_ne_eof src start
  · cases ho : lexOctalNumber src start with
    | some r =>
      simp only [ho]
      exact (lexOctalNumber_spec src start r ho).2.2
    | none =>
      simp only [ho]
      exact lexDecimalNumber_ne_eof src start

/-- JS strings are sequences of 16-bit code units. -/
abbrev JsWF (s : JsStr) : Prop := ∀ c ∈ s, c < 65536

theorem chAt_lt (src : JsStr) (hwf : JsWF src) (q : Nat) :
    chAt src q < 65536 := by
  unfold chAt
  rcases lt_or_ge q src.length with hq | hq
  · rw [List.getD_eq_getElem src 0 hq]
    exact hwf _ (List.getElem_mem hq)
  · rw [List.getD_eq_default src 0 (by omega)]
    omega

theorem codePointAt_le (s : JsStr) (q : Nat) (hwf : JsWF s)
    (h : s.length ≤ q + 1) : codePointAt s q ≤ 0xffff := by
  have hc := chAt_lt s hwf q
  simp only [codePointAt]
  split_ifs <;> omega

theorem lexString_gt (src : JsStr) (start pos : Nat) :
    pos < (lexString src start pos).2 := by
  have hg := lexStringLoop_ge src [] (pos + 1)
  simp only [lexString]
  split_ifs <;> omega

theorem lexString_le_len (src : JsStr) (start pos : Nat)
    (h : pos < src.length) : (lexString src start pos).2 ≤ src.length := by
  have hle := lexStringLoop_le_len src [] (pos + 1) (by omega)
  simp only [lexString]
  split_ifs <;> omega

theorem lexString_ne_eof (src : JsStr) (start pos : Nat) :
    (lexString src start pos).1.kind ≠ .Eof :=
  fun hc => TokenKind.noConfusion hc

theorem lexWideString_gt (src : JsStr) (start pos : Nat) :
    pos < (lexWideString src start pos).2 := by
  have hg := lexWideStringLoop_ge src [] (pos + 1)
  simp only [lexWideString]
  split_ifs <;> omega

theorem lexWideString_le_len (src : JsStr) (start pos : Nat)
    (h : pos < src.length) : (lexWideString src start pos).2 ≤ src.length := by
  have hle := lexWideStringLoop_le_len src [] (pos + 1) (by omega)
  simp only [lexWideString]
  split_ifs <;> omega

theorem lexWideString_ne_eof (src : JsStr) (start pos : Nat) :
    (lexWideString src start pos).1.kind ≠ .Eof :=
  fun hc => TokenKind.noConfusion hc

theorem lexChar16String_gt (src : JsStr) (start pos : Nat) :
    pos < (lexChar16String src start pos).2 := by
  have hg := lexWideStringLoop_ge src [] (pos + 1)
  simp only [lexChar16String]
  split_ifs <;> omega

theorem lexChar16String_le_len (src : JsStr) (start pos : Nat)
    (h : pos < src.length) : (lexChar16String src start pos).2 ≤ src.length := by
  have hle := lexWideStringLoop_le_len src [] (pos + 1) (by omega)
  simp only [lexChar16String]
  split_ifs <;> omega

theorem lexChar16String_ne_eof (src : JsStr) (start pos : Nat) :
    (lexChar16String src start pos).1.kind ≠ .Eof :=
  fun hc => TokenKind.noConfusion hc

theorem lexChar_gt (src : JsStr) (start pos : Nat) :
    pos < (lexChar src start pos).2 := by
  have hg := lexCharLoop_ge src 0 0 (pos + 1)
  simp only [lexChar]
  split_ifs <;> dsimp only <;> omega

theorem lexChar_le_len (src : JsStr) (start pos : Nat)
    (h : pos < src.length) : (lexChar src start pos).2 ≤ src.length := by
  have hle := lexCharLoop_le_len src 0 0 (pos + 1) (by omega)
  simp only [lexChar]
  split_ifs <;> dsimp only <;> omega

theorem lexChar_ne_eof (src : JsStr) (start pos : Nat) :
    (lexChar src start pos).1.kind ≠ .Eof := by
  simp only [lexChar]
  split_ifs <;> exact fun hc => TokenKind.noConfusion hc

theorem lexWideChar_gt (src : JsStr) (start pos0 : Nat) :
    pos0 < (lexWideChar src start pos0).2 := by
  have he := lexEscapeChar_ge src (pos0 + 1 + 1)
  simp only [lexWideChar]
  split_ifs <;> first
    | (refine lt_of_lt_of_le ?_ (advanceWhile_ge src _ _); omega)
    | (refine lt_of_lt_of_le ?_
        (le_trans (advanceWhile_ge src _ _) (Nat.le_succ _)); omega)

theorem lexWideChar_le_len (src : JsStr) (start pos0 : Nat) (hwf : JsWF src)
    (h : pos0 < src.length) : (lexWideChar src start pos0).2 ≤ src.length := by
  simp only [lexWideChar]
  split_ifs <;> first
    | omega
    | exact advanceWhile_le_len src _ _ (by omega)
    | exact advanceWhile_le_len src _ _ (lexEscapeChar_le_len src _ (by omega))
    | (refine le_trans (Nat.succ_le_of_lt ?_) (le_refl _)
       rename_i hq hbs hcp hquote
       have hpair : pos0 + 1 + 1 < src.length := by
         by_contra hc
         have := codePointAt_le src (pos0 + 1) hwf (by omega)
         omega
       exact lt_of_le_of_lt (le_refl _) (by
         have := advanceWhile_le_len src _ (pos0 + 1 + 2) (by omega)
         omega))
    | (have hpair : pos0 + 1 + 1 < src.length := by
         by_contra hc
         have := codePointAt_le src (pos0 + 1) hwf (by omega)
         omega
       exact advanceWhile_le_len src _ _ (by omega))

theorem lexWideChar_ne_eof (src : JsStr) (start pos0 : Nat) :
    (lexWideChar src start pos0).1.kind ≠ .Eof :=
  fun hc => TokenKind.noConfusion hc

theorem tryPragmaPackToken_ne_eof (text : JsStr) (kv : TokenKind × Option JsVal)
    (h : tryPragmaPackToken text = some kv) : kv.1 ≠ .Eof := by
  simp only [tryPragmaPackToken] at h
  split_ifs at h <;> first
    | exact Option.noConfusion h
    | (cases Option.some.inj h; exact fun hc => TokenKind.noConfusion hc)
    | (split at h <;> first
        | exact Option.noConfusion h
        | (cases Option.some.inj h; exact fun hc => TokenKind.noConfusion hc))

theorem tryPragmaVisibilityToken_ne_eof (text : JsStr)
    (kv : TokenKind × Option JsVal)
    (h : tryPragmaVisibilityToken text = some kv) : kv.1 ≠ .Eof := by
  simp only [tryPragmaVisibilityToken] at h
  split_ifs at h <;> first
    | exact Option.noConfusion h
    | (cases Option.some.inj h; exact fun hc => TokenKind.noConfusion hc)

theorem identFinish_ne_eof (src : JsStr) (g : Bool) (start pos : Nat) :
    (identFinish src g start pos).kind ≠ .Eof := by
  simp only [identFinish]
  split
  · rename_i kv hkv
    exact tryPragmaPackToken_ne_eof _ _ hkv
  · split
    · rename_i kv hkv
      exact tryPragmaVisibilityToken_ne_eof _ _ hkv
    · split
      · rename_i kw hkw
        intro hc
        exact keywordFromString_ne_eof _ _ (by rw [hkw]; exact congrArg some hc)
      · exact fun hc => TokenKind.noConfusion hc

theorem identStart_continue (c : Nat) (h : isIdentStart c = true) :
    isIdentContinue c = true := by
  simp only [isIdentStart, isAlpha] at h
  simp only [isIdentContinue, isAlphanumeric, isAlpha, isDigit]
  simp only [decide_eq_true_eq] at h ⊢
  omega

theorem lexIdentifier_gt (src : JsStr) (g : Bool) (start : Nat)
    (h1 : start < src.length) (h2 : isIdentStart (chAt src start) = true) :
    start < (lexIdentifier src g start).2 := by
  have hgt := advanceWhile_gt src isIdentContinue start h1
    (identStart_continue _ h2)
  simp only [lexIdentifier]
  split_ifs <;> first
    | exact hgt
    | exact lt_trans (by omega) (lexWideChar_gt src start _)
    | exact lt_trans (by omega) (lexWideString_gt src start _)
    | exact lt_trans (by omega) (lexChar16String_gt src start _)
    | exact lt_trans (by omega) (lexString_gt src start _)

theorem lexIdentifier_le_len (src : JsStr) (g : Bool) (start : Nat)
    (hwf : JsWF src) (h : start ≤ src.length) :
    (lexIdentifier src g start).2 ≤ src.length := by
  have hle := advanceWhile_le_len src isIdentContinue start h
  simp only [lexIdentifier]
  split_ifs <;> first
    | exact hle
    | exact lexWideChar_le_len src start _ hwf (by omega)
    | exact lexWideString_le_len src start _ (by omega)
    | exact lexChar16String_le_len src start _ (by omega)
    | exact lexString_le_len src start _ (by omega)

theorem lexIdentifier_ne_eof (src : JsStr) (g : Bool) (start : Nat) :
    (lexIdentifier src g start).1.kind ≠ .Eof := by
  simp only [lexIdentifier]
  split_ifs <;> first
    | exact identFinish_ne_eof src g start _
    | exact lexWideChar_ne_eof src start _
    | exact lexWideString_ne_eof src start _
    | exact lexChar16String_ne_eof src start _
    | exact lexString_ne_eof src start _

theorem punctSwitch1_spec (src : JsStr) (pos : Nat) (ke : TokenKind × Nat)
    (h : punctSwitch1 src pos = some ke) :
    pos < ke.2 ∧ (pos < src.length → ke.2 ≤ src.length) ∧ ke.1 ≠ .Eof := by
  simp only [punctSwitch1] at h
  split_ifs at h <;> first
    | exact Option.noConfusion h
    | (cases Option.some.inj h
       exact ⟨by omega, fun _ => by omega,
         fun hc => TokenKind.noConfusion hc⟩)

theorem punctSwitch2_spec (src : JsStr) (pos : Nat) (ke : TokenKind × Nat)
    (h : punctSwitch2 src pos = some ke) :
    pos < ke.2 ∧ (pos < src.length → ke.2 ≤ src.length) ∧ ke.1 ≠ .Eof := by
  simp only [punctSwitch2] at h
  split_ifs at h <;> first
    | exact Option.noConfusion h
    | (cases Option.some.inj h
       exact ⟨by omega, fun _ => by omega,
         fun hc => TokenKind.noConfusion hc⟩)

theorem punctSwitch3_spec (src : JsStr) (pos : Nat) (ke : TokenKind × Nat)
    (h : punctSwitch3 src pos = some ke) :
    pos < ke.2 ∧ (pos < src.length → ke.2 ≤ src.length) ∧ ke.1 ≠ .Eof := by
  simp only [punctSwitch3] at h
  split_ifs at h <;> first
    | exact Option.noConfusion h
    | (cases Option.some.inj h
       exact ⟨by omega, fun _ => by omega,
         fun hc => TokenKind.noConfusion hc⟩)

theorem punctSwitch4_spec (src : JsStr) (pos : Nat) (ke : TokenKind × Nat)
    (h : punctSwitch4 src pos = some ke) :
    pos < ke.2 ∧ (pos < src.length → ke.2 ≤ src.length) ∧ ke.1 ≠ .Eof := by
  simp only [punctSwitch4] at h
  split_ifs at h <;> first
    | exact Option.noConfusion h
    | (cases Option.some.inj h
       exact ⟨by omega, fun _ => by omega,
         fun hc => TokenKind.noConfusion hc⟩)

theorem punctSwitch_spec (src : JsStr) (pos : Nat) (ke : TokenKind × Nat)
    (h : punctSwitch src pos = some ke) :
    pos < ke.2 ∧ (pos < src.length → ke.2 ≤ src.length) ∧ ke.1 ≠ .Eof := by
  simp only [punctSwitch] at h
  cases h1 : punctSwitch1 src pos with
  | some ke1 =>
    rw [h1] at h
    exact Option.some.inj h ▸ punctSwitch1_spec src pos ke1 h1
  | none =>
    rw [h1] at h
    cases h2 : punctSwitch2 src pos with
    | some ke2 =>
      rw [h2] at h
      exact Option.some.inj h ▸ punctSwitch2_spec src pos ke2 h2
    | none =>
      rw [h2] at h
      cases h3 : punctSwitch3 src pos with
      | some ke3 =>
        rw [h3] at h
        exact Option.some.inj h ▸ punctSwitch3_spec src pos ke3 h3
      | none =>
        rw [h3] at h
        exact punctSwitch4_spec src pos ke h

/-- The cursor/`Eof` contract of one `nextToken` step: the cursor never
moves backwards; under a well-formed (16-bit) source it stays within
bounds; an `Eof` result is exactly the token
`{kind: Eof, start: len, end: len}` with the cursor at `len`; a
non-`Eof` result means the cursor strictly advanced from inside the
source. -/
def NextOk (src : JsStr) (pos : Nat) (r : Token × Nat) : Prop :=
  pos ≤ r.2 ∧
  (JsWF src → pos ≤ src.length → r.2 ≤ src.length) ∧
  (r.1.kind = .Eof → pos ≤ src.length →
    r.1 = { kind := .Eof, start := src.length, end_ := src.length } ∧
    r.2 = src.length) ∧
  (r.1.kind ≠ .Eof → pos < src.length ∧ pos < r.2)

/-- The matching contract for `lexPunctuation` (entered inside the
source). -/
def PunctOk (src : JsStr) (pos : Nat) (r : Token × Nat) : Prop :=
  pos < r.2 ∧
  (JsWF src → r.2 ≤ src.length) ∧
  (r.1.kind = .Eof →
    r.1 = { kind := .Eof, start := src.length, end_ := src.length } ∧
    r.2 = src.length)

/-- `NextOk` holds of every `nextToken` step, by strong induction on the
remaining input (mutually with `PunctOk` for `lexPunctuation`, whose
unknown-character default re-enters `nextToken`). -/
theorem nextToken_spec (src : JsStr) (g : Bool) : ∀ n pos,
    src.length - pos ≤ n → NextOk src pos (nextToken src g pos) := by
  intro n
  induction n with
  | zero =>
    intro pos hn
    have hws := skipWsLoop_ge src pos
    unfold nextToken
    rw [if_pos (show src.length ≤ skipWsLoop src pos by omega)]
    refine ⟨hws, fun _ h => skipWsLoop_le_len src pos h, fun _ h => ?_,
      fun hc => absurd rfl hc⟩
    have he : skipWsLoop src pos = src.length :=
      le_antisymm (skipWsLoop_le_len src pos h) (by omega)
    exact ⟨by rw [he], he⟩
  | succ n ih =>
    have hpunct : ∀ pos, pos < src.length → src.length - pos ≤ n + 1 →
        PunctOk src pos (lexPunctuation src g pos) := by
      intro pos hlt hn
      unfold lexPunctuation
      rw [dif_neg (show ¬ src.length ≤ pos by omega)]
      cases hps : punctSwitch src pos with
      | some ke =>
        have hs := punctSwitch_spec src pos ke hps
        exact ⟨hs.1, fun _ => hs.2.1 hlt, fun hc => absurd hc hs.2.2⟩
      | none =>
        have hnx := ih (pos + 1) (by omega)
        exact ⟨lt_of_lt_of_le (Nat.lt_succ_self pos) hnx.1,
          fun hwf => hnx.2.1 hwf (by omega),
          fun hc => hnx.2.2.1 hc (by omega)⟩
    intro pos hn
    have hws := skipWsLoop_ge src pos
    unfold nextToken
    split_ifs with hEof hNum hStr hChr hId
    · refine ⟨hws, fun _ h => skipWsLoop_le_len src pos h, fun _ h => ?_,
        fun hc => absurd rfl hc⟩
      have he : skipWsLoop src pos = src.length :=
        le_antisymm (skipWsLoop_le_len src pos h) (by omega)
      exact ⟨by rw [he], he⟩
    · refine ⟨le_of_lt (lt_of_le_of_lt hws (lexNumber_gt src _ hNum)),
        fun _ h => lexNumber_le_len src _ (skipWsLoop_le_len src pos h),
        fun hc => absurd hc (lexNumber_ne_eof src _),
        fun _ => ⟨by omega, lt_of_le_of_lt hws (lexNumber_gt src _ hNum)⟩⟩
    · refine ⟨le_of_lt (lt_of_le_of_lt hws (lexString_gt src _ _)),
        fun _ _ => lexString_le_len src _ _ (by omega),
        fun hc => absurd hc (lexString_ne_eof src _ _),
        fun _ => ⟨by omega, lt_of_le_of_lt hws (lexString_gt src _ _)⟩⟩
    · refine ⟨le_of_lt (lt_of_le_of_lt hws (lexChar_gt src _ _)),
        fun _ _ => lexChar_le_len src _ _ (by omega),
        fun hc => absurd hc (lexChar_ne_eof src _ _),
        fun _ => ⟨by omega, lt_of_le_of_lt hws (lexChar_gt src _ _)⟩⟩
    · refine ⟨le_of_lt (lt_of_le_of_lt hws
          (lexIdentifier_gt src g _ (by omega) hId)),
        fun hwf h => lexIdentifier_le_len src g _ hwf
          (skipWsLoop_le_len src pos h),
        fun hc => absurd hc (lexIdentifier_ne_eof src g _),
        fun _ => ⟨by omega, lt_of_le_of_lt hws
          (lexIdentifier_gt src g _ (by omega) hId)⟩⟩
    · have hp := hpunct (skipWsLoop src pos) (by omega) (by omega)
      refine ⟨le_of_lt (lt_of_le_of_lt hws hp.1),
        fun hwf _ => hp.2.1 hwf,
        fun hc _ => hp.2.2 hc,
        fun _ => ⟨by omega, lt_of_le_of_lt hws hp.1⟩⟩

/-- The eager driver loop of `scan` (`for(;;) { tok = nextToken(); ...
if Eof break }`), parameterised by the current cursor. -/
def scanFrom (src : JsStr) (gnuExtensions : Bool) (pos : Nat) : List Token :=
  if (nextToken src gnuExtensions pos).1.kind = .Eof then
    [(nextToken src gnuExtensions pos).1]
  else
    (nextToken src gnuExtensions pos).1 ::
      scanFrom src gnuExtensions (nextToken src gnuExtensions pos).2
termination_by src.length - pos
decreasing_by
  have h := (nextToken_spec src gnuExtensions (src.length - pos) pos
    (le_refl _)).2.2.2 (by assumption)
  omega

/-- `Scanner.scan()` on a fresh scanner (`pos = 0`). -/
def scan (src : JsStr) (gnuExtensions : Bool) : List Token :=
  scanFrom src gnuExtensions 0

/-- Structure of the scanned token stream: a (possibly empty) `Eof`-free
prefix followed by exactly the token `{kind: Eof, start: len, end: len}`. -/
theorem scanFrom_eof (src : JsStr) (g : Bool) (hwf : JsWF src) :
    ∀ n pos, src.length - pos ≤ n → pos ≤ src.length →
    ∃ pre, scanFrom src g pos =
        pre ++ [{ kind := .Eof, start := src.length, end_ := src.length }] ∧
      ∀ t ∈ pre, t.kind ≠ .Eof := by
  intro n
  induction n with
  | zero =>
    intro pos hn hle
    have hspec := nextToken_spec src g 0 pos (by omega)
    rw [scanFrom]
    by_cases hk : (nextToken src g pos).1.kind = .Eof
    · rw [if_pos hk]
      exact ⟨[], by rw [(hspec.2.2.1 hk hle).1]; rfl,
        fun t ht => absurd ht (List.not_mem_nil t)⟩
    · exact absurd (hspec.2.2.2 hk).1 (by omega)
  | succ n ih =>
    intro pos hn hle
    have hspec := nextToken_spec src g (n + 1) pos hn
    rw [scanFrom]
    by_cases hk : (nextToken src g pos).1.kind = .Eof
    · rw [if_pos hk]
      exact ⟨[], by rw [(hspec.2.2.1 hk hle).1]; rfl,
        fun t ht => absurd ht (List.not_mem_nil t)⟩
    · rw [if_neg hk]
      have hpr := hspec.2.2.2 hk
      obtain ⟨pre, hpre, hall⟩ := ih (nextToken src g pos).2 (by omega)
        (hspec.2.1 hwf hle)
      refine ⟨(nextToken src g pos).1 :: pre, by rw [hpre]; rfl, ?_⟩
      intro t ht
      rcases List.mem_cons.mp ht with h | h
      · rw [h]; exact hk
      · exact hall t h

/-- A token-start position (whitespace/comment skipping is already a
fixpoint) whose character starts no recognized token: `nextToken`
produces the same token it would produce one position further, i.e. the
byte is silently skipped. -/
theorem nextToken_skips_unknown (src : JsStr) (g : Bool) (pos : Nat)
    (hlt : pos < src.length) (hskip : skipWsLoop src pos = pos)
    (hnum : ¬(isDigit (chAt src pos) = true ∨
      (chAt src pos = CH_DOT ∧ pos + 1 < src.length ∧
       isDigit (chAt src (pos + 1)) = true)))
    (hdq : ¬(chAt src pos = CH_DQUOTE)) (hsq : ¬(chAt src pos = CH_SQUOTE))
    (hid : ¬(isIdentStart (chAt src pos) = true))
    (hps : punctSwitch src pos = none) :
    nextToken src g pos = nextToken src g (pos + 1) := by
  conv_lhs => rw [nextToken.eq_def]
  rw [hskip]
  rw [if_neg (show ¬ src.length ≤ pos by omega)]
  rw [if_neg hnum, if_neg hdq, if_neg hsq, if_neg hid]
  conv_lhs => rw [lexPunctuation.eq_def]
  rw [dif_neg (show ¬ src.length ≤ pos by omega)]
  rw [hps]

/-- The bytes a single (possibly escaped) character contributes to a
narrow char literal: one `& 0xff` byte for code points up to `0xFF`,
its UTF-8 bytes otherwise (mirroring the byte computation inside
`charPack`). -/
def charPackBytes (ch : JsStr) : List Int :=
  let cp := codePointAt ch 0
  if cp > 0xff then
    (if cp < 0x800 then [0xc0 + cp / 64, 0x80 + cp % 64]
     else if cp < 0x10000 then
       [0xe0 + cp / 4096, 0x80 + cp / 64 % 64, 0x80 + cp % 64]
     else
       [0xf0 + cp / 262144, 0x80 + cp / 4096 % 64, 0x80 + cp / 64 % 64,
        0x80 + cp % 64]).map Int.ofNat
  else [jsAnd (Int.ofNat cp) 0xff]

theorem charPack_eq (v : Int) (ch : JsStr) :
    charPack v ch =
      ((charPackBytes ch).foldl packByte v, (charPackBytes ch).length) := by
  simp only [charPack, charPackBytes]
  split_ifs <;> first
    | (rw [List.foldl_cons, List.foldl_nil]; exact Prod.ext rfl rfl)
    | rfl

/-- The byte sequence of a whole char-literal body (cursor on the first
content character), with the cursor at the closing quote: the loop of
`lexChar` packs exactly these bytes most-significant-first. -/
def charBytes (src : JsStr) (pos : Nat) : List Int × Nat :=
  if pos < src.length ∧ chAt src pos ≠ CH_SQUOTE then
    if chAt src pos = CH_BSLASH then
      (charPackBytes (lexEscapeChar src (pos + 1)).1 ++
        (charBytes src (lexEscapeChar src (pos + 1)).2).1,
       (charBytes src (lexEscapeChar src (pos + 1)).2).2)
    else
      (charPackBytes [chAt src pos] ++ (charBytes src (pos + 1)).1,
       (charBytes src (pos + 1)).2)
  else ([], pos)
termination_by src.length - pos
decreasing_by
  all_goals have := lexEscapeChar_ge src (pos + 1)
  all_goals omega

theorem lexCharLoop_charBytes (src : JsStr) : ∀ n pos (v : Int) (c : Nat),
    src.length - pos ≤ n →
    lexCharLoop src v c pos =
      ((charBytes src pos).1.foldl packByte v,
       c + (charBytes src pos).1.length, (charBytes src pos).2) := by
  intro n
  induction n with
  | zero =>
    intro pos v c hn
    rw [lexCharLoop, charBytes]
    rw [if_neg (by omega), if_neg (by omega)]
    simp
  | succ n ih =>
    intro pos v c hn
    have he := lexEscapeChar_ge src (pos + 1)
    rw [lexCharLoop, charBytes]
    split_ifs with h1 h2
    · rw [ih (lexEscapeChar src (pos + 1)).2 _ _ (by omega)]
      simp only [charPack_eq, List.foldl_append, List.length_append,
        Prod.mk.injEq]
      refine ⟨?_, ?_, ?_⟩ <;> first | trivial | rfl | omega
    · rw [ih (pos + 1) _ _ (by omega)]
      simp only [charPack_eq, List.foldl_append, List.length_append,
        Prod.mk.injEq]
      refine ⟨?_, ?_, ?_⟩ <;> first | trivial | rfl | omega
    · simp

end Scanner

/-! ## AST (`src/ast/nodes.ts`)

Every `BaseNode`-extending interface carries `start`/`end`/`loc`; the
parser constructs nodes with the shared placeholder location `LOC`
(`locations.ts`), which `normalizeAstLocations` later overwrites or
deletes, so `loc` is modelled as an `Option` that starts as
`some locPlaceholder`.  `TypeSpecifier` interfaces carry no offsets of
their own: `withTypeSpan` (and some inline constructions) add numeric
`start`/`end` to some of them, modelled as an `Option Span` in `TSMeta`
(`none` = the fields are absent, so the node is not "AST-node-like").
JS doubles inside float literals are carried opaquely as `JsVal`. -/

structure SourcePosition where
  line : Nat
  column : Nat
deriving DecidableEq

structure SourceLocation where
  start : SourcePosition
  end_ : SourcePosition
deriving DecidableEq

/-- The shared placeholder `LOC` of `locations.ts`. -/
def locPlaceholder : SourceLocation := ⟨⟨1, 0⟩, ⟨1, 0⟩⟩

structure NodeMeta where
  start : Nat
  end_ : Nat
  loc : Option SourceLocation := some locPlaceholder
deriving DecidableEq

structure TSMeta where
  span : Option Span := none
  loc : Option SourceLocation := none
deriving DecidableEq

inductive BinOp
  | Add | Sub | Mul | Div | Mod | BitAnd | BitOr | BitXor | Shl | Shr
  | Eq | Ne | Lt | Le | Gt | Ge | LogicalAnd | LogicalOr
deriving DecidableEq

inductive UnaryOp
  | Plus | Neg | BitNot | LogicalNot | PreInc | PreDec | RealPart | ImagPart
deriving DecidableEq

inductive PostfixOp
  | PostInc | PostDec
deriving DecidableEq

inductive AddressSpace
  | Default | SegGs | SegFs
deriving DecidableEq

inductive ModeKind
  | QI | HI | SI | DI | TI
deriving DecidableEq

structure FunctionAttributes where
  isStatic : Bool
  isInline : Bool
  isExtern : Bool
  isGnuInline : Bool
  isAlwaysInline : Bool
  isNoinline : Bool
  isConstructor : Bool
  isDestructor : Bool
  isWeak : Bool
  isUsed : Bool
  isFastcall : Bool
  isNaked : Bool
  isNoreturn : Bool
  section_ : Option JsStr
  visibility : Option JsStr
  symver : Option JsStr
deriving DecidableEq

structure DeclAttributes where
  isConstructor : Bool
  isDestructor : Bool
  isWeak : Bool
  isErrorAttr : Bool
  isNoreturn : Bool
  isUsed : Bool
  isFastcall : Bool
  isNaked : Bool
  aliasTarget : Option JsStr
  visibility : Option JsStr
  section_ : Option JsStr
  asmRegister : Option JsStr
  cleanupFn : Option JsStr
  symver : Option JsStr
deriving DecidableEq

mutual

inductive Expression where
  | IntLiteral (meta : NodeMeta) (value : Int)
  | UIntLiteral (meta : NodeMeta) (value : Int)
  | LongLiteral (meta : NodeMeta) (value : Int)
  | ULongLiteral (meta : NodeMeta) (value : Int)
  | LongLongLiteral (meta : NodeMeta) (value : Int)
  | ULongLongLiteral (meta : NodeMeta) (value : Int)
  | FloatLiteral (meta : NodeMeta) (value : JsVal)
  | FloatLiteralF32 (meta : NodeMeta) (value : JsVal)
  | FloatLiteralLongDouble (meta : NodeMeta) (value : JsVal)
  | ImaginaryLiteral (meta : NodeMeta) (value : JsVal)
  | ImaginaryLiteralF32 (meta : NodeMeta) (value : JsVal)
  | ImaginaryLiteralLongDouble (meta : NodeMeta) (value : JsVal)
  | StringLiteral (meta : NodeMeta) (value : JsStr)
  | WideStringLiteral (meta : NodeMeta) (value : JsStr)
  | Char16StringLiteral (meta : NodeMeta) (value : JsStr)
  | CharLiteral (meta : NodeMeta) (value : JsStr)
  | Identifier (meta : NodeMeta) (name : JsStr)
  | BinaryExpression (meta : NodeMeta) (operator : BinOp)
      (left right : Expression)
  | UnaryExpression (meta : NodeMeta) (operator : UnaryOp)
      (operand : Expression)
  | PostfixExpression (meta : NodeMeta) (operator : PostfixOp)
      (operand : Expression)
  | AssignExpression (meta : NodeMeta) (left right : Expression)
  | CompoundAssignExpression (meta : NodeMeta) (operator : BinOp)
      (left right : Expression)
  | ConditionalExpression (meta : NodeMeta)
      (condition consequent alternate : Expression)
  | GnuConditionalExpression (meta : NodeMeta)
      (condition alternate : Expression)
  | FunctionCallExpression (meta : NodeMeta) (callee : Expression)
      (args : List Expression)
  | ArraySubscriptExpression (meta : NodeMeta) (object index : Expression)
  | MemberAccessExpression (meta : NodeMeta) (object : Expression)
      (member : JsStr)
  | PointerMemberAccessExpression (meta : NodeMeta) (object : Expression)
      (member : JsStr)
  | CastExpression (meta : NodeMeta) (typeSpec : TypeSpecifier)
      (operand : Expression)
  | CompoundLiteralExpression (meta : NodeMeta) (typeSpec : TypeSpecifier)
      (init : Initializer)
  | StmtExpression (meta : NodeMeta) (body : CompoundStmt)
  | SizeofExpression (meta : NodeMeta) (argument : SizeofArg)
  | VaArgExpression (meta : NodeMeta) (expr : Expression)
      (typeSpec : TypeSpecifier)
  | AlignofExpression (meta : NodeMeta) (typeSpec : TypeSpecifier)
  | AlignofExprExpression (meta : NodeMeta) (expr : Expression)
  | GnuAlignofExpression (meta : NodeMeta) (typeSpec : TypeSpecifier)
  | GnuAlignofExprExpression (meta : NodeMeta) (expr : Expression)
  | CommaExpression (meta : NodeMeta) (left right : Expression)
  | AddressOfExpression (meta : NodeMeta) (operand : Expression)
  | DerefExpression (meta : NodeMeta) (operand : Expression)
  | GenericSelectionExpression (meta : NodeMeta) (controlling : Expression)
      (associations : List GenericAssociation)
  | LabelAddrExpression (meta : NodeMeta) (label : JsStr)
  | BuiltinTypesCompatiblePExpression (meta : NodeMeta)
      (typeSpec1 typeSpec2 : TypeSpecifier)

inductive GenericAssociation where
  | mk (typeSpec : Option TypeSpecifier) (expr : Expression) (isConst : Bool)

inductive SizeofArg where
  | Type (typeSpec : TypeSpecifier)
  | Expr (expr : Expression)

inductive TypeSpecifier where
  | VoidType (meta : TSMeta)
  | CharType (meta : TSMeta)
  | ShortType (meta : TSMeta)
  | IntType (meta : TSMeta)
  | LongType (meta : TSMeta)
  | LongLongType (meta : TSMeta)
  | FloatType (meta : TSMeta)
  | DoubleType (meta : TSMeta)
  | LongDoubleType (meta : TSMeta)
  | SignedType (meta : TSMeta)
  | UnsignedType (meta : TSMeta)
  | UnsignedCharType (meta : TSMeta)
  | UnsignedShortType (meta : TSMeta)
  | UnsignedIntType (meta : TSMeta)
  | UnsignedLongType (meta : TSMeta)
  | UnsignedLongLongType (meta : TSMeta)
  | Int128Type (meta : TSMeta)
  | UnsignedInt128Type (meta : TSMeta)
  | BoolType (meta : TSMeta)
  | ComplexFloatType (meta : TSMeta)
  | ComplexDoubleType (meta : TSMeta)
  | ComplexLongDoubleType (meta : TSMeta)
  | StructType (meta : TSMeta) (name : Option JsStr)
      (fields : Option (List StructFieldDeclaration)) (isPacked : Bool)
      (maxFieldAlign : Option Int) (structAligned : Option Int)
  | UnionType (meta : TSMeta) (name : Option JsStr)
      (fields : Option (List StructFieldDeclaration)) (isPacked : Bool)
      (maxFieldAlign : Option Int) (structAligned : Option Int)
  | EnumType (meta : TSMeta) (name : Option JsStr)
      (variants : Option (List EnumVariant)) (isPacked : Bool)
  | TypedefNameType (meta : TSMeta) (name : JsStr)
  | PointerType (meta : TSMeta) (base : TypeSpecifier)
      (addressSpace : AddressSpace)
  | ArrayType (meta : TSMeta) (element : TypeSpecifier)
      (size : Option Expression)
  | FunctionPointerType (meta : TSMeta) (returnType : TypeSpecifier)
      (params : List ParamDeclaration) (variadic : Bool)
  | BareFunctionType (meta : TSMeta) (returnType : TypeSpecifier)
      (params : List ParamDeclaration) (variadic : Bool)
  | TypeofExprType (meta : TSMeta) (expr : Expression)
  | TypeofTypeType (meta : TSMeta) (typeSpec : TypeSpecifier)
  | AutoTypeType (meta : TSMeta)
  | VectorType (meta : TSMeta) (element : TypeSpecifier) (totalBytes : Int)

inductive StructFieldDeclaration where
  | mk (meta : NodeMeta) (typeSpec : TypeSpecifier) (name : Option JsStr)
      (nameNode : Option Expression) (bitWidth : Option Expression)
      (derived : List DerivedDeclarator) (alignment : Option Int)
      (isPacked : Bool)

inductive EnumVariant where
  | mk (name : JsStr) (value : Option Expression)

inductive DerivedDeclarator where
  | Pointer
  | Array (size : Option Expression)
  | Function (params : List ParamDeclaration) (variadic : Bool)
  | FunctionPointer (params : List ParamDeclaration) (variadic : Bool)

inductive ParamDeclaration where
  | mk (typeSpec : TypeSpecifier) (name : Option JsStr)
      (fptrParams : Option (List ParamDeclaration)) (isConst : Bool)
      (vlaSizeExprs : List Expression) (fptrInnerPtrDepth : Int)

inductive Initializer where
  | Expr (expr : Expression)
  | List (items : List InitializerItem)

inductive InitializerItem where
  | mk (designators : List Designator) (init : Initializer)

inductive Designator where
  | Index (index : Expression)
  | Range (low high : Expression)
  | Field (name : JsStr)

inductive InitDeclarator where
  | mk (meta : NodeMeta) (name : JsStr) (derived : List DerivedDeclarator)
      (init : Option Initializer) (attrs : DeclAttributes)

inductive Declaration where
  | mk (meta : NodeMeta) (typeSpec : TypeSpecifier)
      (declarators : List InitDeclarator)
      (isStatic isExtern isTypedef isConst isVolatile isCommon
       isThreadLocal isTransparentUnion isInline : Bool)
      (alignment : Option Int) (alignasType : Option TypeSpecifier)
      (alignmentSizeofType : Option TypeSpecifier)
      (addressSpace : AddressSpace) (vectorSize : Option Int)
      (extVectorNelem : Option Int)

inductive CompoundStmt where
  | mk (meta : NodeMeta) (items : List BlockItem) (localLabels : List JsStr)

inductive BlockItem where
  | decl (declaration : Declaration)
  | stmt (statement : Statement)

inductive ForInit where
  | Declaration (declaration : Declaration)
  | Expression (expr : Expression)

inductive AsmOperand where
  | mk (name : Option JsStr) (constraint : JsStr) (expr : Expression)

inductive Statement where
  | ExpressionStatement (meta : NodeMeta) (expr : Option Expression)
  | ReturnStatement (meta : NodeMeta) (expr : Option Expression)
  | IfStatement (meta : NodeMeta) (condition : Expression)
      (consequent : Statement) (alternate : Option Statement)
  | WhileStatement (meta : NodeMeta) (condition : Expression)
      (body : Statement)
  | DoWhileStatement (meta : NodeMeta) (body : Statement)
      (condition : Expression)
  | ForStatement (meta : NodeMeta) (init : Option ForInit)
      (condition update : Option Expression) (body : Statement)
  | CompoundStatement (c : CompoundStmt)
  | BreakStatement (meta : NodeMeta)
  | ContinueStatement (meta : NodeMeta)
  | SwitchStatement (meta : NodeMeta) (discriminant : Expression)
      (body : Statement)
  | CaseStatement (meta : NodeMeta) (test : Expression) (body : Statement)
  | CaseRangeStatement (meta : NodeMeta) (low high : Expression)
      (body : Statement)
  | DefaultStatement (meta : NodeMeta) (body : Statement)
  | GotoStatement (meta : NodeMeta) (label : JsStr)
  | GotoIndirectStatement (meta : NodeMeta) (expr : Expression)
  | LabelStatement (meta : NodeMeta) (label : JsStr) (body : Statement)
  | DeclarationStatement (meta : NodeMeta) (declaration : Declaration)
  | InlineAsmStatement (meta : NodeMeta) (template : JsStr)
      (outputs inputs : List AsmOperand) (clobbers gotoLabels : List JsStr)

end

structure FunctionDefinition where
  meta : NodeMeta
  returnType : TypeSpecifier
  name : JsStr
  params : List ParamDeclaration
  variadic : Bool
  body : CompoundStmt
  attrs : FunctionAttributes
  isKr : Bool

structure TopLevelAsm where
  meta : NodeMeta
  asm : JsStr

inductive ExternalDeclaration where
  | func (f : FunctionDefinition)
  | decl (d : Declaration)
  | asm (a : TopLevelAsm)

structure TranslationUnit where
  meta : NodeMeta
  decls : List ExternalDeclaration

/-! ## Parser state (`src/parser/parser.ts`)

The `Parser` class becomes a state structure threaded through `StateM`.
JS `Set`/`Map` fields become lists (membership keyed by equality; `Map.set`
updates an existing key in place, otherwise appends).  `attrs.flags` is a
JS 32-bit integer manipulated with `|`, `&`, `~`, modelled with the same
`jsOr`/`jsAnd`/`jsNot` used for the scanner.  The model adds one field,
`fuelExhausted`: the fuelled recursion sets it (and it stays set) when
fuel runs out, so a run whose final state has it `false` coincides with
the JS run. -/

/-- JS `Map.prototype.set`. -/
def jsMapSet (m : List (JsStr × Int)) (k : JsStr) (v : Int) :
    List (JsStr × Int) :=
  if m.any (fun e => e.1 == k) then
    m.map (fun e => if e.1 == k then (k, v) else e)
  else m ++ [(k, v)]

/-- JS `Map.prototype.get` (`none` = `undefined`). -/
def jsMapGet (m : List (JsStr × Int)) (k : JsStr) : Option Int :=
  (m.find? (fun e => e.1 == k)).map (·.2)

/-- JS `Set.prototype.add`. -/
def jsSetAdd (s : List JsStr) (k : JsStr) : List JsStr :=
  if s.contains k then s else s ++ [k]

/-- JS `Set.prototype.delete` (the result set). -/
def jsSetDelete (s : List JsStr) (k : JsStr) : List JsStr :=
  s.filter (fun e => ¬(e == k))

def ATTR_TYPEDEF : Int := 1
def ATTR_STATIC : Int := 2
def ATTR_EXTERN : Int := 4
def ATTR_THREAD_LOCAL : Int := 8
def ATTR_INLINE : Int := 16
def ATTR_CONST : Int := 32
def ATTR_VOLATILE : Int := 64
def ATTR_CONSTRUCTOR : Int := 128
def ATTR_DESTRUCTOR : Int := 256
def ATTR_WEAK : Int := 512
def ATTR_USED : Int := 1024
def ATTR_GNU_INLINE : Int := 2048
def ATTR_ALWAYS_INLINE : Int := 4096
def ATTR_NOINLINE : Int := 8192
def ATTR_NORETURN : Int := 16384
def ATTR_ERROR_ATTR : Int := 32768
def ATTR_TRANSPARENT_UNION : Int := 65536
def ATTR_FASTCALL : Int := 131072
def ATTR_NAKED : Int := 262144

structure ParsedDeclAttrs where
  flags : Int
  parsingAddressSpace : AddressSpace
  parsingAliasTarget : Option JsStr
  parsingVisibility : Option JsStr
  parsingSection : Option JsStr
  parsingCleanupFn : Option JsStr
  parsingSymver : Option JsStr
  parsingVectorSize : Option Int
  parsingExtVectorNelem : Option Int
  parsedAlignas : Option Int
  parsedAlignasType : Option TypeSpecifier
  parsedAlignmentSizeofType : Option TypeSpecifier

def defaultAttrs : ParsedDeclAttrs :=
  { flags := 0, parsingAddressSpace := .Default, parsingAliasTarget := none,
    parsingVisibility := none, parsingSection := none,
    parsingCleanupFn := none, parsingSymver := none,
    parsingVectorSize := none, parsingExtVectorNelem := none,
    parsedAlignas := none, parsedAlignasType := none,
    parsedAlignmentSizeofType := none }

def builtinTypedefs1 : List JsStr :=
  [litStr "size_t", litStr "ssize_t", litStr "ptrdiff_t", litStr "wchar_t",
   litStr "wint_t", litStr "int8_t", litStr "int16_t", litStr "int32_t",
   litStr "int64_t", litStr "uint8_t", litStr "uint16_t", litStr "uint32_t",
   litStr "uint64_t", litStr "intptr_t", litStr "uintptr_t",
   litStr "intmax_t", litStr "uintmax_t", litStr "int_least8_t",
   litStr "int_least16_t", litStr "int_least32_t", litStr "int_least64_t",
   litStr "uint_least8_t", litStr "uint_least16_t", litStr "uint_least32_t",
   litStr "uint_least64_t", litStr "int_fast8_t", litStr "int_fast16_t",
   litStr "int_fast32_t", litStr "int_fast64_t", litStr "uint_fast8_t"]

def builtinTypedefs2 : List JsStr :=
  [litStr "uint_fast16_t", litStr "uint_fast32_t", litStr "uint_fast64_t",
   litStr "FILE", litStr "fpos_t", litStr "sig_atomic_t", litStr "time_t",
   litStr "clock_t", litStr "timer_t", litStr "clockid_t", litStr "off_t",
   litStr "pid_t", litStr "uid_t", litStr "gid_t", litStr "mode_t",
   litStr "dev_t", litStr "ino_t", litStr "nlink_t", litStr "blksize_t",
   litStr "blkcnt_t", litStr "ulong", litStr "ushort", litStr "uint",
   litStr "__u8", litStr "__u16", litStr "__u32", litStr "__u64",
   litStr "__s8", litStr "__s16", litStr "__s32", litStr "__s64"]

def builtinTypedefs3 : List JsStr :=
  [litStr "va_list", litStr "__builtin_va_list", litStr "__gnuc_va_list",
   litStr "locale_t", litStr "pthread_t", litStr "pthread_mutex_t",
   litStr "pthread_cond_t", litStr "pthread_key_t", litStr "pthread_attr_t",
   litStr "pthread_once_t", litStr "pthread_mutexattr_t",
   litStr "pthread_condattr_t", litStr "jmp_buf", litStr "sigjmp_buf",
   litStr "DIR", litStr "__Float32x4_t", litStr "__Float64x2_t",
   litStr "__SVFloat32_t", litStr "__SVFloat64_t", litStr "__SVBool_t",
   litStr "__SVInt8_t", litStr "__SVInt16_t", litStr "__SVInt32_t",
   litStr "__SVInt64_t", litStr "__SVUint8_t", litStr "__SVUint16_t",
   litStr "__SVUint32_t", litStr "__SVUint64_t", litStr "__SVFloat16_t"]

/-- `Parser.builtinTypedefs` (static). -/
def builtinTypedefs : List JsStr :=
  builtinTypedefs1 ++ builtinTypedefs2 ++ builtinTypedefs3

structure Parser where
  tokens : List Token
  pos : Nat
  typedefs : List JsStr
  shadowedTypedefs : List JsStr
  attrs : ParsedDeclAttrs
  pragmaPackStack : List (Option Int)
  pragmaPackAlign : Option Int
  pragmaVisibilityStack : List JsStr
  pragmaDefaultVisibility : Option JsStr
  errorCount : Nat
  enumConstants : List (JsStr × Int)
  unevaluableEnumConstants : List JsStr
  structTagAlignments : List (JsStr × Int)
  fuelExhausted : Bool := false

/-- The `Parser` constructor. -/
def Parser.init (tokens : List Token) : Parser :=
  { tokens := tokens, pos := 0, typedefs := builtinTypedefs,
    shadowedTypedefs := [], attrs := defaultAttrs, pragmaPackStack := [],
    pragmaPackAlign := none, pragmaVisibilityStack := [],
    pragmaDefaultVisibility := none, errorCount := 0, enumConstants := [],
    unevaluableEnumConstants := [], structTagAlignments := [] }

abbrev PM := StateM Parser

/-- Marks the model's fuel as exhausted (sticky). -/
def exhaust : PM Unit :=
  modify fun s => { s with fuelExhausted := true }

namespace Parser

def dummySpan : Span := ⟨0, 0⟩

def getAttrFlag (mask : Int) : PM Bool := do
  let s ← get
  pure (jsAnd s.attrs.flags mask ≠ 0)

def setAttrFlag (mask : Int) (v : Bool) : PM Unit :=
  modify fun s =>
    if v then { s with attrs := { s.attrs with flags := jsOr s.attrs.flags mask } }
    else { s with attrs := { s.attrs with flags := jsAnd s.attrs.flags (jsNot mask) } }

def saveAttrFlags : PM Int := do
  pure (← get).attrs.flags

def restoreAttrFlags (saved : Int) : PM Unit :=
  modify fun s => { s with attrs := { s.attrs with flags := saved } }

def eofToken : Token := { kind := .Eof, start := 0, end_ := 0 }

def atEof : PM Bool := do
  let s ← get
  pure (s.pos ≥ s.tokens.length ∨
    (s.tokens.getD s.pos eofToken).kind = .Eof : Bool)

def peek : PM TokenKind := do
  let s ← get
  if s.pos < s.tokens.length then pure (s.tokens.getD s.pos eofToken).kind
  else pure .Eof

def peekToken : PM Token := do
  let s ← get
  if s.pos < s.tokens.length then pure (s.tokens.getD s.pos eofToken)
  else pure eofToken

def peekSpan : PM Span := do
  let s ← get
  if s.pos < s.tokens.length then
    let t := s.tokens.getD s.pos eofToken
    pure ⟨t.start, t.end_⟩
  else pure dummySpan

def peekValue : PM (Option JsVal) := do
  let s ← get
  if s.pos < s.tokens.length then pure (s.tokens.getD s.pos eofToken).value
  else pure none

/-- `peekValue() as string ?? aDefault` at the current token. -/
def peekValueStr : PM JsStr := do
  match ← peekValue with
  | some (.str v) => pure v
  | _ => pure []

/-- `peekValue() as number ?? 0` at the current token. -/
def peekValueNum : PM Int := do
  match ← peekValue with
  | some (.num v) => pure v
  | _ => pure 0

def spanFromTokenRange (startPos endPosExclusive : Nat) : PM Span := do
  let s ← get
  if s.tokens.length = 0 then pure dummySpan
  else if startPos ≥ endPosExclusive then
    if startPos < s.tokens.length then
      let tok := s.tokens.getD startPos eofToken
      pure ⟨tok.start, tok.end_⟩
    else pure dummySpan
  else
    let startIdx := min startPos (s.tokens.length - 1)
    let endIdx := max startIdx (min (endPosExclusive - 1) (s.tokens.length - 1))
    pure ⟨(s.tokens.getD startIdx eofToken).start,
          (s.tokens.getD endIdx eofToken).end_⟩

def advance : PM Token := do
  let s ← get
  if s.pos < s.tokens.length then
    let tok := s.tokens.getD s.pos eofToken
    set { s with pos := s.pos + 1 }
    pure tok
  else pure (s.tokens.getD (s.tokens.length - 1) eofToken)

def consumeIf (kind : TokenKind) : PM Bool := do
  if (← peek) = kind then
    let _ ← advance
    pure true
  else pure false

def emitError : PM Unit :=
  modify fun s => { s with errorCount := s.errorCount + 1 }

def expect (expected : TokenKind) : PM Span := do
  if (← peek) = expected then
    let span ← peekSpan
    let _ ← advance
    pure span
  else
    let span ← peekSpan
    emitError
    pure span

/-- `expectAfter` / `expectContext` / `expectClosing` differ from
`expect` only in the diagnostic message, which the model does not
carry. -/
def expectAfter (expected : TokenKind) : PM Span := expect expected

def expectContext (expected : TokenKind) : PM Span := expect expected

def expectClosing (expected : TokenKind) : PM Span := expect expected

end Parser

/-! ## Constant evaluator (free functions of `declarations.ts`)

JS number arithmetic on the values that reach these functions is exact
integer arithmetic except where the source itself truncates with `| 0`,
`Math.imul`, shifts, or `>>> 0`; those JS operators are modelled with
the same 32-bit helpers as the scanner.  `(l / r) | 0` (and `%`) on
integral operands is truncation toward zero. -/

def jsDivInt (l r : Int) : Int := jsOr0 (Int.tdiv l r)

def jsModInt (l r : Int) : Int := jsOr0 (Int.tmod l r)

def PTR_SIZE : Int := 8

def isUnsignedTypeSpec : TypeSpecifier → Bool
  | .UnsignedCharType _ | .UnsignedShortType _ | .UnsignedIntType _
  | .UnsignedType _ | .UnsignedLongType _ | .UnsignedLongLongType _
  | .UnsignedInt128Type _ | .BoolType _ | .PointerType _ _ _ => true
  | _ => false

def isUnsignedIntExpr : Expression → Bool
  | .UIntLiteral _ _ | .ULongLiteral _ _ | .ULongLongLiteral _ _ => true
  | .CastExpression _ ts _ => isUnsignedTypeSpec ts
  | .UnaryExpression _ op operand =>
    if op = .Plus ∨ op = .Neg then isUnsignedIntExpr operand else false
  | .BinaryExpression _ _ l r => isUnsignedIntExpr l || isUnsignedIntExpr r
  | .SizeofExpression _ _ | .AlignofExpression _ _
  | .GnuAlignofExpression _ _ | .AlignofExprExpression _ _
  | .GnuAlignofExprExpression _ _ => true
  | _ => false

def evalBinaryOp (op : BinOp) (l r : Int) (lhsExpr rhsExpr : Expression) :
    Option Int :=
  match op with
  | .Add => some (jsOr0 (l + r))
  | .Sub => some (jsOr0 (l - r))
  | .Mul => some (jsImul l r)
  | .Div => if r ≠ 0 then some (jsDivInt l r) else none
  | .Mod => if r ≠ 0 then some (jsModInt l r) else none
  | .Shl => some (jsShl l (jsAnd r 31))
  | .Shr =>
    if isUnsignedIntExpr lhsExpr then some (jsShrU l (jsAnd r 31))
    else some (jsShr l (jsAnd r 31))
  | .BitAnd => some (jsAnd l r)
  | .BitOr => some (jsOr l r)
  | .BitXor => some (jsXor l r)
  | .Eq => some (if l = r then 1 else 0)
  | .Ne => some (if l ≠ r then 1 else 0)
  | .Lt =>
    if isUnsignedIntExpr lhsExpr || isUnsignedIntExpr rhsExpr then
      some (if toUint32 l < toUint32 r then 1 else 0)
    else some (if l < r then 1 else 0)
  | .Le =>
    if isUnsignedIntExpr lhsExpr || isUnsignedIntExpr rhsExpr then
      some (if toUint32 l ≤ toUint32 r then 1 else 0)
    else some (if l ≤ r then 1 else 0)
  | .Gt =>
    if isUnsignedIntExpr lhsExpr || isUnsignedIntExpr rhsExpr then
      some (if toUint32 l > toUint32 r then 1 else 0)
    else some (if l > r then 1 else 0)
  | .Ge =>
    if isUnsignedIntExpr lhsExpr || isUnsignedIntExpr rhsExpr then
      some (if toUint32 l ≥ toUint32 r then 1 else 0)
    else some (if l ≥ r then 1 else 0)
  | .LogicalAnd => some (if l ≠ 0 ∧ r ≠ 0 then 1 else 0)
  | .LogicalOr => some (if l ≠ 0 ∨ r ≠ 0 then 1 else 0)

def typeSpecHasTypedef : TypeSpecifier → Bool
  | .TypedefNameType _ _ => true
  | .PointerType _ base _ => typeSpecHasTypedef base
  | .ArrayType _ elem _ => typeSpecHasTypedef elem
  | _ => false

mutual

def alignofTypeSpec (ts : TypeSpecifier)
    (tagAligns : Option (List (JsStr × Int))) : Int :=
  match ts with
  | .VoidType _ | .BoolType _ | .CharType _ | .UnsignedCharType _ => 1
  | .ShortType _ | .UnsignedShortType _ => 2
  | .IntType _ | .UnsignedIntType _ | .SignedType _ | .UnsignedType _
  | .FloatType _ => 4
  | .LongType _ | .UnsignedLongType _ => PTR_SIZE
  | .LongLongType _ | .UnsignedLongLongType _ | .DoubleType _ =>
    if PTR_SIZE = 4 then 4 else 8
  | .PointerType _ _ _ | .FunctionPointerType _ _ _ _ => PTR_SIZE
  | .Int128Type _ | .UnsignedInt128Type _ => 16
  | .LongDoubleType _ => if PTR_SIZE = 4 then 4 else 16
  | .ComplexFloatType _ => 4
  | .ComplexDoubleType _ => if PTR_SIZE = 4 then 4 else 8
  | .ComplexLongDoubleType _ => if PTR_SIZE = 4 then 4 else 16
  | .ArrayType _ elem _ => alignofTypeSpec elem tagAligns
  | .StructType _ name fields isPacked _ structAligned =>
    alignofStructBody name fields isPacked structAligned tagAligns
  | .UnionType _ name fields isPacked _ structAligned =>
    alignofStructBody name fields isPacked structAligned tagAligns
  | .EnumType _ _ _ _ => 4
  | .TypedefNameType _ _ => PTR_SIZE
  | _ => PTR_SIZE

def alignofStructBody (name : Option JsStr)
    (fields : Option (List StructFieldDeclaration)) (isPacked : Bool)
    (structAligned : Option Int)
    (tagAligns : Option (List (JsStr × Int))) : Int :=
  if isPacked then 1
  else
    match fields with
    | some fs =>
      let align := alignofFieldsLoop fs (structAligned.getD 0) tagAligns
      if align = 0 then PTR_SIZE else align
    | none =>
      match name, tagAligns with
      | some n, some aligns =>
        if n ≠ [] then
          match jsMapGet aligns n with
          | some stored => stored
          | none =>
            if (structAligned.getD 0) = 0 then PTR_SIZE
            else structAligned.getD 0
        else
          if (structAligned.getD 0) = 0 then PTR_SIZE else structAligned.getD 0
      | _, _ =>
        if (structAligned.getD 0) = 0 then PTR_SIZE else structAligned.getD 0

def alignofFieldsLoop (fs : List StructFieldDeclaration) (align : Int)
    (tagAligns : Option (List (JsStr × Int))) : Int :=
  match fs with
  | [] => align
  | ⟨_, ftype, _, _, _, _, falign, _⟩ :: rest =>
    let fa := match falign with
      | some a => a
      | none => alignofTypeSpec ftype tagAligns
    alignofFieldsLoop rest (max align fa) tagAligns

end

def preferredAlignofTypeSpec (ts : TypeSpecifier)
    (tagAligns : Option (List (JsStr × Int))) : Int :=
  if PTR_SIZE ≠ 4 then alignofTypeSpec ts tagAligns
  else
    match ts with
    | .LongLongType _ | .UnsignedLongLongType _ | .DoubleType _ => 8
    | .ComplexDoubleType _ => 8
    | .ArrayType _ elem _ => preferredAlignofTypeSpec elem tagAligns
    | _ => alignofTypeSpec ts tagAligns

mutual

def evalConstIntExprWithEnums (expr : Expression)
    (enums : Option (List (JsStr × Int)))
    (tagAligns : Option (List (JsStr × Int))) : Option Int :=
  match expr with
  | .IntLiteral _ v => some v
  | .UIntLiteral _ v => some v
  | .LongLiteral _ v => some v
  | .ULongLiteral _ v => some v
  | .LongLongLiteral _ v => some v
  | .ULongLongLiteral _ v => some v
  | .CharLiteral _ v => some (Int.ofNat (chAt v 0))
  | .Identifier _ name =>
    (match enums with
     | some m => jsMapGet m name
     | none => none)
  | .BinaryExpression _ op l r =>
    (match evalConstIntExprWithEnums l enums tagAligns,
           evalConstIntExprWithEnums r enums tagAligns with
     | some lv, some rv => evalBinaryOp op lv rv l r
     | _, _ => none)
  | .UnaryExpression _ op operand =>
    (match evalConstIntExprWithEnums operand enums tagAligns with
     | none => none
     | some inner =>
       match op with
       | .Neg => some (jsOr0 (-inner))
       | .BitNot =>
         if isUnsignedIntExpr operand then
           some (toUint32 (jsAnd (jsNot inner) 0xffffffff))
         else some (jsNot inner)
       | .LogicalNot => some (if inner = 0 then 1 else 0)
       | .Plus => some inner
       | _ => none)
  | .ConditionalExpression _ c t e =>
    (match evalConstIntExprWithEnums c enums tagAligns with
     | none => none
     | some cv =>
       if cv ≠ 0 then evalConstIntExprWithEnums t enums tagAligns
       else evalConstIntExprWithEnums e enums tagAligns)
  | .CastExpression _ ts operand =>
    (match evalConstIntExprWithEnums operand enums tagAligns with
     | none => none
     | some val =>
       match trySizeofTypeSpec ts with
       | none => none
       | some size =>
         let bits := size * 8
         if bits ≥ 64 ∧ isUnsignedTypeSpec ts then none
         else if bits = 0 ∨ bits ≥ 64 then some val
         else
           let mask := jsShl 1 bits - 1
           let truncated := jsAnd val mask
           if isUnsignedTypeSpec ts then some (toUint32 truncated)
           else
             let signBit := jsShl 1 (bits - 1)
             if jsAnd truncated signBit ≠ 0 then
               some (jsOr truncated (jsNot mask))
             else some truncated)
  | .SizeofExpression _ arg =>
    (match arg with
     | .Type ts =>
       (match trySizeofTypeSpec ts with
        | some s => some s
        | none => none)
     | .Expr _ => none)
  | .AlignofExpression _ ts =>
    if typeSpecHasTypedef ts then none
    else some (alignofTypeSpec ts tagAligns)
  | .GnuAlignofExpression _ ts =>
    if typeSpecHasTypedef ts then none
    else some (preferredAlignofTypeSpec ts tagAligns)
  | .AlignofExprExpression _ _ => none
  | .GnuAlignofExprExpression _ _ => none
  | .CommaExpression _ _ r => evalConstIntExprWithEnums r enums tagAligns
  | _ => none

def trySizeofTypeSpec (ts : TypeSpecifier) : Option Int :=
  match ts with
  | .VoidType _ | .BoolType _ | .CharType _ | .UnsignedCharType _ => some 1
  | .ShortType _ | .UnsignedShortType _ => some 2
  | .IntType _ | .UnsignedIntType _ | .SignedType _ | .UnsignedType _
  | .FloatType _ => some 4
  | .LongType _ | .UnsignedLongType _ => some PTR_SIZE
  | .LongLongType _ | .UnsignedLongLongType _ | .DoubleType _ => some 8
  | .PointerType _ _ _ | .FunctionPointerType _ _ _ _ => some PTR_SIZE
  | .Int128Type _ | .UnsignedInt128Type _ => some 16
  | .LongDoubleType _ => some (if PTR_SIZE = 4 then 12 else 16)
  | .ComplexFloatType _ => some 8
  | .ComplexDoubleType _ => some 16
  | .ComplexLongDoubleType _ => some (if PTR_SIZE = 4 then 24 else 32)
  | .ArrayType _ elem size =>
    (match size with
     | none => some 0
     | some sz =>
       match trySizeofTypeSpec elem with
       | none => none
       | some elemSize =>
         match evalConstIntExprWithEnums sz none none with
         | none => none
         | some count => some (elemSize * count))
  | _ => none

end

/-- `evalConstIntExpr`. -/
def evalConstIntExpr (expr : Expression) : Option Int :=
  evalConstIntExprWithEnums expr none none

def exprHasNonConstIdentifier (expr : Expression)
    (enumConsts : Option (List (JsStr × Int)))
    (unevaluableConsts : Option (List JsStr)) : Bool :=
  match expr with
  | .Identifier _ name =>
    let inEval := match enumConsts with
      | some m => m.any (fun e => e.1 == name)
      | none => false
    let inUneval := match unevaluableConsts with
      | some s => s.contains name
      | none => false
    ¬(inEval || inUneval)
  | .BinaryExpression _ _ l r =>
    exprHasNonConstIdentifier l enumConsts unevaluableConsts ||
    exprHasNonConstIdentifier r enumConsts unevaluableConsts
  | .UnaryExpression _ _ operand =>
    exprHasNonConstIdentifier operand enumConsts unevaluableConsts
  | .ConditionalExpression _ c t e =>
    exprHasNonConstIdentifier c enumConsts unevaluableConsts ||
    exprHasNonConstIdentifier t enumConsts unevaluableConsts ||
    exprHasNonConstIdentifier e enumConsts unevaluableConsts
  | .CastExpression _ _ operand =>
    exprHasNonConstIdentifier operand enumConsts unevaluableConsts
  | .CommaExpression _ l r =>
    exprHasNonConstIdentifier l enumConsts unevaluableConsts ||
    exprHasNonConstIdentifier r enumConsts unevaluableConsts
  | _ => false

/-- One expanded range entry of `expandRangeDesignators`. -/
def rangeIndexItem (desigs : List Designator) (rangePos : Nat) (idx : Int)
    (init : Initializer) : InitializerItem :=
  .mk (desigs.set rangePos (.Index (.IntLiteral
    { start := 0, end_ := 0, loc := some locPlaceholder } idx))) init

def rangeExpandLoop (desigs : List Designator) (rangePos : Nat)
    (init : Initializer) (lo : Int) : Nat → List InitializerItem
  | 0 => []
  | n + 1 =>
    rangeIndexItem desigs rangePos lo init ::
      rangeExpandLoop desigs rangePos init (lo + 1) n

def expandRangeDesignators (items : List InitializerItem)
    (enumConsts : Option (List (JsStr × Int))) : List InitializerItem :=
  match items with
  | [] => []
  | item :: rest =>
    let expanded :=
      match item with
      | .mk desigs init =>
        match desigs.findIdx? (fun d => match d with
          | .Range _ _ => true
          | _ => false) with
        | some rangePos =>
          (match desigs.getD rangePos (.Field []) with
           | .Range lo hi =>
             (match evalConstIntExprWithEnums lo enumConsts none,
                    evalConstIntExprWithEnums hi enumConsts none with
              | some l, some h =>
                some (rangeExpandLoop desigs rangePos init l (h + 1 - l).toNat)
              | _, _ => none)
           | _ => none)
        | none => none
    match expanded with
    | some items2 => items2 ++ expandRangeDesignators rest enumConsts
    | none => item :: expandRangeDesignators rest enumConsts

/-! ## Source locations (`src/ast/locations.ts`)

`normalizeAstLocations` is a generic object-graph walk in the source; on
the typed AST it amounts to rewriting every node's metadata: nodes with
numeric `start`/`end` (every `NodeMeta`, and a `TSMeta` whose `span` is
present) are "AST-node-like" and get `loc` assigned (`includeLoc`) or
deleted (`!includeLoc`); span-less type-specifier nodes are skipped by
`isAstNodeLike` and their `loc` stays absent.  The `seen` set only
prevents re-visiting shared mutable objects; re-processing is idempotent,
so the value-level traversal below computes the same final tree.  The
binary-search loop of `positionFor` shrinks `hi - lo` every iteration,
so `lineOffsets.length + 1` rounds of fuel always suffice (the model
needs no exhaustion flag here); its `>>> 1` midpoint is the JS uint32
shift, written `% 2^32 / 2`. -/

def lineOffsetsLoop : JsStr → Nat → List Nat
  | [], _ => []
  | c :: rest, i =>
    if c = 10 then (i + 1) :: lineOffsetsLoop rest (i + 1)
    else lineOffsetsLoop rest (i + 1)

def buildLineOffsets (source : JsStr) : List Nat :=
  0 :: lineOffsetsLoop source 0

/-- `clampOffset` (offsets in the typed tree are already finite naturals,
so the `Number.isFinite`/`Math.trunc` legs are vacuous). -/
def clampOffset (offset sourceLength : Nat) : Nat :=
  if offset ≥ sourceLength then sourceLength else offset

/-- The `while (lo < hi)` binary search of `positionFor`; an
out-of-bounds `lineOffsets[mid]` is JS `undefined`, whose `<=` comparison
is false — the default `clamped + 1` encodes that. -/
def posSearchLoop (lineOffsets : List Nat) (clamped : Nat) :
    Nat → Nat → Nat → Nat
  | 0, lo, _ => lo
  | n + 1, lo, hi =>
    if lo < hi then
      let mid := (lo + hi + 1) % 4294967296 / 2
      if lineOffsets.getD mid (clamped + 1) ≤ clamped then
        posSearchLoop lineOffsets clamped n mid hi
      else
        posSearchLoop lineOffsets clamped n lo (mid - 1)
    else lo

def positionFor (offset : Nat) (lineOffsets : List Nat)
    (sourceLength : Nat) : SourcePosition :=
  let clamped := clampOffset offset sourceLength
  let lo := posSearchLoop lineOffsets clamped (lineOffsets.length + 1) 0
    (lineOffsets.length - 1)
  ⟨lo + 1, clamped - lineOffsets.getD lo 0⟩

/-- The traversal context: `includeLoc`, the precomputed line offsets and
`source.length`. -/
structure LocCtx where
  includeLoc : Bool
  lineOffsets : List Nat
  sourceLength : Nat

/-- The `loc` an AST-node-like object with offsets `start`/`end_` holds
after normalization. -/
def locAfter (c : LocCtx) (start end_ : Nat) : Option SourceLocation :=
  if c.includeLoc then
    some ⟨positionFor start c.lineOffsets c.sourceLength,
          positionFor end_ c.lineOffsets c.sourceLength⟩
  else none

def normMeta (c : LocCtx) (m : NodeMeta) : NodeMeta :=
  { m with loc := locAfter c m.start m.end_ }

/-- A `TSMeta` without a `span` has no numeric `start`/`end`, fails
`isAstNodeLike`, and keeps its (absent) `loc`. -/
def normTSMeta (c : LocCtx) (m : TSMeta) : TSMeta :=
  match m.span with
  | some sp => { m with loc := locAfter c sp.start sp.end_ }
  | none => { m with loc := none }

mutual

def normalizeExpr (c : LocCtx) : Expression → Expression
  | .IntLiteral m v => .IntLiteral (normMeta c m) v
  | .UIntLiteral m v => .UIntLiteral (normMeta c m) v
  | .LongLiteral m v => .LongLiteral (normMeta c m) v
  | .ULongLiteral m v => .ULongLiteral (normMeta c m) v
  | .LongLongLiteral m v => .LongLongLiteral (normMeta c m) v
  | .ULongLongLiteral m v => .ULongLongLiteral (normMeta c m) v
  | .FloatLiteral m v => .FloatLiteral (normMeta c m) v
  | .FloatLiteralF32 m v => .FloatLiteralF32 (normMeta c m) v
  | .FloatLiteralLongDouble m v => .FloatLiteralLongDouble (normMeta c m) v
  | .ImaginaryLiteral m v => .ImaginaryLiteral (normMeta c m) v
  | .ImaginaryLiteralF32 m v => .ImaginaryLiteralF32 (normMeta c m) v
  | .ImaginaryLiteralLongDouble m v =>
    .ImaginaryLiteralLongDouble (normMeta c m) v
  | .StringLiteral m v => .StringLiteral (normMeta c m) v
  | .WideStringLiteral m v => .WideStringLiteral (normMeta c m) v
  | .Char16StringLiteral m v => .Char16StringLiteral (normMeta c m) v
  | .CharLiteral m v => .CharLiteral (normMeta c m) v
  | .Identifier m n => .Identifier (normMeta c m) n
  | .BinaryExpression m op l r =>
    .BinaryExpression (normMeta c m) op (normalizeExpr c l) (normalizeExpr c r)
  | .UnaryExpression m op e =>
    .UnaryExpression (normMeta c m) op (normalizeExpr c e)
  | .PostfixExpression m op e =>
    .PostfixExpression (normMeta c m) op (normalizeExpr c e)
  | .AssignExpression m l r =>
    .AssignExpression (normMeta c m) (normalizeExpr c l) (normalizeExpr c r)
  | .CompoundAssignExpression m op l r =>
    .CompoundAssignExpression (normMeta c m) op (normalizeExpr c l)
      (normalizeExpr c r)
  | .ConditionalExpression m a b d =>
    .ConditionalExpression (normMeta c m) (normalizeExpr c a)
      (normalizeExpr c b) (normalizeExpr c d)
  | .GnuConditionalExpression m a b =>
    .GnuConditionalExpression (normMeta c m) (normalizeExpr c a)
      (normalizeExpr c b)
  | .FunctionCallExpression m f args =>
    .FunctionCallExpression (normMeta c m) (normalizeExpr c f)
      (normalizeExprList c args)
  | .ArraySubscriptExpression m o i =>
    .ArraySubscriptExpression (normMeta c m) (normalizeExpr c o)
      (normalizeExpr c i)
  | .MemberAccessExpression m o f =>
    .MemberAccessExpression (normMeta c m) (normalizeExpr c o) f
  | .PointerMemberAccessExpression m o f =>
    .PointerMemberAccessExpression (normMeta c m) (normalizeExpr c o) f
  | .CastExpression m ts e =>
    .CastExpression (normMeta c m) (normalizeTS c ts) (normalizeExpr c e)
  | .CompoundLiteralExpression m ts i =>
    .CompoundLiteralExpression (normMeta c m) (normalizeTS c ts)
      (normalizeInit c i)
  | .StmtExpression m b => .StmtExpression (normMeta c m) (normalizeCompound c b)
  | .SizeofExpression m a =>
    .SizeofExpression (normMeta c m) (normalizeSizeofArg c a)
  | .VaArgExpression m e ts =>
    .VaArgExpression (normMeta c m) (normalizeExpr c e) (normalizeTS c ts)
  | .AlignofExpression m ts => .AlignofExpression (normMeta c m) (normalizeTS c ts)
  | .AlignofExprExpression m e =>
    .AlignofExprExpression (normMeta c m) (normalizeExpr c e)
  | .GnuAlignofExpression m ts =>
    .GnuAlignofExpression (normMeta c m) (normalizeTS c ts)
  | .GnuAlignofExprExpression m e =>
    .GnuAlignofExprExpression (normMeta c m) (normalizeExpr c e)
  | .CommaExpression m l r =>
    .CommaExpression (normMeta c m) (normalizeExpr c l) (normalizeExpr c r)
  | .AddressOfExpression m e =>
    .AddressOfExpression (normMeta c m) (normalizeExpr c e)
  | .DerefExpression m e => .DerefExpression (normMeta c m) (normalizeExpr c e)
  | .GenericSelectionExpression m e assocs =>
    .GenericSelectionExpression (normMeta c m) (normalizeExpr c e)
      (normalizeGenAssocList c assocs)
  | .LabelAddrExpression m l => .LabelAddrExpression (normMeta c m) l
  | .BuiltinTypesCompatiblePExpression m t1 t2 =>
    .BuiltinTypesCompatiblePExpression (normMeta c m) (normalizeTS c t1)
      (normalizeTS c t2)

def normalizeExprList (c : LocCtx) : List Expression → List Expression
  | [] => []
  | e :: rest => normalizeExpr c e :: normalizeExprList c rest

def normalizeExprOpt (c : LocCtx) : Option Expression → Option Expression
  | none => none
  | some e => some (normalizeExpr c e)

def normalizeGenAssoc (c : LocCtx) : GenericAssociation → GenericAssociation
  | .mk ts e isConst => .mk (normalizeTSOpt c ts) (normalizeExpr c e) isConst

def normalizeGenAssocList (c : LocCtx) :
    List GenericAssociation → List GenericAssociation
  | [] => []
  | a :: rest => normalizeGenAssoc c a :: normalizeGenAssocList c rest

def normalizeSizeofArg (c : LocCtx) : SizeofArg → SizeofArg
  | .Type ts => .Type (normalizeTS c ts)
  | .Expr e => .Expr (normalizeExpr c e)

def normalizeTS (c : LocCtx) : TypeSpecifier → TypeSpecifier
  | .VoidType m => .VoidType (normTSMeta c m)
  | .CharType m => .CharType (normTSMeta c m)
  | .ShortType m => .ShortType (normTSMeta c m)
  | .IntType m => .IntType (normTSMeta c m)
  | .LongType m => .LongType (normTSMeta c m)
  | .LongLongType m => .LongLongType (normTSMeta c m)
  | .FloatType m => .FloatType (normTSMeta c m)
  | .DoubleType m => .DoubleType (normTSMeta c m)
  | .LongDoubleType m => .LongDoubleType (normTSMeta c m)
  | .SignedType m => .SignedType (normTSMeta c m)
  | .UnsignedType m => .UnsignedType (normTSMeta c m)
  | .UnsignedCharType m => .UnsignedCharType (normTSMeta c m)
  | .UnsignedShortType m => .UnsignedShortType (normTSMeta c m)
  | .UnsignedIntType m => .UnsignedIntType (normTSMeta c m)
  | .UnsignedLongType m => .UnsignedLongType (normTSMeta c m)
  | .UnsignedLongLongType m => .UnsignedLongLongType (normTSMeta c m)
  | .Int128Type m => .Int128Type (normTSMeta c m)
  | .UnsignedInt128Type m => .UnsignedInt128Type (normTSMeta c m)
  | .BoolType m => .BoolType (normTSMeta c m)
  | .ComplexFloatType m => .ComplexFloatType (normTSMeta c m)
  | .ComplexDoubleType m => .ComplexDoubleType (normTSMeta c m)
  | .ComplexLongDoubleType m => .ComplexLongDoubleType (normTSMeta c m)
  | .StructType m n fs p mfa sa =>
    .StructType (normTSMeta c m) n (normalizeFieldListOpt c fs) p mfa sa
  | .UnionType m n fs p mfa sa =>
    .UnionType (normTSMeta c m) n (normalizeFieldListOpt c fs) p mfa sa
  | .EnumType m n vs p =>
    .EnumType (normTSMeta c m) n (normalizeVariantListOpt c vs) p
  | .TypedefNameType m n => .TypedefNameType (normTSMeta c m) n
  | .PointerType m b a => .PointerType (normTSMeta c m) (normalizeTS c b) a
  | .ArrayType m e sz =>
    .ArrayType (normTSMeta c m) (normalizeTS c e) (normalizeExprOpt c sz)
  | .FunctionPointerType m r ps v =>
    .FunctionPointerType (normTSMeta c m) (normalizeTS c r)
      (normalizeParamList c ps) v
  | .BareFunctionType m r ps v =>
    .BareFunctionType (normTSMeta c m) (normalizeTS c r)
      (normalizeParamList c ps) v
  | .TypeofExprType m e => .TypeofExprType (normTSMeta c m) (normalizeExpr c e)
  | .TypeofTypeType m ts => .TypeofTypeType (normTSMeta c m) (normalizeTS c ts)
  | .AutoTypeType m => .AutoTypeType (normTSMeta c m)
  | .VectorType m e b => .VectorType (normTSMeta c m) (normalizeTS c e) b

def normalizeTSOpt (c : LocCtx) : Option TypeSpecifier → Option TypeSpecifier
  | none => none
  | some ts => some (normalizeTS c ts)

def normalizeField (c : LocCtx) :
    StructFieldDeclaration → StructFieldDeclaration
  | .mk m ts n nn bw d al p =>
    .mk (normMeta c m) (normalizeTS c ts) n (normalizeExprOpt c nn)
      (normalizeExprOpt c bw) (normalizeDerivedList c d) al p

def normalizeFieldList (c : LocCtx) :
    List StructFieldDeclaration → List StructFieldDeclaration
  | [] => []
  | f :: rest => normalizeField c f :: normalizeFieldList c rest

def normalizeFieldListOpt (c : LocCtx) :
    Option (List StructFieldDeclaration) → Option (List StructFieldDeclaration)
  | none => none
  | some fs => some (normalizeFieldList c fs)

def normalizeVariant (c : LocCtx) : EnumVariant → EnumVariant
  | .mk n v => .mk n (normalizeExprOpt c v)

def normalizeVariantList (c : LocCtx) : List EnumVariant → List EnumVariant
  | [] => []
  | v :: rest => normalizeVariant c v :: normalizeVariantList c rest

def normalizeVariantListOpt (c : LocCtx) :
    Option (List EnumVariant) → Option (List EnumVariant)
  | none => none
  | some vs => some (normalizeVariantList c vs)

def normalizeDerived (c : LocCtx) : DerivedDeclarator → DerivedDeclarator
  | .Pointer => .Pointer
  | .Array sz => .Array (normalizeExprOpt c sz)
  | .Function ps v => .Function (normalizeParamList c ps) v
  | .FunctionPointer ps v => .FunctionPointer (normalizeParamList c ps) v

def normalizeDerivedList (c : LocCtx) :
    List DerivedDeclarator → List DerivedDeclarator
  | [] => []
  | d :: rest => normalizeDerived c d :: normalizeDerivedList c rest

def normalizeParam (c : LocCtx) : ParamDeclaration → ParamDeclaration
  | .mk ts n fp isConst vla depth =>
    .mk (normalizeTS c ts) n (normalizeParamListOpt c fp) isConst
      (normalizeExprList c vla) depth

def normalizeParamList (c : LocCtx) :
    List ParamDeclaration → List ParamDeclaration
  | [] => []
  | p :: rest => normalizeParam c p :: normalizeParamList c rest

def normalizeParamListOpt (c : LocCtx) :
    Option (List ParamDeclaration) → Option (List ParamDeclaration)
  | none => none
  | some ps => some (normalizeParamList c ps)

def normalizeInit (c : LocCtx) : Initializer → Initializer
  | .Expr e => .Expr (normalizeExpr c e)
  | .List items => .List (normalizeInitItemList c items)

def normalizeInitOpt (c : LocCtx) : Option Initializer → Option Initializer
  | none => none
  | some i => some (normalizeInit c i)

def normalizeInitItem (c : LocCtx) : InitializerItem → InitializerItem
  | .mk ds i => .mk (normalizeDesignatorList c ds) (normalizeInit c i)

def normalizeInitItemList (c : LocCtx) :
    List InitializerItem → List InitializerItem
  | [] => []
  | i :: rest => normalizeInitItem c i :: normalizeInitItemList c rest

def normalizeDesignator (c : LocCtx) : Designator → Designator
  | .Index e => .Index (normalizeExpr c e)
  | .Range lo hi => .Range (normalizeExpr c lo) (normalizeExpr c hi)
  | .Field n => .Field n

def normalizeDesignatorList (c : LocCtx) : List Designator → List Designator
  | [] => []
  | d :: rest => normalizeDesignator c d :: normalizeDesignatorList c rest

def normalizeInitDecl (c : LocCtx) : InitDeclarator → InitDeclarator
  | .mk m n d i a =>
    .mk (normMeta c m) n (normalizeDerivedList c d) (normalizeInitOpt c i) a

def normalizeInitDeclList (c : LocCtx) :
    List InitDeclarator → List InitDeclarator
  | [] => []
  | d :: rest => normalizeInitDecl c d :: normalizeInitDeclList c rest

def normalizeDecl (c : LocCtx) : Declaration → Declaration
  | .mk m ts ds st ex td co vo cm tl tu inl al aty asz ads vs evn =>
    .mk (normMeta c m) (normalizeTS c ts) (normalizeInitDeclList c ds)
      st ex td co vo cm tl tu inl al (normalizeTSOpt c aty)
      (normalizeTSOpt c asz) ads vs evn

def normalizeCompound (c : LocCtx) : CompoundStmt → CompoundStmt
  | .mk m items labels =>
    .mk (normMeta c m) (normalizeBlockItemList c items) labels

def normalizeBlockItem (c : LocCtx) : BlockItem → BlockItem
  | .decl d => .decl (normalizeDecl c d)
  | .stmt s => .stmt (normalizeStmt c s)

def normalizeBlockItemList (c : LocCtx) : List BlockItem → List BlockItem
  | [] => []
  | i :: rest => normalizeBlockItem c i :: normalizeBlockItemList c rest

def normalizeForInit (c : LocCtx) : ForInit → ForInit
  | .Declaration d => .Declaration (normalizeDecl c d)
  | .Expression e => .Expression (normalizeExpr c e)

def normalizeForInitOpt (c : LocCtx) : Option ForInit → Option ForInit
  | none => none
  | some i => some (normalizeForInit c i)

def normalizeAsmOperand (c : LocCtx) : AsmOperand → AsmOperand
  | .mk n con e => .mk n con (normalizeExpr c e)

def normalizeAsmOperandList (c : LocCtx) : List AsmOperand → List AsmOperand
  | [] => []
  | o :: rest => normalizeAsmOperand c o :: normalizeAsmOperandList c rest

def normalizeStmt (c : LocCtx) : Statement → Statement
  | .ExpressionStatement m e =>
    .ExpressionStatement (normMeta c m) (normalizeExprOpt c e)
  | .ReturnStatement m e => .ReturnStatement (normMeta c m) (normalizeExprOpt c e)
  | .IfStatement m cond th el =>
    .IfStatement (normMeta c m) (normalizeExpr c cond) (normalizeStmt c th)
      (normalizeStmtOpt c el)
  | .WhileStatement m cond b =>
    .WhileStatement (normMeta c m) (normalizeExpr c cond) (normalizeStmt c b)
  | .DoWhileStatement m b cond =>
    .DoWhileStatement (normMeta c m) (normalizeStmt c b) (normalizeExpr c cond)
  | .ForStatement m i cond u b =>
    .ForStatement (normMeta c m) (normalizeForInitOpt c i)
      (normalizeExprOpt c cond) (normalizeExprOpt c u) (normalizeStmt c b)
  | .CompoundStatement cs => .CompoundStatement (normalizeCompound c cs)
  | .BreakStatement m => .BreakStatement (normMeta c m)
  | .ContinueStatement m => .ContinueStatement (normMeta c m)
  | .SwitchStatement m d b =>
    .SwitchStatement (normMeta c m) (normalizeExpr c d) (normalizeStmt c b)
  | .CaseStatement m t b =>
    .CaseStatement (normMeta c m) (normalizeExpr c t) (normalizeStmt c b)
  | .CaseRangeStatement m lo hi b =>
    .CaseRangeStatement (normMeta c m) (normalizeExpr c lo)
      (normalizeExpr c hi) (normalizeStmt c b)
  | .DefaultStatement m b => .DefaultStatement (normMeta c m) (normalizeStmt c b)
  | .GotoStatement m l => .GotoStatement (normMeta c m) l
  | .GotoIndirectStatement m e =>
    .GotoIndirectStatement (normMeta c m) (normalizeExpr c e)
  | .LabelStatement m l b =>
    .LabelStatement (normMeta c m) l (normalizeStmt c b)
  | .DeclarationStatement m d =>
    .DeclarationStatement (normMeta c m) (normalizeDecl c d)
  | .InlineAsmStatement m t os is cl gl =>
    .InlineAsmStatement (normMeta c m) t (normalizeAsmOperandList c os)
      (normalizeAsmOperandList c is) cl gl

def normalizeStmtOpt (c : LocCtx) : Option Statement → Option Statement
  | none => none
  | some s => some (normalizeStmt c s)

end

def normalizeFunctionDef (c : LocCtx) (f : FunctionDefinition) :
    FunctionDefinition :=
  { f with meta := normMeta c f.meta,
           returnType := normalizeTS c f.returnType,
           params := normalizeParamList c f.params,
           body := normalizeCompound c f.body }

def normalizeExternalDecl (c : LocCtx) :
    ExternalDeclaration → ExternalDeclaration
  | .func f => .func (normalizeFunctionDef c f)
  | .decl d => .decl (normalizeDecl c d)
  | .asm a => .asm { a with meta := normMeta c a.meta }

/-- `normalizeAstLocations` on the whole tree (returns the rewritten tree
instead of mutating). -/
def normalizeAstLocations (root : TranslationUnit) (source : JsStr)
    (includeLoc : Bool) : TranslationUnit :=
  let c : LocCtx :=
    { includeLoc := includeLoc,
      lineOffsets := if includeLoc then buildLineOffsets source else [],
      sourceLength := source.length }
  { meta := normMeta c root.meta,
    decls := root.decls.map (normalizeExternalDecl c) }

/-! ## Parser free helpers (`src/parser/parser.ts`, `types.ts`,
`declarators.ts`, `declarations.ts`)

Pure functions first.  A type-specifier object literal built without
`withTypeSpan` has no `start`/`end` (its `TSMeta.span` is `none`); where
the source computes `Math.min`/`Math.max` of such an absent offset the
result would be `NaN` — that never happens on any path reached from
`parseTypeSpecifier` output (which always carries a span), and the model
folds the degenerate case into an absent span. -/

def tsMeta : TypeSpecifier → TSMeta
  | .VoidType m | .CharType m | .ShortType m | .IntType m | .LongType m
  | .LongLongType m | .FloatType m | .DoubleType m | .LongDoubleType m
  | .SignedType m | .UnsignedType m | .UnsignedCharType m
  | .UnsignedShortType m | .UnsignedIntType m | .UnsignedLongType m
  | .UnsignedLongLongType m | .Int128Type m | .UnsignedInt128Type m
  | .BoolType m | .ComplexFloatType m | .ComplexDoubleType m
  | .ComplexLongDoubleType m | .StructType m _ _ _ _ _
  | .UnionType m _ _ _ _ _ | .EnumType m _ _ _ | .TypedefNameType m _
  | .PointerType m _ _ | .ArrayType m _ _ | .FunctionPointerType m _ _ _
  | .BareFunctionType m _ _ _ | .TypeofExprType m _ | .TypeofTypeType m _
  | .AutoTypeType m | .VectorType m _ _ => m

def tsSpan (ts : TypeSpecifier) : Option Span := (tsMeta ts).span

/-- `{...node, start, end}` (`withTypeSpan` / `reSpanType`). -/
def reSpanType (ts : TypeSpecifier) (sp : Span) : TypeSpecifier :=
  match ts with
  | .VoidType m => .VoidType { m with span := some sp }
  | .CharType m => .CharType { m with span := some sp }
  | .ShortType m => .ShortType { m with span := some sp }
  | .IntType m => .IntType { m with span := some sp }
  | .LongType m => .LongType { m with span := some sp }
  | .LongLongType m => .LongLongType { m with span := some sp }
  | .FloatType m => .FloatType { m with span := some sp }
  | .DoubleType m => .DoubleType { m with span := some sp }
  | .LongDoubleType m => .LongDoubleType { m with span := some sp }
  | .SignedType m => .SignedType { m with span := some sp }
  | .UnsignedType m => .UnsignedType { m with span := some sp }
  | .UnsignedCharType m => .UnsignedCharType { m with span := some sp }
  | .UnsignedShortType m => .UnsignedShortType { m with span := some sp }
  | .UnsignedIntType m => .UnsignedIntType { m with span := some sp }
  | .UnsignedLongType m => .UnsignedLongType { m with span := some sp }
  | .UnsignedLongLongType m => .UnsignedLongLongType { m with span := some sp }
  | .Int128Type m => .Int128Type { m with span := some sp }
  | .UnsignedInt128Type m => .UnsignedInt128Type { m with span := some sp }
  | .BoolType m => .BoolType { m with span := some sp }
  | .ComplexFloatType m => .ComplexFloatType { m with span := some sp }
  | .ComplexDoubleType m => .ComplexDoubleType { m with span := some sp }
  | .ComplexLongDoubleType m =>
    .ComplexLongDoubleType { m with span := some sp }
  | .StructType m n f p mfa sa =>
    .StructType { m with span := some sp } n f p mfa sa
  | .UnionType m n f p mfa sa =>
    .UnionType { m with span := some sp } n f p mfa sa
  | .EnumType m n v p => .EnumType { m with span := some sp } n v p
  | .TypedefNameType m n => .TypedefNameType { m with span := some sp } n
  | .PointerType m b a => .PointerType { m with span := some sp } b a
  | .ArrayType m e s => .ArrayType { m with span := some sp } e s
  | .FunctionPointerType m r ps v =>
    .FunctionPointerType { m with span := some sp } r ps v
  | .BareFunctionType m r ps v =>
    .BareFunctionType { m with span := some sp } r ps v
  | .TypeofExprType m e => .TypeofExprType { m with span := some sp } e
  | .TypeofTypeType m t => .TypeofTypeType { m with span := some sp } t
  | .AutoTypeType m => .AutoTypeType { m with span := some sp }
  | .VectorType m e b => .VectorType { m with span := some sp } e b

def spanMeta (sp : Span) : TSMeta := { span := some sp, loc := none }

def noSpanMeta : TSMeta := { span := none, loc := none }

def exprMeta : Expression → NodeMeta
  | .IntLiteral m _ | .UIntLiteral m _ | .LongLiteral m _
  | .ULongLiteral m _ | .LongLongLiteral m _ | .ULongLongLiteral m _
  | .FloatLiteral m _ | .FloatLiteralF32 m _ | .FloatLiteralLongDouble m _
  | .ImaginaryLiteral m _ | .ImaginaryLiteralF32 m _
  | .ImaginaryLiteralLongDouble m _ | .StringLiteral m _
  | .WideStringLiteral m _ | .Char16StringLiteral m _ | .CharLiteral m _
  | .Identifier m _ | .BinaryExpression m _ _ _ | .UnaryExpression m _ _
  | .PostfixExpression m _ _ | .AssignExpression m _ _
  | .CompoundAssignExpression m _ _ _ | .ConditionalExpression m _ _ _
  | .GnuConditionalExpression m _ _ | .FunctionCallExpression m _ _
  | .ArraySubscriptExpression m _ _ | .MemberAccessExpression m _ _
  | .PointerMemberAccessExpression m _ _ | .CastExpression m _ _
  | .CompoundLiteralExpression m _ _ | .StmtExpression m _
  | .SizeofExpression m _ | .VaArgExpression m _ _
  | .AlignofExpression m _ | .AlignofExprExpression m _
  | .GnuAlignofExpression m _ | .GnuAlignofExprExpression m _
  | .CommaExpression m _ _ | .AddressOfExpression m _
  | .DerefExpression m _ | .GenericSelectionExpression m _ _
  | .LabelAddrExpression m _
  | .BuiltinTypesCompatiblePExpression m _ _ => m

def declMeta : Declaration → NodeMeta
  | .mk m _ _ _ _ _ _ _ _ _ _ _ _ _ _ _ _ _ => m

/-- `wrapPointerType` (the `finalSpan` defaults to the base's own
offsets; absent base offsets would make a `NaN` span, folded to
`none`). -/
def wrapPointerType (base : TypeSpecifier) (addressSpace : AddressSpace)
    (span : Option Span) : TypeSpecifier :=
  let finalSpan := match span with
    | some sp => some sp
    | none => tsSpan base
  .PointerType { span := finalSpan, loc := none } base addressSpace

def wrapArrayType (element : TypeSpecifier) (size : Option Expression)
    (span : Option Span) : TypeSpecifier :=
  let fromSize : Option Span := match size, tsSpan element with
    | some sz, some esp => some ⟨esp.start, (exprMeta sz).end_⟩
    | _, _ => none
  let finalSpan := match span with
    | some sp => some sp
    | none => match fromSize with
      | some sp => some sp
      | none => tsSpan element
  .ArrayType { span := finalSpan, loc := none } element size

def wrapFunctionPointerType (returnType : TypeSpecifier)
    (params : List ParamDeclaration) (variadic : Bool)
    (span : Option Span) : TypeSpecifier :=
  let finalSpan := match span with
    | some sp => some sp
    | none => tsSpan returnType
  .FunctionPointerType { span := finalSpan, loc := none } returnType params
    variadic

/-- `makeIdentifierNode` (the node is built without a `loc` field). -/
def makeIdentifierNode (name : Option JsStr) (span : Option Span) :
    Option Expression :=
  match name, span with
  | some n, some sp =>
    some (.Identifier { start := sp.start, end_ := sp.end_, loc := none } n)
  | _, _ => none

/-- Inline `{ type: 'PointerType', base, addressSpace: 'Default' }` (no
offsets — the span-less pointer nodes of `parseParamList` and
`buildReturnType`). -/
def inlinePointerType (base : TypeSpecifier) : TypeSpecifier :=
  .PointerType noSpanMeta base .Default

def inlineArrayType (element : TypeSpecifier) (size : Option Expression) :
    TypeSpecifier :=
  .ArrayType noSpanMeta element size

/-- `TypeSpecFlags`. -/
structure TypeSpecFlags where
  hasVoid : Bool := false
  hasBool : Bool := false
  hasFloat : Bool := false
  hasDouble : Bool := false
  hasComplex : Bool := false
  hasChar : Bool := false
  hasShort : Bool := false
  hasInt : Bool := false
  hasUnsigned : Bool := false
  hasSigned : Bool := false
  hasStruct : Bool := false
  hasUnion : Bool := false
  hasEnum : Bool := false
  hasTypeof : Bool := false
  longCount : Nat := 0
  typedefName : Option JsStr := none

def defaultFlags : TypeSpecFlags := {}

def isPtrD : DerivedDeclarator → Bool
  | .Pointer => true
  | _ => false

def isArrD : DerivedDeclarator → Bool
  | .Array _ => true
  | _ => false

def isFnD : DerivedDeclarator → Bool
  | .Function _ _ => true
  | _ => false

def isFptrD : DerivedDeclarator → Bool
  | .FunctionPointer _ _ => true
  | _ => false

/-- `findLastIndex` (source returns `-1` when absent). -/
def findLastIndexAux (p : DerivedDeclarator → Bool) :
    List DerivedDeclarator → Nat → Int
  | [], _ => -1
  | d :: rest, i =>
    let r := findLastIndexAux p rest (i + 1)
    if r ≥ 0 then r else if p d then (i : Int) else -1

def findLastIndex (l : List DerivedDeclarator)
    (p : DerivedDeclarator → Bool) : Int :=
  findLastIndexAux p l 0

/-- `combineDeclaratorParts`. -/
def combineDeclaratorParts (outerPointers innerDerived outerSuffixes :
    List DerivedDeclarator) : List DerivedDeclarator :=
  if innerDerived.length = 0 ∧ outerSuffixes.length = 0 then outerPointers
  else if innerDerived.length = 0 then outerPointers ++ outerSuffixes
  else
    let innerOnlyPtrAndArray := innerDerived.all fun d => isPtrD d || isArrD d
    let innerHasPointer := innerDerived.any isPtrD
    let outerStartsWithFunction := match outerSuffixes.head? with
      | some (.Function _ _) => true
      | _ => false
    if innerOnlyPtrAndArray && innerHasPointer && outerStartsWithFunction &&
        outerSuffixes.length == 1 then
      let innerPtrCount := (innerDerived.filter isPtrD).length
      let extraIndirectionPtrs :=
        if innerPtrCount > 0 then innerPtrCount - 1 else 0
      let funcPart : List DerivedDeclarator := match outerSuffixes.head? with
        | some (.Function ps v) => [.FunctionPointer ps v]
        | _ => []
      outerPointers ++ [.Pointer] ++ funcPart ++
        List.replicate extraIndirectionPtrs .Pointer ++
        innerDerived.filter isArrD
    else
      let outerOnlyArrays := outerSuffixes.all isArrD
      if innerOnlyPtrAndArray && innerHasPointer && outerOnlyArrays then
        let lastPtrIdx := (findLastIndex innerDerived isPtrD).toNat
        outerPointers ++ (innerDerived.take lastPtrIdx).filter isArrD ++
          outerSuffixes ++
          (innerDerived.take (lastPtrIdx + 1)).filter isPtrD ++
          innerDerived.drop (lastPtrIdx + 1)
      else
        let innerStartsWithPointer := match innerDerived.head? with
          | some .Pointer => true
          | _ => false
        let innerHasFptr := innerDerived.any isFptrD
        if innerStartsWithPointer && innerHasFptr && outerStartsWithFunction then
          outerPointers ++ innerDerived ++
            (outerSuffixes.flatMap fun suffix => match suffix with
              | .Function ps v => [.Pointer, .FunctionPointer ps v]
              | s => [s])
        else outerPointers ++ outerSuffixes ++ innerDerived

/-- `buildReturnType`'s per-element application of a derivation (the
object literals carry no offsets). -/
def applyDerivation (rt : TypeSpecifier) : DerivedDeclarator → TypeSpecifier
  | .Array sz => inlineArrayType rt sz
  | .Pointer => inlinePointerType rt
  | _ => rt

def ptrWhileLoop : TypeSpecifier → List DerivedDeclarator → TypeSpecifier
  | rt, .Pointer :: rest => ptrWhileLoop (inlinePointerType rt) rest
  | rt, _ => rt

def buildReturnType (baseType : TypeSpecifier)
    (derived : List DerivedDeclarator) : TypeSpecifier :=
  match derived.findIdx? isFnD with
  | some funcPos =>
    let afterPost := (derived.drop (funcPos + 1)).foldl applyDerivation baseType
    (derived.take funcPos).foldl applyDerivation afterPost
  | none => ptrWhileLoop baseType derived

/-- `applyKrDerivations`. -/
def applyKrDerivations (typeSpec : TypeSpecifier)
    (pderived : List DerivedDeclarator) :
    TypeSpecifier × Option (List ParamDeclaration) :=
  match pderived.find? isFptrD with
  | some (.FunctionPointer ps _) =>
    let ptrCount := (pderived.filter isPtrD).length
    let withExtra := (List.range (if ptrCount ≥ 1 then ptrCount - 1 else 0)).foldl
      (fun t _ => inlinePointerType t) typeSpec
    (inlinePointerType withExtra, some ps)
  | _ =>
    let t1 := pderived.foldl
      (fun t d => if isPtrD d then inlinePointerType t else t) typeSpec
    let arrayDims := pderived.filterMap fun d => match d with
      | .Array sz => some sz
      | _ => none
    let t2 :=
      if arrayDims.length > 0 then
        inlinePointerType ((arrayDims.drop 1).reverse.foldl inlineArrayType t1)
      else t1
    let t3 := pderived.foldl
      (fun t d => if isFnD d then inlinePointerType t else t) t2
    (t3, none)

/-- `applyModeKind`: the rebuilt node copies the original `start`/`end`
(absent offsets stay absent). -/
def applyModeKind (mode : ModeKind) (ts : TypeSpecifier) : TypeSpecifier :=
  let isUnsigned := match ts with
    | .UnsignedIntType _ | .UnsignedLongType _ | .UnsignedLongLongType _
    | .UnsignedType _ | .UnsignedCharType _ | .UnsignedShortType _ => true
    | _ => false
  let m : TSMeta := { span := tsSpan ts, loc := none }
  match mode with
  | .QI => if isUnsigned then .UnsignedCharType m else .CharType m
  | .HI => if isUnsigned then .UnsignedShortType m else .ShortType m
  | .SI => if isUnsigned then .UnsignedIntType m else .IntType m
  | .DI => if isUnsigned then .UnsignedLongLongType m else .LongLongType m
  | .TI => if isUnsigned then .UnsignedInt128Type m else .Int128Type m

/-- ASCII `toLowerCase` on one UTF-16 unit (attribute names are ASCII). -/
def jsToLowerAscii (c : Nat) : Nat :=
  if 65 ≤ c ∧ c ≤ 90 then c + 32 else c

def jsToUpperAscii (c : Nat) : Nat :=
  if 97 ≤ c ∧ c ≤ 122 then c - 32 else c

/-- `normalizeAttributeName`: strip a leading and trailing `__`, then
lower-case. -/
def normalizeAttributeName (name : JsStr) : JsStr :=
  let n1 := if name.take 2 = [95, 95] then name.drop 2 else name
  let n2 :=
    if n1.length ≥ 2 ∧ n1.drop (n1.length - 2) = [95, 95] then
      n1.take (n1.length - 2)
    else n1
  n2.map jsToLowerAscii

def tokenToAttributeName (token : Token) : Option JsStr :=
  if token.kind = .Identifier then
    match token.value with
    | some (.str v) => some v
    | _ => none
  else if token.kind = .Noreturn then some (litStr "noreturn")
  else if token.kind = .Inline then some (litStr "inline")
  else none

def firstStringArg : List Token → Option JsStr
  | [] => none
  | t :: rest =>
    if (t.kind = .StringLiteral ∨ t.kind = .WideStringLiteral ∨
        t.kind = .Char16StringLiteral) then
      match t.value with
      | some (.str v) => some v
      | _ => firstStringArg rest
    else firstStringArg rest

def firstIdentifierArg : List Token → Option JsStr
  | [] => none
  | t :: rest =>
    match tokenToAttributeName t with
    | some n => some n
    | none => firstIdentifierArg rest

/-- `firstIntegerArg` (`Number(bigValue)` is exact for the integer
magnitudes attribute arguments take). -/
def firstIntegerArg : List Token → Option Int
  | [] => none
  | t :: rest =>
    if (t.kind = .IntLiteral ∨ t.kind = .UIntLiteral ∨
        t.kind = .LongLiteral ∨ t.kind = .ULongLiteral ∨
        t.kind = .LongLongLiteral ∨ t.kind = .ULongLongLiteral) then
      match t.value with
      | some (.num v) => some v
      | _ => match t.bigValue with
        | some b => some b
        | none => firstIntegerArg rest
    else firstIntegerArg rest

def parseModeKindFromArg (arg : Option JsStr) : Option ModeKind :=
  match arg with
  | none => none
  | some a =>
    let m1 := if a.take 2 = [95, 95] then a.drop 2 else a
    let m2 :=
      if m1.length ≥ 2 ∧ m1.drop (m1.length - 2) = [95, 95] then
        m1.take (m1.length - 2)
      else m1
    let up := m2.map jsToUpperAscii
    if up = litStr "QI" then some .QI
    else if up = litStr "HI" then some .HI
    else if up = litStr "SI" then some .SI
    else if up = litStr "DI" then some .DI
    else if up = litStr "TI" then some .TI
    else none

/-- `ParenAbstractDecl`. -/
inductive ParenAbstractDecl where
  | Simple (ptrDepth : Nat) (arrayDims : List (Option Expression))
  | NestedFnPtr (outerPtrDepth innerPtrDepth : Nat)
      (innerParams : List ParamDeclaration) (innerVariadic : Bool)

/-- The static stubs of the `Parser` class (never overridden: the
prototype-extension modules define the real `alignofTypeSpec` and
`evalConstIntExprWithEnums` as free functions, while
`registerEnumConstants` and `parseStructOrUnion` call these statics). -/
def Parser.evalConstIntExprWithEnumsStatic (_expr : Expression)
    (_enumConsts : List (JsStr × Int))
    (_tagAligns : Option (List (JsStr × Int))) : Option Int := none

def Parser.alignofTypeSpecStatic (_ts : TypeSpecifier)
    (_tagAligns : Option (List (JsStr × Int))) : Int := 4

def Parser.targetIs32bit : Bool := false

def emptyDeclaration (span : Option Span) : Declaration :=
  .mk { start := (span.map Span.start).getD 0,
        end_ := (span.map Span.end_).getD 0, loc := some locPlaceholder }
    (.VoidType noSpanMeta) [] false false false false false false false
    false false none none none .Default none none

def estimateTypeSize : TypeSpecifier → Int
  | .CharType _ | .UnsignedCharType _ | .BoolType _ => 1
  | .ShortType _ | .UnsignedShortType _ => 2
  | .IntType _ | .UnsignedIntType _ | .SignedType _ | .UnsignedType _ => 4
  | .LongType _ | .UnsignedLongType _ => 8
  | .LongLongType _ | .UnsignedLongLongType _ => 8
  | .FloatType _ => 4
  | .DoubleType _ => 8
  | .LongDoubleType _ => 16
  | _ => 4

/-- `PrecedenceLevel`. -/
inductive PrecedenceLevel where
  | LogicalOr | LogicalAnd | BitwiseOr | BitwiseXor | BitwiseAnd
  | Equality | Relational | Shift | Additive | Multiplicative
deriving DecidableEq

def tokenToBinop (token : TokenKind) (level : PrecedenceLevel) :
    Option BinOp :=
  match level with
  | .LogicalOr => if token = .PipePipe then some .LogicalOr else none
  | .LogicalAnd => if token = .AmpAmp then some .LogicalAnd else none
  | .BitwiseOr => if token = .Pipe then some .BitOr else none
  | .BitwiseXor => if token = .Caret then some .BitXor else none
  | .BitwiseAnd => if token = .Amp then some .BitAnd else none
  | .Equality =>
    if token = .EqualEqual then some .Eq
    else if token = .BangEqual then some .Ne
    else none
  | .Relational =>
    if token = .Less then some .Lt
    else if token = .LessEqual then some .Le
    else if token = .Greater then some .Gt
    else if token = .GreaterEqual then some .Ge
    else none
  | .Shift =>
    if token = .LessLess then some .Shl
    else if token = .GreaterGreater then some .Shr
    else none
  | .Additive =>
    if token = .Plus then some .Add
    else if token = .Minus then some .Sub
    else none
  | .Multiplicative =>
    if token = .Star then some .Mul
    else if token = .Slash then some .Div
    else if token = .Percent then some .Mod
    else none

namespace Parser

def compoundAssignOp : PM (Option BinOp) := do
  pure (match (← peek) with
    | .PlusAssign => some .Add
    | .MinusAssign => some .Sub
    | .StarAssign => some .Mul
    | .SlashAssign => some .Div
    | .PercentAssign => some .Mod
    | .AmpAssign => some .BitAnd
    | .PipeAssign => some .BitOr
    | .CaretAssign => some .BitXor
    | .LessLessAssign => some .Shl
    | .GreaterGreaterAssign => some .Shr
    | _ => none)

def applyPendingVectorAttr (ts : TypeSpecifier) : PM TypeSpecifier := do
  let s ← get
  match s.attrs.parsingVectorSize with
  | some totalBytes => do
    modify fun st =>
      { st with attrs := { st.attrs with parsingVectorSize := none } }
    pure (.VectorType noSpanMeta ts totalBytes)
  | none =>
    match s.attrs.parsingExtVectorNelem with
    | some nelem => do
      modify fun st =>
        { st with attrs := { st.attrs with parsingExtVectorNelem := none } }
      pure (.VectorType noSpanMeta ts (nelem * estimateTypeSize ts))
    | none => pure ts

def isTypeSpecifier : PM Bool := do
  match (← peek) with
  | .Void | .Char | .Short | .Int | .Long | .Float | .Double | .Signed
  | .Unsigned | .Struct | .Union | .Enum | .Typeof | .Bool | .Complex
  | .Atomic | .AutoType | .Int128 | .UInt128 | .Builtin | .Const
  | .Volatile | .Restrict | .Static | .Extern | .Typedef | .Register
  | .Auto | .Inline | .Noreturn | .ThreadLocal | .Attribute | .Extension
  | .Alignas | .SegGs | .SegFs => pure true
  | .Identifier => do
    match (← peekValue) with
    | some (.str val) => do
      let s ← get
      pure (s.typedefs.contains val && !s.shadowedTypedefs.contains val)
    | _ => pure false
  | _ => pure false

def isTypedefLabel : PM Bool := do
  if (← peek) ≠ .Identifier then pure false
  else do
    let s ← get
    pure (decide (s.pos + 1 < s.tokens.length ∧
      (s.tokens.getD (s.pos + 1) eofToken).kind = .Colon))

/-- `isParenDeclarator` (the `declarators.ts` prototype version, which
overrides the class stub).  An `Identifier` whose token value is not a
string fails the `Set.has` lookup, so the source returns `true`. -/
def isParenDeclarator : PM Bool := do
  let s ← get
  if s.pos + 1 ≥ s.tokens.length then pure false
  else
    let next := s.tokens.getD (s.pos + 1) eofToken
    match next.kind with
    | .Star | .Caret | .LParen | .LBracket | .Attribute | .Extension =>
      pure true
    | .Identifier =>
      match next.value with
      | some (.str idName) =>
        pure (!s.typedefs.contains idName || s.shadowedTypedefs.contains idName)
      | _ => pure true
    | _ => pure false

def handlePragmaPackToken : PM Bool := do
  match (← peek) with
  | .PragmaPackSet | .PragmaPackPush | .PragmaPackPushOnly
  | .PragmaPackPop | .PragmaPackReset => do
    let _ ← advance
    pure true
  | _ => pure false

def handlePragmaVisibilityToken : PM Bool := do
  match (← peek) with
  | .PragmaVisibilityPush | .PragmaVisibilityPop => do
    let _ ← advance
    pure true
  | _ => pure false

/-- `skipGccExtensions`: only `__extension__` tokens are consumed (an
`__attribute__` is left in place — see `consumePostTypeQualifiers`). -/
def skipGccExtensions : Nat → PM Unit
  | 0 => exhaust
  | n + 1 => do
    if (← peek) = .Extension then
      let _ ← advance
      skipGccExtensions n
    else pure ()

def parseAttributeArgsLoop : Nat → Nat → List Token → PM (List Token)
  | 0, _, acc => do exhaust; pure acc
  | n + 1, depth, acc => do
    if depth > 0 ∧ ¬(← atEof) then
      let token ← advance
      if token.kind = .LParen then
        parseAttributeArgsLoop n (depth + 1) (acc ++ [token])
      else if token.kind = .RParen then
        parseAttributeArgsLoop n (depth - 1)
          (if depth - 1 > 0 then acc ++ [token] else acc)
      else parseAttributeArgsLoop n depth (acc ++ [token])
    else pure acc

def parseAttributeArgs (n : Nat) : PM (List Token) := do
  if ← consumeIf .LParen then parseAttributeArgsLoop n 1 []
  else pure []

/-- One attribute of `parseGccAttributes`'s inner switch; the
accumulator is `(isPacked, aligned, modeKind, hasCommon)`. -/
def applyGccAttr (attrName : JsStr) (args : List Token)
    (acc : Bool × Option Int × Option ModeKind × Bool) :
    PM (Bool × Option Int × Option ModeKind × Bool) := do
  let (isPacked, aligned, modeKind, hasCommon) := acc
  if attrName = litStr "packed" then pure (true, aligned, modeKind, hasCommon)
  else if attrName = litStr "aligned" then
    match firstIntegerArg args with
    | some value =>
      let aligned' := some (match aligned with
        | none => value
        | some a => max a value)
      pure (isPacked, aligned', modeKind, hasCommon)
    | none => pure acc
  else if attrName = litStr "mode" then
    match parseModeKindFromArg (firstIdentifierArg args) with
    | some parsedMode => pure (isPacked, aligned, some parsedMode, hasCommon)
    | none => pure acc
  else if attrName = litStr "vector_size" then do
    match firstIntegerArg args with
    | some value =>
      modify fun s =>
        { s with attrs := { s.attrs with parsingVectorSize := some value } }
    | none => pure ()
    pure acc
  else if attrName = litStr "ext_vector_type" then do
    match firstIntegerArg args with
    | some value =>
      modify fun s =>
        { s with attrs := { s.attrs with parsingExtVectorNelem := some value } }
    | none => pure ()
    pure acc
  else if attrName = litStr "common" then
    pure (isPacked, aligned, modeKind, true)
  else if attrName = litStr "transparent_union" then do
    setAttrFlag ATTR_TRANSPARENT_UNION true
    pure acc
  else if attrName = litStr "constructor" then do
    setAttrFlag ATTR_CONSTRUCTOR true
    pure acc
  else if attrName = litStr "destructor" then do
    setAttrFlag ATTR_DESTRUCTOR true
    pure acc
  else if attrName = litStr "weak" then do
    setAttrFlag ATTR_WEAK true
    pure acc
  else if attrName = litStr "used" then do
    setAttrFlag ATTR_USED true
    pure acc
  else if attrName = litStr "gnu_inline" then do
    setAttrFlag ATTR_GNU_INLINE true
    pure acc
  else if attrName = litStr "always_inline" then do
    setAttrFlag ATTR_ALWAYS_INLINE true
    pure acc
  else if attrName = litStr "noinline" then do
    setAttrFlag ATTR_NOINLINE true
    pure acc
  else if attrName = litStr "noreturn" then do
    setAttrFlag ATTR_NORETURN true
    pure acc
  else if attrName = litStr "error" then do
    setAttrFlag ATTR_ERROR_ATTR true
    pure acc
  else if attrName = litStr "fastcall" then do
    setAttrFlag ATTR_FASTCALL true
    pure acc
  else if attrName = litStr "naked" then do
    setAttrFlag ATTR_NAKED true
    pure acc
  else if attrName = litStr "alias" then do
    match firstStringArg args with
    | some target =>
      modify fun s =>
        { s with attrs := { s.attrs with parsingAliasTarget := some target } }
    | none => pure ()
    pure acc
  else if attrName = litStr "visibility" then do
    match firstStringArg args with
    | some value =>
      modify fun s =>
        { s with attrs := { s.attrs with parsingVisibility := some value } }
    | none => pure ()
    pure acc
  else if attrName = litStr "section" then do
    match firstStringArg args with
    | some value =>
      modify fun s =>
        { s with attrs := { s.attrs with parsingSection := some value } }
    | none => pure ()
    pure acc
  else if attrName = litStr "cleanup" then do
    match firstIdentifierArg args with
    | some fnName =>
      modify fun s =>
        { s with attrs := { s.attrs with parsingCleanupFn := some fnName } }
    | none => pure ()
    pure acc
  else if attrName = litStr "symver" then do
    match firstStringArg args with
    | some value =>
      modify fun s =>
        { s with attrs := { s.attrs with parsingSymver := some value } }
    | none => pure ()
    pure acc
  else pure acc

def gccAttrItemsLoop : Nat → (Bool × Option Int × Option ModeKind × Bool) →
    PM (Bool × Option Int × Option ModeKind × Bool)
  | 0, acc => do exhaust; pure acc
  | n + 1, acc => do
    if ¬(← atEof) then
      if (← peek) = .RParen then do
        let _ ← advance
        pure acc
      else if (← peek) = .Comma then do
        let _ ← advance
        gccAttrItemsLoop n acc
      else
        match tokenToAttributeName (← peekToken) with
        | none => do
          let _ ← advance
          gccAttrItemsLoop n acc
        | some rawName => do
          let _ ← advance
          let attrName := normalizeAttributeName rawName
          let args ←
            if (← peek) = .LParen then parseAttributeArgs n else pure []
          let acc' ← applyGccAttr attrName args acc
          gccAttrItemsLoop n acc'
    else pure acc

def gccAttrSkipLoop : Nat → Nat → PM Unit
  | 0, _ => exhaust
  | n + 1, depth => do
    if depth > 0 ∧ ¬(← atEof) then
      let token ← advance
      if token.kind = .LParen then gccAttrSkipLoop n (depth + 1)
      else if token.kind = .RParen then gccAttrSkipLoop n (depth - 1)
      else gccAttrSkipLoop n depth
    else pure ()

def gccAttrOuterLoop : Nat → (Bool × Option Int × Option ModeKind × Bool) →
    PM (Bool × Option Int × Option ModeKind × Bool)
  | 0, acc => do exhaust; pure acc
  | n + 1, acc => do
    if (← peek) = .Attribute then do
      let _ ← advance
      if ¬(← consumeIf .LParen) then gccAttrOuterLoop n acc
      else if ¬(← consumeIf .LParen) then do
        gccAttrSkipLoop n 1
        gccAttrOuterLoop n acc
      else do
        let acc' ← gccAttrItemsLoop n acc
        let _ ← consumeIf .RParen
        gccAttrOuterLoop n acc'
    else pure acc

/-- `parseGccAttributes` returns
`(isPacked, aligned, modeKind, hasCommon)`. -/
def parseGccAttributes (fuel : Nat) :
    PM (Bool × Option Int × Option ModeKind × Bool) := do
  if (← peek) ≠ .Attribute then pure (false, none, none, false)
  else gccAttrOuterLoop fuel (false, none, none, false)

def skipCvQualifiers : Nat → PM Unit
  | 0 => exhaust
  | n + 1 => do
    match (← peek) with
    | .Const | .Volatile | .Restrict | .Extension => do
      let _ ← advance
      skipCvQualifiers n
    | .SegGs => do
      let _ ← advance
      modify fun s =>
        { s with attrs := { s.attrs with parsingAddressSpace := .SegGs } }
      skipCvQualifiers n
    | .SegFs => do
      let _ ← advance
      modify fun s =>
        { s with attrs := { s.attrs with parsingAddressSpace := .SegFs } }
      skipCvQualifiers n
    | .Attribute => do
      let _ ← parseGccAttributes n
      skipCvQualifiers n
    | _ => pure ()

def skipArrayQualifiers : Nat → PM Unit
  | 0 => exhaust
  | n + 1 => do
    match (← peek) with
    | .Const | .Volatile | .Restrict | .Static => do
      let _ ← advance
      skipArrayQualifiers n
    | _ => pure ()

def skipLabelAttributesLoop : Nat → PM Unit
  | 0 => exhaust
  | n + 1 => do
    if (← peek) = .Attribute then do
      let _ ← parseGccAttributes n
      skipLabelAttributesLoop n
    else pure ()

def skipLabelAttributes (n : Nat) : PM Unit := do
  skipLabelAttributesLoop n
  let _ ← consumeIf .Semicolon
  pure ()

def skipBalancedParensLoop : Nat → Nat → PM Unit
  | 0, _ => exhaust
  | n + 1, depth => do
    if depth > 0 ∧ ¬(← atEof) then
      let k ← peek
      let depth' :=
        if k = .LParen then depth + 1
        else if k = .RParen then depth - 1
        else depth
      if depth' > 0 then do
        let _ ← advance
        skipBalancedParensLoop n depth'
      else pure ()
    else pure ()

def skipBalancedParens (n : Nat) : PM Unit := do
  if (← peek) ≠ .LParen then pure ()
  else do
    let _ ← advance
    skipBalancedParensLoop n 1
    let _ ← consumeIf .RParen
    pure ()

/-- `parseAlignasArgument` (the class-body version: it skips the
parenthesized argument and always reports `null`). -/
def parseAlignasArgument (n : Nat) : PM (Option Int) := do
  if (← peek) ≠ .LParen then pure none
  else do
    let _ ← advance
    if (← peek) = .RParen then do
      let _ ← advance
      pure none
    else do
      skipBalancedParensLoop n 1
      let _ ← consumeIf .RParen
      pure none

/-- `consumePostTypeQualifiers`: the `Attribute` arm calls
`skipGccExtensions`, which does not consume an `__attribute__` token, so
the `for (;;)` loop can spin without advancing (fuel exhaustion in the
model = the JS infinite loop). -/
def consumePostTypeQualifiers : Nat → PM Unit
  | 0 => exhaust
  | n + 1 => do
    match (← peek) with
    | .Static => do
      setAttrFlag ATTR_STATIC true
      let _ ← advance
      consumePostTypeQualifiers n
    | .Extern => do
      setAttrFlag ATTR_EXTERN true
      let _ ← advance
      consumePostTypeQualifiers n
    | .Typedef => do
      setAttrFlag ATTR_TYPEDEF true
      let _ ← advance
      consumePostTypeQualifiers n
    | .Inline => do
      setAttrFlag ATTR_INLINE true
      let _ ← advance
      consumePostTypeQualifiers n
    | .ThreadLocal => do
      setAttrFlag ATTR_THREAD_LOCAL true
      let _ ← advance
      consumePostTypeQualifiers n
    | .Const => do
      setAttrFlag ATTR_CONST true
      let _ ← advance
      consumePostTypeQualifiers n
    | .Volatile => do
      setAttrFlag ATTR_VOLATILE true
      let _ ← advance
      consumePostTypeQualifiers n
    | .Register => do
      let _ ← advance
      consumePostTypeQualifiers n
    | .Restrict => do
      let _ ← advance
      consumePostTypeQualifiers n
    | .Noreturn => do
      setAttrFlag ATTR_NORETURN true
      let _ ← advance
      consumePostTypeQualifiers n
    | .Attribute => do
      skipGccExtensions n
      consumePostTypeQualifiers n
    | .Extension => do
      skipGccExtensions n
      consumePostTypeQualifiers n
    | _ => pure ()

def skipArrayDimInner : Nat → PM Unit
  | 0 => exhaust
  | n + 1 => do
    if (← peek) ≠ .RBracket ∧ ¬(← atEof) then
      let _ ← advance
      skipArrayDimInner n
    else pure ()

def skipArrayDimensions : Nat → PM Unit
  | 0 => exhaust
  | n + 1 => do
    if (← peek) = .LBracket then do
      let _ ← advance
      skipArrayDimInner n
      let _ ← consumeIf .RBracket
      skipArrayDimensions n
    else pure ()

def extractParenName : Nat → PM (Option JsStr)
  | 0 => do exhaust; pure none
  | n + 1 => do
    if (← peek) ≠ .LParen then
      if (← peek) = .Identifier then do
        let nm ← peekValueStr
        let _ ← advance
        pure (some nm)
      else pure none
    else do
      let _ ← advance
      if (← peek) = .Star then do
        let _ ← advance
        skipCvQualifiers n
      let name ← do
        if (← peek) = .LParen then extractParenName n
        else if (← peek) = .Identifier then do
          let nm ← peekValueStr
          let _ ← advance
          pure (some nm)
        else pure none
      let _ ← consumeIf .RParen
      pure name

def parseAsmString : Nat → JsStr → PM JsStr
  | 0, acc => do exhaust; pure acc
  | n + 1, acc => do
    if (← peek) = .StringLiteral ∨ (← peek) = .WideStringLiteral then do
      let v ← peekValue
      let acc' := match v with
        | some (.str s) => acc ++ s
        | _ => acc
      let _ ← advance
      parseAsmString n acc'
    else pure acc

def parseAsmClobbers : Nat → List JsStr → PM (List JsStr)
  | 0, acc => do exhaust; pure acc
  | n + 1, acc => do
    let clobber ← parseAsmString n []
    let acc' := if clobber.length > 0 then acc ++ [clobber] else acc
    if ← consumeIf .Comma then
      if (← peek) = .Colon ∨ (← peek) = .RParen then pure acc'
      else parseAsmClobbers n acc'
    else pure acc'

def parseAsmGotoLabels : Nat → List JsStr → PM (List JsStr)
  | 0, acc => do exhaust; pure acc
  | n + 1, acc => do
    if (← peek) = .Identifier then do
      let nm ← peekValueStr
      let _ ← advance
      let acc' := acc ++ [nm]
      if ← consumeIf .Comma then
        if (← peek) = .RParen then pure acc'
        else parseAsmGotoLabels n acc'
      else pure acc'
    else pure acc

def parseKrIdentifierList : Nat → List ParamDeclaration →
    PM (List ParamDeclaration × Bool)
  | 0, acc => do exhaust; pure (acc, false)
  | n + 1, acc => do
    if (← peek) = .Identifier then do
      let nm ← peekValueStr
      let _ ← advance
      let acc' := acc ++
        [ParamDeclaration.mk (.IntType noSpanMeta) (some nm) none false [] 0]
      if ← consumeIf .Comma then parseKrIdentifierList n acc'
      else do
        let _ ← expect .RParen
        pure (acc', false)
    else do
      let _ ← expect .RParen
      pure (acc, false)

def registerEnumConstantsLoop : List EnumVariant → Option Int → PM Unit
  | [], _ => pure ()
  | .mk name value :: rest, nextValue => do
    let s ← get
    let evaluated : Option Int :=
      match value with
      | some v =>
        let tagAligns :=
          if s.structTagAlignments.length > 0 then some s.structTagAlignments
          else none
        Parser.evalConstIntExprWithEnumsStatic v s.enumConstants tagAligns
      | none => nextValue
    match evaluated with
    | some ev => do
      modify fun st =>
        { st with enumConstants := jsMapSet st.enumConstants name ev }
      registerEnumConstantsLoop rest (some (ev + 1))
    | none => do
      modify fun st =>
        { st with unevaluableEnumConstants :=
            jsSetAdd st.unevaluableEnumConstants name }
      registerEnumConstantsLoop rest none

/-- `registerEnumConstants` evaluates explicit variant values through the
STATIC `Parser.evalConstIntExprWithEnums` (the stub). -/
def registerEnumConstants (variants : List EnumVariant) : PM Unit :=
  registerEnumConstantsLoop variants (some 0)

def registerTypedefs (declarators : List InitDeclarator) : PM Unit := do
  if ← getAttrFlag ATTR_TYPEDEF then
    declarators.forM fun d => match d with
      | .mk _ name _ _ _ =>
        if name ≠ [] then
          modify fun s =>
            { s with typedefs := jsSetAdd s.typedefs name,
                     shadowedTypedefs := jsSetDelete s.shadowedTypedefs name }
        else pure ()
  else pure ()

end Parser

/-! ## Parser loop helpers

Every source `while`/`for (;;)` becomes a fuelled self-recursive
function; fuel `0` sets the sticky `fuelExhausted` flag, so any run whose
final state has the flag `false` took exactly the steps the JS code
takes. -/

def mergeAligns (a b : Option Int) : Option Int :=
  match a, b with
  | none, x => x
  | some x, none => some x
  | some x, some y => some (max x y)

/-- JS truthiness of a `string | null` field (empty string is falsy). -/
def optStrTruthy : Option JsStr → Bool
  | some s => !s.isEmpty
  | none => false

/-- `DeclContext`. -/
structure DeclContext where
  attrs : DeclAttributes
  alignment : Option Int
  alignasType : Option TypeSpecifier
  alignmentSizeofType : Option TypeSpecifier
  isCommon : Bool

/-- The `state` record threaded through `parseParamDeclaratorFull` and
`parseParenParamDeclarator`. -/
structure ParamDeclState where
  pointerDepth : Nat
  arrayDims : List (Option Expression)
  isFuncPtr : Bool
  ptrToArrayDims : List (Option Expression)
  fptrParams : Option (List ParamDeclaration)
  fptrInnerPtrDepth : Nat

/-- The inner loop of `foldSimpleDerived` (consecutive `Array` runs are
applied innermost-first); each iteration consumes at least one list
element, so `derived.length` rounds of fuel always suffice. -/
def fsLoop : Nat → TypeSpecifier → List DerivedDeclarator → TypeSpecifier
  | 0, result, _ => result
  | _ + 1, result, [] => result
  | n + 1, result, .Pointer :: rest =>
    fsLoop n (wrapPointerType result .Default none) rest
  | n + 1, result, .Array sz :: rest =>
    let dims := sz :: ((rest.takeWhile isArrD).map fun d => match d with
      | .Array s => s
      | _ => none)
    let rest' := rest.dropWhile isArrD
    fsLoop n (dims.reverse.foldl (fun r s => wrapArrayType r s none) result)
      rest'
  | n + 1, result, _ :: rest => fsLoop n result rest

def foldSimpleDerived (base : TypeSpecifier)
    (derived : List DerivedDeclarator) :
    TypeSpecifier × List DerivedDeclarator :=
  if derived.any fun d => isFnD d || isFptrD d then (base, derived)
  else if derived.length = 0 then (base, [])
  else (fsLoop derived.length base derived, [])

/-- `parseKrParams`' count of `Pointer` entries after the first
function(-pointer) declarator. -/
def krPtrsAfterAux : List DerivedDeclarator → Bool → Nat
  | [], _ => 0
  | d :: rest, found =>
    if isFptrD d || isFnD d then krPtrsAfterAux rest true
    else if isPtrD d && found then 1 + krPtrsAfterAux rest found
    else krPtrsAfterAux rest found

def krPtrsAfter (l : List DerivedDeclarator) : Nat := krPtrsAfterAux l false

/-- `parseKrParams`' update of the first parameter whose name matches
(`for … break`). -/
def krUpdateParam (result : List ParamDeclaration) (pname : JsStr)
    (fullType : TypeSpecifier) (fptrParams : Option (List ParamDeclaration))
    (innerDepth : Int) : List ParamDeclaration :=
  match result with
  | [] => []
  | .mk pts pn pf pc pv pd :: rest =>
    if pn = some pname then .mk fullType pn fptrParams pc pv innerDepth :: rest
    else .mk pts pn pf pc pv pd :: krUpdateParam rest pname fullType
      fptrParams innerDepth

namespace Parser

/-- The recurring `parsedAlignas = parsedAlignas !== null ? max : a`
update applied when an `aligned` attribute was parsed. -/
def mergeParsedAlignas (aligned : Option Int) : PM Unit :=
  match aligned with
  | some a =>
    modify fun s =>
      let merged := match s.attrs.parsedAlignas with
        | some p => max p a
        | none => a
      { s with attrs := { s.attrs with parsedAlignas := some merged } }
  | none => pure ()

/-- The `collectTrailingSpecifiers` loop for char/short/int/long bases. -/
def ctsIntLoop : Nat → TypeSpecFlags → Option ModeKind →
    PM (TypeSpecFlags × Option ModeKind)
  | 0, flags, mKind => do exhaust; pure (flags, mKind)
  | n + 1, flags, mKind => do
    match (← peek) with
    | .Signed => do
      let _ ← advance
      ctsIntLoop n { flags with hasSigned := true } mKind
    | .Unsigned => do
      let _ ← advance
      ctsIntLoop n { flags with hasUnsigned := true } mKind
    | .Int => do
      let _ ← advance
      ctsIntLoop n { flags with hasInt := true } mKind
    | .Long => do
      let _ ← advance
      ctsIntLoop n { flags with longCount := flags.longCount + 1 } mKind
    | .Short => do
      let _ ← advance
      ctsIntLoop n { flags with hasShort := true } mKind
    | .Char => do
      let _ ← advance
      ctsIntLoop n { flags with hasChar := true } mKind
    | .Complex => do
      let _ ← advance
      ctsIntLoop n { flags with hasComplex := true } mKind
    | .Const | .Volatile | .Restrict => do
      let _ ← advance
      ctsIntLoop n flags mKind
    | .SegGs => do
      let _ ← advance
      modify fun s =>
        { s with attrs := { s.attrs with parsingAddressSpace := .SegGs } }
      ctsIntLoop n flags mKind
    | .SegFs => do
      let _ ← advance
      modify fun s =>
        { s with attrs := { s.attrs with parsingAddressSpace := .SegFs } }
      ctsIntLoop n flags mKind
    | .Static => do
      let _ ← advance
      setAttrFlag ATTR_STATIC true
      ctsIntLoop n flags mKind
    | .Extern => do
      let _ ← advance
      setAttrFlag ATTR_EXTERN true
      ctsIntLoop n flags mKind
    | .Auto | .Register => do
      let _ ← advance
      ctsIntLoop n flags mKind
    | .ThreadLocal => do
      let _ ← advance
      setAttrFlag ATTR_THREAD_LOCAL true
      ctsIntLoop n flags mKind
    | .Noreturn => do
      let _ ← advance
      setAttrFlag ATTR_NORETURN true
      ctsIntLoop n flags mKind
    | .Inline => do
      let _ ← advance
      setAttrFlag ATTR_INLINE true
      ctsIntLoop n flags mKind
    | .Attribute => do
      let (_, aligned, mkNew, _) ← parseGccAttributes n
      let mKind' := match mkNew with
        | some m => some m
        | none => mKind
      mergeParsedAlignas aligned
      ctsIntLoop n flags mKind'
    | .Extension => do
      let _ ← advance
      ctsIntLoop n flags mKind
    | _ => pure (flags, mKind)

/-- The `collectTrailingSpecifiers` loop after `float` (no long/attribute
arms). -/
def ctsFloatLoop : Nat → TypeSpecFlags → Option ModeKind →
    PM (TypeSpecFlags × Option ModeKind)
  | 0, flags, mKind => do exhaust; pure (flags, mKind)
  | n + 1, flags, mKind => do
    match (← peek) with
    | .Complex => do
      let _ ← advance
      ctsFloatLoop n { flags with hasComplex := true } mKind
    | .Const | .Volatile | .Restrict => do
      let _ ← advance
      ctsFloatLoop n flags mKind
    | .SegGs => do
      let _ ← advance
      modify fun s =>
        { s with attrs := { s.attrs with parsingAddressSpace := .SegGs } }
      ctsFloatLoop n flags mKind
    | .SegFs => do
      let _ ← advance
      modify fun s =>
        { s with attrs := { s.attrs with parsingAddressSpace := .SegFs } }
      ctsFloatLoop n flags mKind
    | .Static => do
      let _ ← advance
      setAttrFlag ATTR_STATIC true
      ctsFloatLoop n flags mKind
    | .Extern => do
      let _ ← advance
      setAttrFlag ATTR_EXTERN true
      ctsFloatLoop n flags mKind
    | .Auto | .Register => do
      let _ ← advance
      ctsFloatLoop n flags mKind
    | .ThreadLocal => do
      let _ ← advance
      setAttrFlag ATTR_THREAD_LOCAL true
      ctsFloatLoop n flags mKind
    | .Noreturn => do
      let _ ← advance
      setAttrFlag ATTR_NORETURN true
      ctsFloatLoop n flags mKind
    | .Inline => do
      let _ ← advance
      setAttrFlag ATTR_INLINE true
      ctsFloatLoop n flags mKind
    | .Extension => do
      let _ ← advance
      ctsFloatLoop n flags mKind
    | _ => pure (flags, mKind)

/-- The `collectTrailingSpecifiers` loop after `double` (adds the `long`
arm). -/
def ctsDoubleLoop : Nat → TypeSpecFlags → Option ModeKind →
    PM (TypeSpecFlags × Option ModeKind)
  | 0, flags, mKind => do exhaust; pure (flags, mKind)
  | n + 1, flags, mKind => do
    match (← peek) with
    | .Long => do
      let _ ← advance
      ctsDoubleLoop n { flags with longCount := flags.longCount + 1 } mKind
    | .Complex => do
      let _ ← advance
      ctsDoubleLoop n { flags with hasComplex := true } mKind
    | .Const | .Volatile | .Restrict => do
      let _ ← advance
      ctsDoubleLoop n flags mKind
    | .SegGs => do
      let _ ← advance
      modify fun s =>
        { s with attrs := { s.attrs with parsingAddressSpace := .SegGs } }
      ctsDoubleLoop n flags mKind
    | .SegFs => do
      let _ ← advance
      modify fun s =>
        { s with attrs := { s.attrs with parsingAddressSpace := .SegFs } }
      ctsDoubleLoop n flags mKind
    | .Static => do
      let _ ← advance
      setAttrFlag ATTR_STATIC true
      ctsDoubleLoop n flags mKind
    | .Extern => do
      let _ ← advance
      setAttrFlag ATTR_EXTERN true
      ctsDoubleLoop n flags mKind
    | .Auto | .Register => do
      let _ ← advance
      ctsDoubleLoop n flags mKind
    | .ThreadLocal => do
      let _ ← advance
      setAttrFlag ATTR_THREAD_LOCAL true
      ctsDoubleLoop n flags mKind
    | .Noreturn => do
      let _ ← advance
      setAttrFlag ATTR_NORETURN true
      ctsDoubleLoop n flags mKind
    | .Inline => do
      let _ ← advance
      setAttrFlag ATTR_INLINE true
      ctsDoubleLoop n flags mKind
    | .Extension => do
      let _ ← advance
      ctsDoubleLoop n flags mKind
    | _ => pure (flags, mKind)

def collectTrailingSpecifiers (n : Nat) (flags : TypeSpecFlags)
    (mKind : Option ModeKind) : PM (TypeSpecFlags × Option ModeKind) := do
  if flags.hasChar || flags.hasShort || flags.hasInt ||
      decide (flags.longCount > 0) then
    ctsIntLoop n flags mKind
  else if flags.hasFloat then ctsFloatLoop n flags mKind
  else if flags.hasDouble then ctsDoubleLoop n flags mKind
  else pure (flags, mKind)

def consumeTrailingQualifiers : Nat → TypeSpecifier → PM TypeSpecifier
  | 0, result => do exhaust; pure result
  | n + 1, result => do
    match (← peek) with
    | .Complex => do
      let _ ← advance
      let m : TSMeta := { span := tsSpan result, loc := none }
      let result' := match result with
        | .FloatType _ => TypeSpecifier.ComplexFloatType m
        | .DoubleType _ => .ComplexDoubleType m
        | .LongDoubleType _ => .ComplexLongDoubleType m
        | _ => .ComplexDoubleType m
      consumeTrailingQualifiers n result'
    | .Const | .Volatile | .Restrict => do
      let _ ← advance
      consumeTrailingQualifiers n result
    | .Static => do
      let _ ← advance
      setAttrFlag ATTR_STATIC true
      consumeTrailingQualifiers n result
    | .Extern => do
      let _ ← advance
      setAttrFlag ATTR_EXTERN true
      consumeTrailingQualifiers n result
    | .Auto | .Register => do
      let _ ← advance
      consumeTrailingQualifiers n result
    | .ThreadLocal => do
      let _ ← advance
      setAttrFlag ATTR_THREAD_LOCAL true
      consumeTrailingQualifiers n result
    | .Noreturn => do
      let _ ← advance
      setAttrFlag ATTR_NORETURN true
      consumeTrailingQualifiers n result
    | .Inline => do
      let _ ← advance
      setAttrFlag ATTR_INLINE true
      consumeTrailingQualifiers n result
    | .Attribute => do
      let (_, aligned, _, _) ← parseGccAttributes n
      mergeParsedAlignas aligned
      consumeTrailingQualifiers n result
    | .Extension => do
      let _ ← advance
      consumeTrailingQualifiers n result
    | .SegGs => do
      let _ ← advance
      modify fun s =>
        { s with attrs := { s.attrs with parsingAddressSpace := .SegGs } }
      consumeTrailingQualifiers n result
    | .SegFs => do
      let _ ← advance
      modify fun s =>
        { s with attrs := { s.attrs with parsingAddressSpace := .SegFs } }
      consumeTrailingQualifiers n result
    | _ => pure result

def consumeStructFieldQualifiers : Nat → Option Int → PM (Option Int)
  | 0, al => do exhaust; pure al
  | n + 1, al => do
    match (← peek) with
    | .Const | .Volatile | .Restrict => do
      let _ ← advance
      consumeStructFieldQualifiers n al
    | .SegGs => do
      let _ ← advance
      modify fun s =>
        { s with attrs := { s.attrs with parsingAddressSpace := .SegGs } }
      consumeStructFieldQualifiers n al
    | .SegFs => do
      let _ ← advance
      modify fun s =>
        { s with attrs := { s.attrs with parsingAddressSpace := .SegFs } }
      consumeStructFieldQualifiers n al
    | .Alignas => do
      let _ ← advance
      let align ← parseAlignasArgument n
      let al' := match align with
        | some a => some (match al with
          | some x => max x a
          | none => a)
        | none => al
      consumeStructFieldQualifiers n al'
    | .Attribute => do
      let (_, attrAligned, _, _) ← parseGccAttributes n
      let al' := match attrAligned with
        | some a => some a
        | none => al
      consumeStructFieldQualifiers n al'
    | .Extension => do
      let _ ← advance
      consumeStructFieldQualifiers n al
    | _ => pure al

/-- `while (peek !== RParen && peek !== Eof) advance` (the `_Atomic`
fallback and `parseVaArgType` function-pointer skip). -/
def skipToRParenLoop : Nat → PM Unit
  | 0 => exhaust
  | n + 1 => do
    if (← peek) ≠ .RParen ∧ (← peek) ≠ .Eof then do
      let _ ← advance
      skipToRParenLoop n
    else pure ()

/-- The recurring `asm("register")` block after a declarator: consume
`asm ( "reg" )` and report the register string. -/
def parseAsmRegister : PM (Option JsStr) := do
  if (← peek) = .Asm then do
    let _ ← advance
    if (← peek) = .LParen then do
      let _ ← advance
      let reg ← do
        if (← peek) = .StringLiteral then do
          let v ← peekValue
          let _ ← advance
          pure (match v with
            | some (.str s) => some s
            | _ => none)
        else pure none
      let _ ← expectClosing .RParen
      pure reg
    else pure none
  else pure none

def pragmaPackWhile : Nat → PM Unit
  | 0 => exhaust
  | n + 1 => do
    if ← handlePragmaPackToken then do
      let _ ← consumeIf .Semicolon
      pragmaPackWhile n
    else pure ()

def pragmaVisWhile : Nat → PM Unit
  | 0 => exhaust
  | n + 1 => do
    if ← handlePragmaVisibilityToken then do
      let _ ← consumeIf .Semicolon
      pragmaVisWhile n
    else pure ()

def gnuLabelNamesLoop : Nat → List JsStr → PM (List JsStr)
  | 0, acc => do exhaust; pure acc
  | n + 1, acc => do
    let acc' ← do
      if (← peek) = .Identifier then do
        let nm ← peekValueStr
        let _ ← advance
        pure (acc ++ [nm])
      else pure acc
    if ← consumeIf .Comma then gnuLabelNamesLoop n acc'
    else pure acc'

/-- The leading `__label__` declarations of a compound statement. -/
def gnuLabelBlockLoop : Nat → List JsStr → PM (List JsStr)
  | 0, acc => do exhaust; pure acc
  | n + 1, acc => do
    if (← peek) = .GnuLabel then do
      let _ ← advance
      let acc' ← gnuLabelNamesLoop n acc
      let _ ← expectAfter .Semicolon
      gnuLabelBlockLoop n acc'
    else pure acc

/-- `asm` statement qualifiers (`volatile`, `goto`, `inline`). -/
def asmQualLoop : Nat → Bool → PM Bool
  | 0, g => do exhaust; pure g
  | n + 1, g => do
    if (← peek) = .Volatile then do
      let _ ← advance
      asmQualLoop n g
    else if (← peek) = .Goto then do
      let _ ← advance
      asmQualLoop n true
    else if (← peek) = .Inline then do
      let _ ← advance
      asmQualLoop n g
    else pure g

/-- The top-level `asm("…")` string collection of `parseExternalDecl`. -/
def topAsmStrLoop : Nat → JsStr → PM JsStr
  | 0, acc => do exhaust; pure acc
  | n + 1, acc => do
    let kind ← peek
    if kind = .StringLiteral then do
      let v ← peekValueStr
      let _ ← advance
      topAsmStrLoop n (acc ++ v)
    else if kind = .RParen ∨ kind = .Eof then pure acc
    else do
      let _ ← advance
      topAsmStrLoop n acc

def staticAssertMsgLoop : Nat → JsStr → PM JsStr
  | 0, acc => do exhaust; pure acc
  | n + 1, acc => do
    if (← peek) = .StringLiteral then do
      let v ← peekValueStr
      let _ ← advance
      staticAssertMsgLoop n (acc ++ v)
    else pure acc

/-- The shared `*`-counting loop (`parseParamDeclaratorFull` and the
paren declarators): count stars, skipping cv-qualifiers and
extensions. -/
def pdfStarLoop : Nat → Nat → PM Nat
  | 0, c => do exhaust; pure c
  | n + 1, c => do
    if ← consumeIf .Star then do
      skipCvQualifiers n
      skipGccExtensions n
      pdfStarLoop n (c + 1)
    else pure c

end Parser

/-! ## The recursive-descent parser

All mutually recursive parser methods, fuelled on a shared `Nat`
argument: each call site passes `n` out of `n + 1`, so the recursion is
structural, and running out of fuel sets the sticky `fuelExhausted`
flag.  Node constructions use `NodeMeta (mkMeta start end_)` whose `loc`
defaults to the shared placeholder `LOC`. -/

def mkMeta (a b : Nat) : NodeMeta := { start := a, end_ := b }

namespace Parser

mutual

def parseExpr : Nat → PM Expression
  | 0 => do exhaust; pure (.IntLiteral (mkMeta 0 0) 0)
  | n + 1 => do
    let lhs ← parseAssignmentExpr n
    if (← peek) = .Comma then do
      let span ← peekSpan
      let _ ← advance
      let rhs ← parseExpr n
      pure (.CommaExpression (mkMeta span.start span.end_) lhs rhs)
    else pure lhs
termination_by structural fuel => fuel

def parseAssignmentExpr : Nat → PM Expression
  | 0 => do exhaust; pure (.IntLiteral (mkMeta 0 0) 0)
  | n + 1 => do
    let lhs ← parseConditionalExpr n
    if (← peek) = .Assign then do
      let span ← peekSpan
      let _ ← advance
      let rhs ← parseAssignmentExpr n
      pure (.AssignExpression (mkMeta span.start span.end_) lhs rhs)
    else do
      match ← compoundAssignOp with
      | some op => do
        let span ← peekSpan
        let _ ← advance
        let rhs ← parseAssignmentExpr n
        pure (.CompoundAssignExpression (mkMeta span.start span.end_) op lhs rhs)
      | none => pure lhs
termination_by structural fuel => fuel

def parseConditionalExpr : Nat → PM Expression
  | 0 => do exhaust; pure (.IntLiteral (mkMeta 0 0) 0)
  | n + 1 => do
    let cond ← parseBinaryExpr n .LogicalOr
    if ← consumeIf .Question then do
      let m := exprMeta cond
      if (← peek) = .Colon then do
        let _ ← expectContext .Colon
        let elseExpr ← parseConditionalExpr n
        pure (.GnuConditionalExpression (mkMeta m.start m.end_) cond elseExpr)
      else do
        let thenExpr ← parseExpr n
        let _ ← expectContext .Colon
        let elseExpr ← parseConditionalExpr n
        pure (.ConditionalExpression (mkMeta m.start m.end_) cond thenExpr elseExpr)
    else pure cond
termination_by structural fuel => fuel

def parseBinaryExpr : Nat → PrecedenceLevel → PM Expression
  | 0, _ => do exhaust; pure (.IntLiteral (mkMeta 0 0) 0)
  | n + 1, level => do
    let lhs ← parseNextTighter n level
    parseBinaryOpsLoop n level lhs
termination_by structural fuel => fuel

/-- The left-associative `while ((op = tokenToBinop(...)) !== null)`
loop of `parseBinaryExpr`. -/
def parseBinaryOpsLoop : Nat → PrecedenceLevel → Expression → PM Expression
  | 0, _, lhs => do exhaust; pure lhs
  | n + 1, level, lhs => do
    match tokenToBinop (← peek) level with
    | some op => do
      let span ← peekSpan
      let _ ← advance
      let rhs ← parseNextTighter n level
      parseBinaryOpsLoop n level
        (.BinaryExpression (mkMeta span.start span.end_) op lhs rhs)
    | none => pure lhs
termination_by structural fuel => fuel

def parseNextTighter : Nat → PrecedenceLevel → PM Expression
  | 0, _ => do exhaust; pure (.IntLiteral (mkMeta 0 0) 0)
  | n + 1, level =>
    match level with
    | .LogicalOr => parseBinaryExpr n .LogicalAnd
    | .LogicalAnd => parseBinaryExpr n .BitwiseOr
    | .BitwiseOr => parseBinaryExpr n .BitwiseXor
    | .BitwiseXor => parseBinaryExpr n .BitwiseAnd
    | .BitwiseAnd => parseBinaryExpr n .Equality
    | .Equality => parseBinaryExpr n .Relational
    | .Relational => parseBinaryExpr n .Shift
    | .Shift => parseBinaryExpr n .Additive
    | .Additive => parseBinaryExpr n .Multiplicative
    | .Multiplicative => parseCastExpr n
termination_by structural fuel => fuel

def parseCastExpr : Nat → PM Expression
  | 0 => do exhaust; pure (.IntLiteral (mkMeta 0 0) 0)
  | n + 1 => do
    if (← peek) = .LParen then do
      let s0 ← get
      let save := s0.pos
      let saveTypedef ← getAttrFlag ATTR_TYPEDEF
      let saveConst ← getAttrFlag ATTR_CONST
      let saveVectorSize := s0.attrs.parsingVectorSize
      let saveExtVector := s0.attrs.parsingExtVectorNelem
      modify fun st => { st with attrs := { st.attrs with
        parsingVectorSize := none, parsingExtVectorNelem := none } }
      let _ ← advance
      let done ← do
        if ← isTypeSpecifier then do
          match ← parseTypeSpecifier n with
          | some typeSpec => do
            let rt1 ← parseAbstractDeclaratorSuffix n typeSpec
            let resultType ← applyPendingVectorAttr rt1
            if (← peek) = .RParen then do
              let span ← peekSpan
              let _ ← advance
              if (← peek) = .LBrace then do
                let init ← parseInitializer n
                let lit : Expression := .CompoundLiteralExpression
                  (mkMeta span.start span.end_) resultType init
                setAttrFlag ATTR_CONST saveConst
                modify fun st => { st with attrs := { st.attrs with
                  parsingVectorSize := saveVectorSize,
                  parsingExtVectorNelem := saveExtVector } }
                let r ← parsePostfixOps n lit
                pure (some r)
              else do
                let expr ← parseCastExpr n
                setAttrFlag ATTR_CONST saveConst
                modify fun st => { st with attrs := { st.attrs with
                  parsingVectorSize := saveVectorSize,
                  parsingExtVectorNelem := saveExtVector } }
                pure (some (Expression.CastExpression
                  (mkMeta span.start span.end_) resultType expr))
            else pure none
          | none => pure none
        else pure none
      match done with
      | some r => pure r
      | none => do
        modify fun st => { st with pos := save }
        setAttrFlag ATTR_TYPEDEF saveTypedef
        setAttrFlag ATTR_CONST saveConst
        modify fun st => { st with attrs := { st.attrs with
          parsingVectorSize := saveVectorSize,
          parsingExtVectorNelem := saveExtVector } }
        parseUnaryExpr n
    else parseUnaryExpr n
termination_by structural fuel => fuel

def parseUnaryExpr : Nat → PM Expression
  | 0 => do exhaust; pure (.IntLiteral (mkMeta 0 0) 0)
  | n + 1 => do
    match (← peek) with
    | .AmpAmp => do
      let span ← peekSpan
      let s ← get
      if s.pos + 1 < s.tokens.length ∧
          (s.tokens.getD (s.pos + 1) eofToken).kind = .Identifier then do
        let labelName := match (s.tokens.getD (s.pos + 1) eofToken).value with
          | some (.str v) => v
          | _ => []
        let _ ← advance
        let _ ← advance
        pure (.LabelAddrExpression (mkMeta span.start span.end_) labelName)
      else parsePostfixExpr n
    | .RealPart => do
      let span ← peekSpan
      let _ ← advance
      let expr ← parseCastExpr n
      pure (.UnaryExpression (mkMeta span.start span.end_) .RealPart expr)
    | .ImagPart => do
      let span ← peekSpan
      let _ ← advance
      let expr ← parseCastExpr n
      pure (.UnaryExpression (mkMeta span.start span.end_) .ImagPart expr)
    | .PlusPlus => do
      let span ← peekSpan
      let _ ← advance
      let expr ← parseUnaryExpr n
      pure (.UnaryExpression (mkMeta span.start span.end_) .PreInc expr)
    | .MinusMinus => do
      let span ← peekSpan
      let _ ← advance
      let expr ← parseUnaryExpr n
      pure (.UnaryExpression (mkMeta span.start span.end_) .PreDec expr)
    | .Plus => do
      let span ← peekSpan
      let _ ← advance
      let expr ← parseCastExpr n
      pure (.UnaryExpression (mkMeta span.start span.end_) .Plus expr)
    | .Minus => do
      let span ← peekSpan
      let _ ← advance
      let expr ← parseCastExpr n
      pure (.UnaryExpression (mkMeta span.start span.end_) .Neg expr)
    | .Tilde => do
      let span ← peekSpan
      let _ ← advance
      let expr ← parseCastExpr n
      pure (.UnaryExpression (mkMeta span.start span.end_) .BitNot expr)
    | .Bang => do
      let span ← peekSpan
      let _ ← advance
      let expr ← parseCastExpr n
      pure (.UnaryExpression (mkMeta span.start span.end_) .LogicalNot expr)
    | .Amp => do
      let span ← peekSpan
      let _ ← advance
      let expr ← parseCastExpr n
      pure (.AddressOfExpression (mkMeta span.start span.end_) expr)
    | .Star => do
      let span ← peekSpan
      let _ ← advance
      let expr ← parseCastExpr n
      pure (.DerefExpression (mkMeta span.start span.end_) expr)
    | .Sizeof => parseSizeofExpr n
    | .Alignof => do
      let span ← peekSpan
      let _ ← advance
      let _ ← expectContext .LParen
      let done ← do
        if ← isTypeSpecifier then do
          match ← parseTypeSpecifier n with
          | some ts => do
            let rt ← parseAbstractDeclaratorSuffix n ts
            let resultType ← applyPendingVectorAttr rt
            let _ ← expectClosing .RParen
            pure (some (Expression.AlignofExpression
              (mkMeta span.start span.end_) resultType))
          | none => pure none
        else pure none
      match done with
      | some r => pure r
      | none => do
        let expr ← parseAssignmentExpr n
        let _ ← expectClosing .RParen
        pure (.AlignofExprExpression (mkMeta span.start span.end_) expr)
    | .GnuAlignof => do
      let span ← peekSpan
      let _ ← advance
      let _ ← expectContext .LParen
      let done ← do
        if ← isTypeSpecifier then do
          match ← parseTypeSpecifier n with
          | some ts => do
            let rt ← parseAbstractDeclaratorSuffix n ts
            let resultType ← applyPendingVectorAttr rt
            let _ ← expectClosing .RParen
            pure (some (Expression.GnuAlignofExpression
              (mkMeta span.start span.end_) resultType))
          | none => pure none
        else pure none
      match done with
      | some r => pure r
      | none => do
        let expr ← parseAssignmentExpr n
        let _ ← expectClosing .RParen
        pure (.GnuAlignofExprExpression (mkMeta span.start span.end_) expr)
    | _ => parsePostfixExpr n
termination_by structural fuel => fuel

def parseSizeofExpr : Nat → PM Expression
  | 0 => do exhaust; pure (.IntLiteral (mkMeta 0 0) 0)
  | n + 1 => do
    let span ← peekSpan
    let _ ← advance
    let done ← do
      if (← peek) = .LParen then do
        let s0 ← get
        let save := s0.pos
        let saveTypedef ← getAttrFlag ATTR_TYPEDEF
        let saveConst ← getAttrFlag ATTR_CONST
        let saveVectorSize := s0.attrs.parsingVectorSize
        let saveExtVector := s0.attrs.parsingExtVectorNelem
        modify fun st => { st with attrs := { st.attrs with
          parsingVectorSize := none, parsingExtVectorNelem := none } }
        let _ ← advance
        let inner ← do
          if ← isTypeSpecifier then do
            match ← parseTypeSpecifier n with
            | some ts => do
              let rt ← parseAbstractDeclaratorSuffix n ts
              let resultType ← applyPendingVectorAttr rt
              if (← peek) = .RParen then do
                let _ ← expect .RParen
                setAttrFlag ATTR_CONST saveConst
                modify fun st => { st with attrs := { st.attrs with
                  parsingVectorSize := saveVectorSize,
                  parsingExtVectorNelem := saveExtVector } }
                pure (some (Expression.SizeofExpression
                  (mkMeta span.start span.end_) (.Type resultType)))
              else pure none
            | none => pure none
          else pure none
        match inner with
        | some r => pure (some r)
        | none => do
          modify fun st => { st with pos := save }
          setAttrFlag ATTR_TYPEDEF saveTypedef
          setAttrFlag ATTR_CONST saveConst
          modify fun st => { st with attrs := { st.attrs with
            parsingVectorSize := saveVectorSize,
            parsingExtVectorNelem := saveExtVector } }
          pure none
      else pure none
    match done with
    | some r => pure r
    | none => do
      let expr ← parseUnaryExpr n
      pure (.SizeofExpression (mkMeta span.start span.end_) (.Expr expr))
termination_by structural fuel => fuel

def parsePostfixExpr : Nat → PM Expression
  | 0 => do exhaust; pure (.IntLiteral (mkMeta 0 0) 0)
  | n + 1 => do
    let expr ← parsePrimaryExpr n
    parsePostfixOps n expr
termination_by structural fuel => fuel

def parsePostfixOps : Nat → Expression → PM Expression
  | 0, result => do exhaust; pure result
  | n + 1, result => do
    match (← peek) with
    | .LParen => do
      let open_ ← peekSpan
      let _ ← advance
      let args ← do
        if (← peek) ≠ .RParen then do
          let first ← parseAssignmentExpr n
          callArgsLoop n [first]
        else pure []
      let _ ← expectClosing .RParen
      parsePostfixOps n
        (.FunctionCallExpression (mkMeta open_.start open_.end_) result args)
    | .LBracket => do
      let open_ ← peekSpan
      let _ ← advance
      let index ← parseExpr n
      let _ ← expectClosing .RBracket
      parsePostfixOps n
        (.ArraySubscriptExpression (mkMeta open_.start open_.end_) result index)
    | .Dot => do
      let span ← peekSpan
      let _ ← advance
      let field ← do
        if (← peek) = .Identifier then do
          let f ← peekValueStr
          let _ ← advance
          pure f
        else pure []
      parsePostfixOps n
        (.MemberAccessExpression (mkMeta span.start span.end_) result field)
    | .Arrow => do
      let span ← peekSpan
      let _ ← advance
      let field ← do
        if (← peek) = .Identifier then do
          let f ← peekValueStr
          let _ ← advance
          pure f
        else pure []
      parsePostfixOps n
        (.PointerMemberAccessExpression (mkMeta span.start span.end_) result field)
    | .PlusPlus => do
      let span ← peekSpan
      let _ ← advance
      parsePostfixOps n
        (.PostfixExpression (mkMeta span.start span.end_) .PostInc result)
    | .MinusMinus => do
      let span ← peekSpan
      let _ ← advance
      parsePostfixOps n
        (.PostfixExpression (mkMeta span.start span.end_) .PostDec result)
    | _ => pure result
termination_by structural fuel => fuel

def callArgsLoop : Nat → List Expression → PM (List Expression)
  | 0, args => do exhaust; pure args
  | n + 1, args => do
    if ← consumeIf .Comma then do
      let a ← parseAssignmentExpr n
      callArgsLoop n (args ++ [a])
    else pure args
termination_by structural fuel => fuel

def parsePrimaryExpr : Nat → PM Expression
  | 0 => do exhaust; pure (.IntLiteral (mkMeta 0 0) 0)
  | n + 1 => do
    match (← peek) with
    | .IntLiteral => do
      let val ← peekValueNum
      let span ← peekSpan
      let _ ← advance
      pure (.IntLiteral (mkMeta span.start span.end_) val)
    | .UIntLiteral => do
      let val ← peekValueNum
      let span ← peekSpan
      let _ ← advance
      pure (.UIntLiteral (mkMeta span.start span.end_) val)
    | .LongLiteral => do
      let val ← peekValueNum
      let span ← peekSpan
      let _ ← advance
      pure (.LongLiteral (mkMeta span.start span.end_) val)
    | .ULongLiteral => do
      let val ← peekValueNum
      let span ← peekSpan
      let _ ← advance
      pure (.ULongLiteral (mkMeta span.start span.end_) val)
    | .LongLongLiteral => do
      let tok ← peekToken
      let span ← peekSpan
      let _ ← advance
      pure (.LongLongLiteral (mkMeta span.start span.end_) (tok.bigValue.getD 0))
    | .ULongLongLiteral => do
      let tok ← peekToken
      let span ← peekSpan
      let _ ← advance
      pure (.ULongLongLiteral (mkMeta span.start span.end_) (tok.bigValue.getD 0))
    | .FloatLiteral => do
      let val := (← peekValue).getD (.num 0)
      let span ← peekSpan
      let _ ← advance
      pure (.FloatLiteral (mkMeta span.start span.end_) val)
    | .FloatLiteralF32 => do
      let val := (← peekValue).getD (.num 0)
      let span ← peekSpan
      let _ ← advance
      pure (.FloatLiteralF32 (mkMeta span.start span.end_) val)
    | .FloatLiteralLongDouble => do
      let val := (← peekValue).getD (.num 0)
      let span ← peekSpan
      let _ ← advance
      pure (.FloatLiteralLongDouble (mkMeta span.start span.end_) val)
    | .ImaginaryLiteral => do
      let val := (← peekValue).getD (.num 0)
      let span ← peekSpan
      let _ ← advance
      pure (.ImaginaryLiteral (mkMeta span.start span.end_) val)
    | .ImaginaryLiteralF32 => do
      let val := (← peekValue).getD (.num 0)
      let span ← peekSpan
      let _ ← advance
      pure (.ImaginaryLiteralF32 (mkMeta span.start span.end_) val)
    | .ImaginaryLiteralLongDouble => do
      let val := (← peekValue).getD (.num 0)
      let span ← peekSpan
      let _ ← advance
      pure (.ImaginaryLiteralLongDouble (mkMeta span.start span.end_) val)
    | .StringLiteral => do
      let first ← peekValueStr
      let span ← peekSpan
      let _ ← advance
      let (result, isWide, isChar16) ← stringConcatLoop n first false false
      if isWide then
        pure (.WideStringLiteral (mkMeta span.start span.end_) result)
      else if isChar16 then
        pure (.Char16StringLiteral (mkMeta span.start span.end_) result)
      else pure (.StringLiteral (mkMeta span.start span.end_) result)
    | .WideStringLiteral => do
      let first ← peekValueStr
      let span ← peekSpan
      let _ ← advance
      let result ← wideStringConcatLoop n first
      pure (.WideStringLiteral (mkMeta span.start span.end_) result)
    | .Char16StringLiteral => do
      let first ← peekValueStr
      let span ← peekSpan
      let _ ← advance
      let (result, isWide) ← char16ConcatLoop n first false
      if isWide then
        pure (.WideStringLiteral (mkMeta span.start span.end_) result)
      else pure (.Char16StringLiteral (mkMeta span.start span.end_) result)
    | .CharLiteral => do
      let val ← peekValueStr
      let span ← peekSpan
      let _ ← advance
      pure (.CharLiteral (mkMeta span.start span.end_) val)
    | .Identifier => do
      let name ← peekValueStr
      let span ← peekSpan
      let _ ← advance
      pure (.Identifier (mkMeta span.start span.end_) name)
    | .LParen => do
      let open_ ← peekSpan
      let _ ← advance
      if (← peek) = .LBrace then do
        let span ← peekSpan
        let compound ← parseCompoundStmt n
        let _ ← expectClosing .RParen
        pure (.StmtExpression (mkMeta span.start span.end_) compound)
      else do
        let expr ← parseExpr n
        let _ ← expectClosing .RParen
        pure expr
    | .Generic => parseGenericSelection n
    | .Asm => do
      let span ← peekSpan
      let _ ← advance
      let _ ← consumeIf .Volatile
      if (← peek) = .LParen then skipBalancedParens n
      pure (.IntLiteral (mkMeta span.start span.end_) 0)
    | .BuiltinVaArg => do
      let span ← peekSpan
      let _ ← advance
      let _ ← expectContext .LParen
      let apExpr ← parseAssignmentExpr n
      let _ ← expectContext .Comma
      let typeSpec ← parseVaArgType n
      let _ ← expectClosing .RParen
      pure (.VaArgExpression (mkMeta span.start span.end_) apExpr typeSpec)
    | .BuiltinTypesCompatibleP => do
      let span ← peekSpan
      let _ ← advance
      let _ ← expectContext .LParen
      let type1 ← parseVaArgType n
      let _ ← expectContext .Comma
      let type2 ← parseVaArgType n
      let _ ← expectClosing .RParen
      pure (.BuiltinTypesCompatiblePExpression
        (mkMeta span.start span.end_) type1 type2)
    | .Typeof => do
      let span ← peekSpan
      let _ ← advance
      if (← peek) = .LParen then skipBalancedParens n
      pure (.IntLiteral (mkMeta span.start span.end_) 0)
    | .Builtin => do
      let span ← peekSpan
      let _ ← advance
      pure (.Identifier (mkMeta span.start span.end_) (litStr "__builtin_va_list"))
    | .Extension => do
      let _ ← advance
      parseCastExpr n
    | _ => do
      let span ← peekSpan
      emitError
      let _ ← advance
      pure (.IntLiteral (mkMeta span.start span.end_) 0)
termination_by structural fuel => fuel

def stringConcatLoop : Nat → JsStr → Bool → Bool → PM (JsStr × Bool × Bool)
  | 0, acc, w, c => do exhaust; pure (acc, w, c)
  | n + 1, acc, isWide, isChar16 => do
    if (← peek) = .StringLiteral then do
      let v ← peekValueStr
      let _ ← advance
      stringConcatLoop n (acc ++ v) isWide isChar16
    else if (← peek) = .WideStringLiteral then do
      let v ← peekValueStr
      let _ ← advance
      stringConcatLoop n (acc ++ v) true isChar16
    else if (← peek) = .Char16StringLiteral then do
      let v ← peekValueStr
      let _ ← advance
      stringConcatLoop n (acc ++ v) isWide true
    else pure (acc, isWide, isChar16)
termination_by structural fuel => fuel

def wideStringConcatLoop : Nat → JsStr → PM JsStr
  | 0, acc => do exhaust; pure acc
  | n + 1, acc => do
    if (← peek) = .StringLiteral ∨ (← peek) = .WideStringLiteral ∨
        (← peek) = .Char16StringLiteral then do
      let v ← peekValueStr
      let _ ← advance
      wideStringConcatLoop n (acc ++ v)
    else pure acc
termination_by structural fuel => fuel

def char16ConcatLoop : Nat → JsStr → Bool → PM (JsStr × Bool)
  | 0, acc, w => do exhaust; pure (acc, w)
  | n + 1, acc, isWide => do
    if (← peek) = .StringLiteral ∨ (← peek) = .Char16StringLiteral then do
      let v ← peekValueStr
      let _ ← advance
      char16ConcatLoop n (acc ++ v) isWide
    else if (← peek) = .WideStringLiteral then do
      let v ← peekValueStr
      let _ ← advance
      char16ConcatLoop n (acc ++ v) true
    else pure (acc, isWide)
termination_by structural fuel => fuel

def parseGenericSelection : Nat → PM Expression
  | 0 => do exhaust; pure (.IntLiteral (mkMeta 0 0) 0)
  | n + 1 => do
    let span ← peekSpan
    let _ ← advance
    let _ ← expectContext .LParen
    let controlling ← parseAssignmentExpr n
    let _ ← expectContext .Comma
    let associations ← genericAssocLoop n []
    let _ ← expectClosing .RParen
    pure (.GenericSelectionExpression
      (mkMeta span.start span.end_) controlling associations)
termination_by structural fuel => fuel

def genericAssocLoop : Nat → List GenericAssociation →
    PM (List GenericAssociation)
  | 0, acc => do exhaust; pure acc
  | n + 1, acc => do
    if (← peek) = .RParen then pure acc
    else do
      let savedConst ← getAttrFlag ATTR_CONST
      setAttrFlag ATTR_CONST false
      let (typeSpec, isConst) ← do
        if (← peek) = .Default then do
          let _ ← advance
          pure ((none : Option TypeSpecifier), false)
        else do
          match ← parseTypeSpecifier n with
          | some ts => do
            let ic ← getAttrFlag ATTR_CONST
            let t ← parseAbstractDeclaratorSuffix n ts
            pure (some t, ic)
          | none => pure (none, false)
      setAttrFlag ATTR_CONST savedConst
      let _ ← expectContext .Colon
      let expr ← parseAssignmentExpr n
      let acc' := acc ++ [GenericAssociation.mk typeSpec expr isConst]
      if ← consumeIf .Comma then genericAssocLoop n acc'
      else pure acc'
termination_by structural fuel => fuel

def parseTypeSpecifier : Nat → PM (Option TypeSpecifier)
  | 0 => do exhaust; pure none
  | n + 1 => do
    skipGccExtensions n
    let startPos := (← get).pos
    let r ← tsLoop n startPos {} none false false
    match r with
    | .inl ts => pure (some ts)
    | .inr (flags, mKind, anyBase, anyStorage) => do
      let (flags2, mKind2) ← collectTrailingSpecifiers n flags mKind
      if ¬anyBase then
        if anyStorage then do
          let sp ← spanFromTokenRange startPos (← get).pos
          pure (some (.IntType (spanMeta sp)))
        else pure none
      else do
        let sp1 ← spanFromTokenRange startPos (← get).pos
        let base1 ← resolveTypeFlags n flags2 sp1
        let base2 ← consumeTrailingQualifiers n base1
        let base3 := match mKind2 with
          | some m => applyModeKind m base2
          | none => base2
        let sp2 ← spanFromTokenRange startPos (← get).pos
        pure (some (reSpanType base3 sp2))
termination_by structural fuel => fuel

/-- The `loop:` switch of `parseTypeSpecifier`; `.inl` is an early
`return`, `.inr` a `break loop` carrying
`(flags, modeKindRef, anyBaseSpecifier, anyStorageClass)`. -/
def tsLoop : Nat → Nat → TypeSpecFlags → Option ModeKind → Bool → Bool →
    PM (Sum TypeSpecifier (TypeSpecFlags × Option ModeKind × Bool × Bool))
  | 0, _, flags, mKind, anyBase, anyStorage => do
    exhaust
    pure (.inr (flags, mKind, anyBase, anyStorage))
  | n + 1, startPos, flags, mKind, anyBase, anyStorage => do
    match (← peek) with
    | .Const => do
      let _ ← advance
      setAttrFlag ATTR_CONST true
      tsLoop n startPos flags mKind anyBase anyStorage
    | .Volatile => do
      let _ ← advance
      setAttrFlag ATTR_VOLATILE true
      tsLoop n startPos flags mKind anyBase anyStorage
    | .Restrict => do
      let _ ← advance
      tsLoop n startPos flags mKind anyBase anyStorage
    | .Register | .Auto => do
      let _ ← advance
      tsLoop n startPos flags mKind anyBase true
    | .Noreturn => do
      let _ ← advance
      setAttrFlag ATTR_NORETURN true
      tsLoop n startPos flags mKind anyBase anyStorage
    | .SegGs => do
      let _ ← advance
      modify fun s =>
        { s with attrs := { s.attrs with parsingAddressSpace := .SegGs } }
      tsLoop n startPos flags mKind anyBase anyStorage
    | .SegFs => do
      let _ ← advance
      modify fun s =>
        { s with attrs := { s.attrs with parsingAddressSpace := .SegFs } }
      tsLoop n startPos flags mKind anyBase anyStorage
    | .AutoType => do
      let _ ← advance
      let sp ← spanFromTokenRange startPos (← get).pos
      pure (.inl (.AutoTypeType (spanMeta sp)))
    | .Inline => do
      let _ ← advance
      setAttrFlag ATTR_INLINE true
      tsLoop n startPos flags mKind anyBase anyStorage
    | .Static => do
      let _ ← advance
      setAttrFlag ATTR_STATIC true
      tsLoop n startPos flags mKind anyBase true
    | .Extern => do
      let _ ← advance
      setAttrFlag ATTR_EXTERN true
      tsLoop n startPos flags mKind anyBase true
    | .Typedef => do
      let _ ← advance
      setAttrFlag ATTR_TYPEDEF true
      tsLoop n startPos flags mKind anyBase true
    | .ThreadLocal => do
      let _ ← advance
      setAttrFlag ATTR_THREAD_LOCAL true
      tsLoop n startPos flags mKind anyBase true
    | .Complex => do
      let _ ← advance
      tsLoop n startPos { flags with hasComplex := true } mKind true anyStorage
    | .Attribute => do
      let (_, aligned, mKindNew, _) ← parseGccAttributes n
      let mKind2 := match mKindNew with
        | some m => some m
        | none => mKind
      mergeParsedAlignas aligned
      tsLoop n startPos flags mKind2 anyBase anyStorage
    | .Extension => do
      let _ ← advance
      tsLoop n startPos flags mKind anyBase anyStorage
    | .Atomic => do
      let _ ← advance
      if (← peek) = .LParen then do
        let _ ← advance
        let savedConst ← getAttrFlag ATTR_CONST
        setAttrFlag ATTR_CONST false
        let inner ← parseTypeSpecifier n
        setAttrFlag ATTR_CONST savedConst
        match inner with
        | some i => do
          let result ← parseAbstractDeclaratorSuffix n i
          let _ ← expectClosing .RParen
          let sp ← spanFromTokenRange startPos (← get).pos
          pure (.inl (reSpanType result sp))
        | none => do
          emitError
          skipToRParenLoop n
          let _ ← consumeIf .RParen
          let sp ← spanFromTokenRange startPos (← get).pos
          pure (.inl (.IntType (spanMeta sp)))
      else tsLoop n startPos flags mKind anyBase anyStorage
    | .Alignas => do
      let _ ← advance
      let align ← parseAlignasArgument n
      mergeParsedAlignas align
      tsLoop n startPos flags mKind anyBase anyStorage
    | .Void => do
      let _ ← advance
      pure (.inr ({ flags with hasVoid := true }, mKind, true, anyStorage))
    | .Char => do
      let _ ← advance
      pure (.inr ({ flags with hasChar := true }, mKind, true, anyStorage))
    | .Short => do
      let _ ← advance
      tsLoop n startPos { flags with hasShort := true } mKind true anyStorage
    | .Int => do
      let _ ← advance
      tsLoop n startPos { flags with hasInt := true } mKind true anyStorage
    | .Long => do
      let _ ← advance
      tsLoop n startPos { flags with longCount := flags.longCount + 1 } mKind
        true anyStorage
    | .Float => do
      let _ ← advance
      pure (.inr ({ flags with hasFloat := true }, mKind, true, anyStorage))
    | .Double => do
      let _ ← advance
      pure (.inr ({ flags with hasDouble := true }, mKind, true, anyStorage))
    | .Bool => do
      let _ ← advance
      pure (.inr ({ flags with hasBool := true }, mKind, true, anyStorage))
    | .Signed => do
      let _ ← advance
      tsLoop n startPos { flags with hasSigned := true } mKind true anyStorage
    | .Unsigned => do
      let _ ← advance
      tsLoop n startPos { flags with hasUnsigned := true } mKind true
        anyStorage
    | .Int128 => do
      let _ ← advance
      if Parser.targetIs32bit then do
        emitError
        let sp ← spanFromTokenRange startPos (← get).pos
        pure (.inl (.IntType (spanMeta sp)))
      else if flags.hasUnsigned then do
        let sp ← spanFromTokenRange startPos (← get).pos
        pure (.inl (.UnsignedInt128Type (spanMeta sp)))
      else do
        let sp ← spanFromTokenRange startPos (← get).pos
        pure (.inl (.Int128Type (spanMeta sp)))
    | .UInt128 => do
      let _ ← advance
      if Parser.targetIs32bit then do
        emitError
        let sp ← spanFromTokenRange startPos (← get).pos
        pure (.inl (.UnsignedIntType (spanMeta sp)))
      else do
        let sp ← spanFromTokenRange startPos (← get).pos
        pure (.inl (.UnsignedInt128Type (spanMeta sp)))
    | .Struct => do
      let _ ← advance
      pure (.inr ({ flags with hasStruct := true }, mKind, true, anyStorage))
    | .Union => do
      let _ ← advance
      pure (.inr ({ flags with hasUnion := true }, mKind, true, anyStorage))
    | .Enum => do
      let _ ← advance
      pure (.inr ({ flags with hasEnum := true }, mKind, true, anyStorage))
    | .Typeof => do
      let _ ← advance
      pure (.inr ({ flags with hasTypeof := true }, mKind, true, anyStorage))
    | .Builtin => do
      if ¬anyBase then do
        let _ ← advance
        pure (.inr ({ flags with
          typedefName := some (litStr "__builtin_va_list") }, mKind, true,
          anyStorage))
      else pure (.inr (flags, mKind, anyBase, anyStorage))
    | .Identifier => do
      let val ← peekValue
      match val with
      | some (.str v) => do
        let s ← get
        if s.typedefs.contains v && !s.shadowedTypedefs.contains v &&
            !anyBase then do
          let _ ← advance
          pure (.inr ({ flags with typedefName := some v }, mKind, true,
            anyStorage))
        else pure (.inr (flags, mKind, anyBase, anyStorage))
      | _ => pure (.inr (flags, mKind, anyBase, anyStorage))
    | _ => pure (.inr (flags, mKind, anyBase, anyStorage))
termination_by structural fuel => fuel

def resolveTypeFlags : Nat → TypeSpecFlags → Span → PM TypeSpecifier
  | 0, _, span => do exhaust; pure (.IntType (spanMeta span))
  | n + 1, flags, span => do
    if flags.hasVoid then pure (.VoidType (spanMeta span))
    else if flags.hasBool then pure (.BoolType (spanMeta span))
    else if flags.hasFloat then
      if flags.hasComplex then pure (.ComplexFloatType (spanMeta span))
      else pure (.FloatType (spanMeta span))
    else if flags.hasDouble then
      if flags.hasComplex then
        if decide (flags.longCount > 0) then
          pure (.ComplexLongDoubleType (spanMeta span))
        else pure (.ComplexDoubleType (spanMeta span))
      else
        if decide (flags.longCount > 0) then
          pure (.LongDoubleType (spanMeta span))
        else pure (.DoubleType (spanMeta span))
    else if flags.hasComplex && !flags.hasStruct && !flags.hasUnion &&
        !flags.hasEnum then
      pure (.ComplexDoubleType (spanMeta span))
    else if flags.hasStruct then do
      let t ← parseStructOrUnion n true
      pure (reSpanType t span)
    else if flags.hasUnion then do
      let t ← parseStructOrUnion n false
      pure (reSpanType t span)
    else if flags.hasEnum then do
      let t ← parseEnumSpecifier n
      pure (reSpanType t span)
    else if flags.hasTypeof then do
      let t ← parseTypeofSpecifier n
      pure (reSpanType t span)
    else
      match flags.typedefName with
      | some nm => pure (.TypedefNameType (spanMeta span) nm)
      | none =>
        if flags.hasChar then
          if flags.hasUnsigned then pure (.UnsignedCharType (spanMeta span))
          else pure (.CharType (spanMeta span))
        else if flags.hasShort then
          if flags.hasUnsigned then pure (.UnsignedShortType (spanMeta span))
          else pure (.ShortType (spanMeta span))
        else if decide (flags.longCount ≥ 2) then
          if flags.hasUnsigned then
            pure (.UnsignedLongLongType (spanMeta span))
          else pure (.LongLongType (spanMeta span))
        else if decide (flags.longCount = 1) then
          if flags.hasUnsigned then pure (.UnsignedLongType (spanMeta span))
          else pure (.LongType (spanMeta span))
        else if flags.hasUnsigned then
          pure (.UnsignedIntType (spanMeta span))
        else pure (.IntType (spanMeta span))
termination_by structural fuel => fuel

def parseStructOrUnion : Nat → Bool → PM TypeSpecifier
  | 0, _ => do exhaust; pure (.IntType noSpanMeta)
  | n + 1, isStruct => do
    let startPos := (← get).pos - 1
    let (p1, a1, _, _) ← parseGccAttributes n
    let name ← do
      if (← peek) = .Identifier then do
        let v ← peekValue
        let _ ← advance
        pure (match v with
          | some (.str s) => some s
          | _ => none)
      else pure none
    let (p2, a2, _, _) ← parseGccAttributes n
    let isPacked1 := p1 || p2
    let structAligned1 := match a2 with
      | some a => some a
      | none => a1
    let fields ← do
      if (← peek) = .LBrace then do
        let savedConst ← getAttrFlag ATTR_CONST
        let fs ← parseStructFields n
        setAttrFlag ATTR_CONST savedConst
        pure (some fs)
      else pure (none : Option (List StructFieldDeclaration))
    let (p3, a3, _, _) ← parseGccAttributes n
    let isPacked := isPacked1 || p3
    let structAligned := match a3 with
      | some a => some a
      | none => structAligned1
    let maxFieldAlign := (← get).pragmaPackAlign
    let sp ← spanFromTokenRange startPos (← get).pos
    let ts : TypeSpecifier :=
      if isStruct then
        .StructType (spanMeta sp) name fields isPacked maxFieldAlign
          structAligned
      else
        .UnionType (spanMeta sp) name fields isPacked maxFieldAlign
          structAligned
    match name, fields with
    | some nm, some _ => do
      let align := Parser.alignofTypeSpecStatic ts none
      modify fun st =>
        { st with structTagAlignments :=
            jsMapSet st.structTagAlignments nm align }
      pure ts
    | _, _ => pure ts
termination_by structural fuel => fuel

def parseEnumSpecifier : Nat → PM TypeSpecifier
  | 0 => do exhaust; pure (.IntType noSpanMeta)
  | n + 1 => do
    let startPos := (← get).pos - 1
    let (p1, _, _, _) ← parseGccAttributes n
    let name ← do
      if (← peek) = .Identifier then do
        let v ← peekValue
        let _ ← advance
        pure (match v with
          | some (.str s) => some s
          | _ => none)
      else pure none
    let (p2, _, _, _) ← parseGccAttributes n
    let isPacked1 := p1 || p2
    let variants ← do
      if (← peek) = .LBrace then do
        let vs ← parseEnumVariants n
        registerEnumConstants vs
        pure (some vs)
      else pure (none : Option (List EnumVariant))
    let (p3, _, _, _) ← parseGccAttributes n
    let isPacked := isPacked1 || p3
    let sp ← spanFromTokenRange startPos (← get).pos
    pure (.EnumType (spanMeta sp) name variants isPacked)
termination_by structural fuel => fuel

def parseTypeofSpecifier : Nat → PM TypeSpecifier
  | 0 => do exhaust; pure (.IntType noSpanMeta)
  | n + 1 => do
    let startPos := (← get).pos - 1
    let _ ← expectContext .LParen
    let savedFlags ← saveAttrFlags
    let save := (← get).pos
    let wasType ← isTypeSpecifier
    let done ← do
      if wasType then do
        match ← parseTypeSpecifier n with
        | some ts => do
          let resultType ← parseAbstractDeclaratorSuffix n ts
          if (← peek) = .RParen then do
            let _ ← advance
            restoreAttrFlags savedFlags
            let sp ← spanFromTokenRange startPos (← get).pos
            pure (some (TypeSpecifier.TypeofTypeType (spanMeta sp)
              resultType))
          else pure none
        | none => pure none
      else pure none
    match done with
    | some r => pure r
    | none => do
      if wasType then do
        modify fun st => { st with pos := save }
        restoreAttrFlags savedFlags
        let _ ← expectContext .LParen
        pure ()
      else pure ()
      let expr ← parseExpr n
      let _ ← expectClosing .RParen
      restoreAttrFlags savedFlags
      let sp ← spanFromTokenRange startPos (← get).pos
      pure (.TypeofExprType (spanMeta sp) expr)
termination_by structural fuel => fuel

def parseStructFields : Nat → PM (List StructFieldDeclaration)
  | 0 => do exhaust; pure []
  | n + 1 => do
    let _ ← expectContext .LBrace
    let fields ← structFieldsLoop n []
    let _ ← expectClosing .RBrace
    pure fields
termination_by structural fuel => fuel

def structFieldsLoop : Nat → List StructFieldDeclaration →
    PM (List StructFieldDeclaration)
  | 0, fields => do exhaust; pure fields
  | n + 1, fields => do
    if (← peek) ≠ .RBrace ∧ (← peek) ≠ .Eof then do
      skipGccExtensions n
      if (← peek) = .Semicolon then do
        let _ ← advance
        structFieldsLoop n fields
      else if (← peek) = .StaticAssert then do
        let _ ← parseStaticAssert n
        structFieldsLoop n fields
      else do
        match ← parseTypeSpecifier n with
        | some typeSpec => do
          let fields' ← do
            if (← peek) = .Semicolon then do
              let alignment := (← get).attrs.parsedAlignas
              modify fun st =>
                { st with attrs := { st.attrs with parsedAlignas := none } }
              let sp := (tsSpan typeSpec).getD Parser.dummySpan
              pure (fields ++ [StructFieldDeclaration.mk
                { start := sp.start, end_ := sp.end_, loc := none }
                typeSpec none none none [] alignment false])
            else parseStructFieldDeclarators n typeSpec fields
          skipGccExtensions n
          let _ ← expectAfter .Semicolon
          structFieldsLoop n fields'
        | none => do
          let _ ← advance
          structFieldsLoop n fields
    else pure fields
termination_by structural fuel => fuel

def parseStructFieldDeclarators : Nat → TypeSpecifier →
    List StructFieldDeclaration → PM (List StructFieldDeclaration)
  | 0, _, fields => do exhaust; pure fields
  | n + 1, typeSpec, fields => do
    let alignasFromType := (← get).attrs.parsedAlignas
    modify fun st =>
      { st with attrs := { st.attrs with parsedAlignas := none } }
    let alignas2 ← consumeStructFieldQualifiers n alignasFromType
    sfdLoop n typeSpec alignas2 fields
termination_by structural fuel => fuel

/-- One declarator of `parseStructFieldDeclarators`.  The source
destructures a 7-element pattern out of the 6-tuple
`parseDeclaratorWithAttrs` returns: its `nameSpan` is really the
mode-kind (a string or `null`, never an object with numeric offsets), so
`makeIdentifierNode` never yields a located node; its `declAligned` is
really the `isPacked` boolean, which is never nullish and therefore
always wins the `?? extraAligned ?? alignasFromType` chain and is later
coerced by `Math.max` to `0`/`1`; and its `declPacked` is `undefined`,
so the field is packed iff the trailing attribute says so. -/
def sfdLoop : Nat → TypeSpecifier → Option Int →
    List StructFieldDeclaration → PM (List StructFieldDeclaration)
  | 0, _, _, fields => do exhaust; pure fields
  | n + 1, typeSpec, alignasFromType, fields => do
    if (← peek) = .Colon then do
      let _ ← advance
      let bitWidth ← parseAssignmentExpr n
      let sp := (tsSpan typeSpec).getD Parser.dummySpan
      let fields' := fields ++ [StructFieldDeclaration.mk
        { start := sp.start, end_ := (exprMeta bitWidth).end_, loc := none }
        typeSpec none none (some bitWidth) [] alignasFromType false]
      if ← consumeIf .Comma then sfdLoop n typeSpec alignasFromType fields'
      else pure fields'
    else do
      let (name, derived, _mKind, _hc, _aligned, ip) ←
        parseDeclaratorWithAttrs n
      let bitWidth ← do
        if ← consumeIf .Colon then do
          let bw ← parseAssignmentExpr n
          pure (some bw)
        else pure none
      let (extraPacked, _extraAligned, _, _) ← parseGccAttributes n
      let alignment : Option Int := some (if ip then 1 else 0)
      let isPacked := extraPacked
      let (fieldType, fieldDerived) := foldSimpleDerived typeSpec derived
      let nameNode := makeIdentifierNode name none
      let fsp := (tsSpan fieldType).getD Parser.dummySpan
      let fend := match bitWidth with
        | some bw => (exprMeta bw).end_
        | none => fsp.end_
      let fields' := fields ++ [StructFieldDeclaration.mk
        { start := fsp.start, end_ := fend, loc := none }
        fieldType name nameNode bitWidth fieldDerived alignment isPacked]
      if ← consumeIf .Comma then sfdLoop n typeSpec alignasFromType fields'
      else pure fields'
termination_by structural fuel => fuel

def parseEnumVariants : Nat → PM (List EnumVariant)
  | 0 => do exhaust; pure []
  | n + 1 => do
    let _ ← expectContext .LBrace
    let variants ← enumVariantsLoop n []
    let _ ← expectClosing .RBrace
    pure variants
termination_by structural fuel => fuel

def enumVariantsLoop : Nat → List EnumVariant → PM (List EnumVariant)
  | 0, acc => do exhaust; pure acc
  | n + 1, acc => do
    if (← peek) ≠ .RBrace ∧ (← peek) ≠ .Eof then do
      if (← peek) = .Identifier then do
        let name ← peekValueStr
        let _ ← advance
        let value ← do
          if ← consumeIf .Assign then do
            let v ← parseAssignmentExpr n
            pure (some v)
          else pure none
        let _ ← consumeIf .Comma
        enumVariantsLoop n (acc ++ [EnumVariant.mk name value])
      else do
        let _ ← advance
        enumVariantsLoop n acc
    else pure acc
termination_by structural fuel => fuel

def parseVaArgType : Nat → PM TypeSpecifier
  | 0 => do exhaust; pure (.IntType noSpanMeta)
  | n + 1 => do
    let startPos := (← get).pos
    match ← parseTypeSpecifier n with
    | some typeSpec => do
      let rt1 ← vaPtrLoop n typeSpec
      let rt2 ← do
        if (← peek) = .LParen then do
          let save2 := (← get).pos
          let _ ← advance
          if ← consumeIf .Star then do
            skipToRParenLoop n
            let _ ← consumeIf .RParen
            if (← peek) = .LParen then skipBalancedParens n
            pure (wrapPointerType rt1 .Default none)
          else do
            modify fun st => { st with pos := save2 }
            pure rt1
        else pure rt1
      let rt3 ← vaDimsLoop n rt2
      let sp ← spanFromTokenRange startPos (← get).pos
      pure (reSpanType rt3 sp)
    | none => do
      emitError
      let sp ← spanFromTokenRange startPos (← get).pos
      pure (.IntType (spanMeta sp))
termination_by structural fuel => fuel

def vaPtrLoop : Nat → TypeSpecifier → PM TypeSpecifier
  | 0, resultType => do exhaust; pure resultType
  | n + 1, resultType => do
    if ← consumeIf .Star then do
      let s ← get
      let star := s.tokens.getD (s.pos - 1) eofToken
      let newSpan : Option Span := match tsSpan resultType with
        | some sp => some ⟨min sp.start star.start, max sp.end_ star.end_⟩
        | none => none
      let rt := wrapPointerType resultType .Default newSpan
      skipCvQualifiers n
      vaPtrLoop n rt
    else pure resultType
termination_by structural fuel => fuel

def vaDimsLoop : Nat → TypeSpecifier → PM TypeSpecifier
  | 0, resultType => do exhaust; pure resultType
  | n + 1, resultType => do
    if (← peek) = .LBracket then do
      let _ ← advance
      let size ← do
        if (← peek) ≠ .RBracket then do
          let e ← parseExpr n
          pure (some e)
        else pure none
      let close ← expectClosing .RBracket
      let newSpan : Option Span := match tsSpan resultType with
        | some sp => some ⟨sp.start, close.end_⟩
        | none => none
      vaDimsLoop n (wrapArrayType resultType size newSpan)
    else pure resultType
termination_by structural fuel => fuel

def parseAbstractDeclaratorSuffix : Nat → TypeSpecifier → PM TypeSpecifier
  | 0, resultType => do exhaust; pure resultType
  | n + 1, resultType => do
    skipCvQualifiers n
    let r1 ← absPtrLoop n resultType
    let r2 ← do
      if (← peek) = .LParen then do
        let save := (← get).pos
        match ← tryParseParenAbstractDeclarator n with
        | some (.Simple ptrDepth innerArrayDims) => do
          if (← peek) = .LParen then do
            let (params, variadic) ← parseParamList n
            let rA := wrapFunctionPointerType r1 params variadic none
            let rB := (List.range (ptrDepth - 1)).foldl
              (fun t _ => wrapPointerType t .Default none) rA
            pure (innerArrayDims.reverse.foldl
              (fun t sz => wrapArrayType t sz none) rB)
          else do
            let more ← do
              let k ← peek
              pure (decide (k = .LBracket) ||
                decide (innerArrayDims.length > 0))
            if more then do
              let outerDims ← absDimsLoop n []
              let rA := outerDims.reverse.foldl
                (fun t (d : Option Expression × Nat) =>
                  let newSpan : Option Span := match tsSpan t with
                    | some sp => some ⟨sp.start, max sp.end_ d.2⟩
                    | none => none
                  wrapArrayType t d.1 newSpan) r1
              let rB := (List.range ptrDepth).foldl
                (fun t _ => wrapPointerType t .Default none) rA
              pure (innerArrayDims.reverse.foldl
                (fun t sz => wrapArrayType t sz none) rB)
            else
              pure ((List.range ptrDepth).foldl
                (fun t _ => wrapPointerType t .Default none) r1)
        | some (.NestedFnPtr outerPtrDepth innerPtrDepth innerParams
            innerVariadic) => do
          if (← peek) = .LParen then do
            let (outerParams, outerVariadic) ← parseParamList n
            let rA := (List.range (innerPtrDepth - 1)).foldl
              (fun t _ => wrapPointerType t .Default none) r1
            let returnFnType :=
              wrapFunctionPointerType rA outerParams outerVariadic none
            let rB := wrapFunctionPointerType returnFnType innerParams
              innerVariadic none
            pure ((List.range (outerPtrDepth - 1)).foldl
              (fun t _ => wrapPointerType t .Default none) rB)
          else
            pure ((List.range (outerPtrDepth + innerPtrDepth)).foldl
              (fun t _ => wrapPointerType t .Default none) r1)
        | none => do
          modify fun st => { st with pos := save }
          pure r1
      else pure r1
    let arrayDims ← absDimsLoop n []
    pure (arrayDims.reverse.foldl
      (fun t (d : Option Expression × Nat) =>
        let newSpan : Option Span := match tsSpan t with
          | some sp => some ⟨sp.start, max sp.end_ d.2⟩
          | none => none
        wrapArrayType t d.1 newSpan) r2)
termination_by structural fuel => fuel

def absPtrLoop : Nat → TypeSpecifier → PM TypeSpecifier
  | 0, result => do exhaust; pure result
  | n + 1, result => do
    if ← consumeIf .Star then do
      let s ← get
      let star := s.tokens.getD (s.pos - 1) eofToken
      let addrSpace := s.attrs.parsingAddressSpace
      modify fun st =>
        { st with attrs := { st.attrs with parsingAddressSpace := .Default } }
      let newSpan : Option Span := match tsSpan result with
        | some sp => some ⟨min sp.start star.start, max sp.end_ star.end_⟩
        | none => none
      let r := wrapPointerType result addrSpace newSpan
      skipCvQualifiers n
      absPtrLoop n r
    else pure result
termination_by structural fuel => fuel

/-- Bracketed dimension collection of `parseAbstractDeclaratorSuffix`
(each entry keeps the closing bracket's `end`). -/
def absDimsLoop : Nat → List (Option Expression × Nat) →
    PM (List (Option Expression × Nat))
  | 0, acc => do exhaust; pure acc
  | n + 1, acc => do
    if (← peek) = .LBracket then do
      let _ ← advance
      let size ← do
        if (← peek) ≠ .RBracket then do
          let e ← parseExpr n
          pure (some e)
        else pure none
      let close ← expectClosing .RBracket
      absDimsLoop n (acc ++ [(size, close.end_)])
    else pure acc
termination_by structural fuel => fuel

def tryParseParenAbstractDeclarator : Nat → PM (Option ParenAbstractDecl)
  | 0 => do exhaust; pure none
  | n + 1 => do
    if (← peek) ≠ .LParen then pure none
    else do
      let save := (← get).pos
      let _ ← advance
      skipGccExtensions n
      let totalPtrs ← tpadStarLoop n 0
      if (← peek) = .LParen then do
        match ← tryParseParenAbstractDeclarator n with
        | some (.Simple innerPtrs innerDims) => do
          if (← peek) = .LParen then do
            let (params, variadic) ← parseParamList n
            if ← consumeIf .RParen then
              pure (some (.NestedFnPtr totalPtrs innerPtrs params variadic))
            else do
              modify fun st => { st with pos := save }
              pure none
          else do
            let arrayDims ← tpadDimsLoop n innerDims
            if ← consumeIf .RParen then
              pure (some (.Simple (totalPtrs + innerPtrs) arrayDims))
            else do
              modify fun st => { st with pos := save }
              pure none
        | some (.NestedFnPtr a b c d) => do
          if ← consumeIf .RParen then pure (some (.NestedFnPtr a b c d))
          else do
            modify fun st => { st with pos := save }
            pure none
        | none => do
          modify fun st => { st with pos := save }
          pure none
      else do
        let arrayDims ← tpadDimsLoop n []
        if ← consumeIf .RParen then
          if decide (totalPtrs > 0) || decide (arrayDims.length > 0) then
            pure (some (.Simple totalPtrs arrayDims))
          else do
            modify fun st => { st with pos := save }
            pure none
        else do
          modify fun st => { st with pos := save }
          pure none
termination_by structural fuel => fuel

def tpadStarLoop : Nat → Nat → PM Nat
  | 0, c => do exhaust; pure c
  | n + 1, c => do
    if ← consumeIf .Star then do
      skipCvQualifiers n
      skipGccExtensions n
      tpadStarLoop n (c + 1)
    else pure c
termination_by structural fuel => fuel

def tpadDimsLoop : Nat → List (Option Expression) →
    PM (List (Option Expression))
  | 0, acc => do exhaust; pure acc
  | n + 1, acc => do
    if (← peek) = .LBracket then do
      let _ ← advance
      let size ← do
        if (← peek) ≠ .RBracket then do
          let e ← parseExpr n
          pure (some e)
        else pure none
      let _ ← expect .RBracket
      tpadDimsLoop n (acc ++ [size])
    else pure acc
termination_by structural fuel => fuel

def parseParamList : Nat → PM (List ParamDeclaration × Bool)
  | 0 => do exhaust; pure ([], false)
  | n + 1 => do
    let _ ← expectContext .LParen
    if (← peek) = .RParen then do
      let _ ← advance
      pure ([], false)
    else do
      let voidHandled ← do
        if (← peek) = .Void then do
          let save := (← get).pos
          let _ ← advance
          if (← peek) = .RParen then do
            let _ ← advance
            pure true
          else do
            modify fun st => { st with pos := save }
            pure false
        else pure false
      if voidHandled then pure ([], false)
      else do
        let krCheck ← do
          if (← peek) = .Identifier then do
            let idOk ← do
              match ← peekValue with
              | some (.str idName) => do
                let s ← get
                pure (!s.typedefs.contains idName ||
                  s.shadowedTypedefs.contains idName)
              | _ => pure true
            if idOk then do
              let isTS ← isTypeSpecifier
              pure (!isTS)
            else pure false
          else pure false
        if krCheck then parseKrIdentifierList n []
        else paramListLoop n []
termination_by structural fuel => fuel

def paramListLoop : Nat → List ParamDeclaration →
    PM (List ParamDeclaration × Bool)
  | 0, params => do exhaust; pure (params, false)
  | n + 1, params => do
    if (← peek) = .Ellipsis then do
      let _ ← advance
      let _ ← expectClosing .RParen
      pure (params, true)
    else do
      let savedNoreturn ← getAttrFlag ATTR_NORETURN
      skipGccExtensions n
      let savedConst ← getAttrFlag ATTR_CONST
      setAttrFlag ATTR_CONST false
      setAttrFlag ATTR_NORETURN savedNoreturn
      match ← parseTypeSpecifier n with
      | some typeSpec => do
        let paramIsConst ← getAttrFlag ATTR_CONST
        let (pName, pointerDepth, arrayDims, isFuncPtr, ptrToArrayDims,
            fptrParamDecls, innerPtrDepth) ← parseParamDeclaratorFull n
        skipGccExtensions n
        let ts1 := (List.range pointerDepth).foldl
          (fun t _ => inlinePointerType t) typeSpec
        let ts2 :=
          if decide (ptrToArrayDims.length > 0) then
            inlinePointerType (ptrToArrayDims.reverse.foldl inlineArrayType
              ts1)
          else ts1
        let (vlaSizeExprs, ts3) :=
          if decide (arrayDims.length > 0) then
            let vla : List Expression := match arrayDims.head? with
              | some (some e) => [e]
              | _ => []
            (vla, inlinePointerType
              ((arrayDims.drop 1).reverse.foldl inlineArrayType ts2))
          else ([], ts2)
        let ts4 := if isFuncPtr then inlinePointerType ts3 else ts3
        setAttrFlag ATTR_CONST savedConst
        setAttrFlag ATTR_NORETURN savedNoreturn
        let params' := params ++ [ParamDeclaration.mk ts4 pName
          fptrParamDecls paramIsConst vlaSizeExprs (Int.ofNat innerPtrDepth)]
        if ← consumeIf .Comma then paramListLoop n params'
        else do
          let _ ← expectClosing .RParen
          pure (params', false)
      | none => do
        setAttrFlag ATTR_CONST savedConst
        setAttrFlag ATTR_NORETURN savedNoreturn
        let _ ← expectClosing .RParen
        pure (params, false)
termination_by structural fuel => fuel

def parseParamDeclaratorFull : Nat → PM (Option JsStr × Nat ×
    List (Option Expression) × Bool × List (Option Expression) ×
    Option (List ParamDeclaration) × Nat)
  | 0 => do exhaust; pure (none, 0, [], false, [], none, 0)
  | n + 1 => do
    let pointerDepth0 ← pdfStarLoop n 0
    let st0 : ParamDeclState :=
      { pointerDepth := pointerDepth0, arrayDims := [], isFuncPtr := false,
        ptrToArrayDims := [], fptrParams := none, fptrInnerPtrDepth := 0 }
    let (name, st1) ← do
      if (← peek) = .LParen then do
        if ← isParenDeclarator then parseParenParamDeclarator n st0
        else pure ((none : Option JsStr), st0)
      else if (← peek) = .Identifier then do
        let nm ← peekValueStr
        let _ ← advance
        pure (some nm, st0)
      else pure (none, st0)
    let st2 ← pdfDimsLoop n st1
    let st3 ← do
      if (← peek) = .LParen then do
        let (fpParams, _) ← parseParamList n
        pure { st2 with isFuncPtr := true, fptrParams := some fpParams }
      else pure st2
    pure (name, st3.pointerDepth, st3.arrayDims, st3.isFuncPtr,
      st3.ptrToArrayDims, st3.fptrParams, st3.fptrInnerPtrDepth)
termination_by structural fuel => fuel

def pdfDimsLoop : Nat → ParamDeclState → PM ParamDeclState
  | 0, st => do exhaust; pure st
  | n + 1, st => do
    if (← peek) = .LBracket then do
      let _ ← advance
      skipArrayQualifiers n
      if (← peek) = .RBracket then do
        let _ ← advance
        pdfDimsLoop n { st with arrayDims := st.arrayDims ++ [none] }
      else do
        let isVlaStar ← do
          let k ← peek
          let s ← get
          pure (decide (k = .Star ∧ s.pos + 1 < s.tokens.length ∧
            (s.tokens.getD (s.pos + 1) eofToken).kind = .RBracket))
        if isVlaStar then do
          let _ ← advance
          let _ ← advance
          pdfDimsLoop n { st with arrayDims := st.arrayDims ++ [none] }
        else do
          let dimExpr ← parseExpr n
          let _ ← expect .RBracket
          pdfDimsLoop n
            { st with arrayDims := st.arrayDims ++ [some dimExpr] }
    else pure st
termination_by structural fuel => fuel

def parseParenParamDeclarator : Nat → ParamDeclState →
    PM (Option JsStr × ParamDeclState)
  | 0, state => do exhaust; pure (none, state)
  | n + 1, state => do
    let save := (← get).pos
    let _ ← advance
    skipGccExtensions n
    if (← peek) = .LBracket then do
      let st' ← ppdAbstractArrLoop n state
      let _ ← expect .RParen
      pure (none, st')
    else if (← peek) = .Star then do
      let innerPtrDepth ← pdfStarLoop n 0
      let name ← do
        if (← peek) = .Identifier then do
          let nm ← peekValueStr
          let _ ← advance
          pure (some nm)
        else if (← peek) = .LParen then extractParenName n
        else pure none
      let stA := { state with
        pointerDepth := state.pointerDepth + (innerPtrDepth - 1) }
      let innerArrayDims ← tpadArrQualDimsLoop n []
      let _ ← expect .RParen
      let noParen ← do
        let k ← peek
        pure (decide (k ≠ .LParen))
      if decide (innerArrayDims.length > 0) && noParen then
        pure (name,
          { stA with
            pointerDepth := stA.pointerDepth + 1
            arrayDims := innerArrayDims })
      else if (← peek) = .LParen then do
        let (fpParams, _) ← parseParamList n
        pure (name,
          { stA with
            isFuncPtr := true
            fptrInnerPtrDepth := innerPtrDepth
            fptrParams := some fpParams })
      else if (← peek) = .LBracket then do
        let dims ← tpadArrQualDimsLoop n stA.ptrToArrayDims
        pure (name, { stA with ptrToArrayDims := dims })
      else pure (name, { stA with pointerDepth := stA.pointerDepth + 1 })
    else if (← peek) = .Caret then do
      let _ ← advance
      let name ← do
        if (← peek) = .Identifier then do
          let nm ← peekValueStr
          let _ ← advance
          pure (some nm)
        else pure none
      let _ ← expect .RParen
      if (← peek) = .LParen then skipBalancedParens n
      pure (name, state)
    else if (← peek) = .Identifier then do
      let name ← peekValueStr
      let _ ← advance
      let stA ← do
        if (← peek) = .LParen then do
          let (fpParams, _) ← parseParamList n
          pure { state with isFuncPtr := true, fptrParams := some fpParams }
        else pure state
      let _ ← expect .RParen
      skipArrayDimensions n
      let stB ← do
        if !stA.isFuncPtr then
          if (← peek) = .LParen then do
            let (fpParams, _) ← parseParamList n
            pure { stA with isFuncPtr := true, fptrParams := some fpParams }
          else pure stA
        else pure stA
      pure (some name, stB)
    else if (← peek) = .LParen then do
      let innerSave := (← get).pos
      let name ← extractParenName n
      let stA ← do
        match name with
        | some _ => do
          skipArrayDimensions n
          if (← peek) = .LParen then do
            let (fpParams, _) ← parseParamList n
            pure
              { state with
                isFuncPtr := true
                fptrParams := some fpParams }
          else pure state
        | none => do
          modify fun st => { st with pos := innerSave }
          skipBalancedParens n
          pure state
      let _ ← expect .RParen
      skipArrayDimensions n
      let stB ← do
        if (← peek) = .LParen then do
          let (fpParams, _) ← parseParamList n
          pure { stA with isFuncPtr := true, fptrParams := some fpParams }
        else pure stA
      pure (name, stB)
    else do
      modify fun st => { st with pos := save }
      pure (none, state)
termination_by structural fuel => fuel

def ppdAbstractArrLoop : Nat → ParamDeclState → PM ParamDeclState
  | 0, st => do exhaust; pure st
  | n + 1, st => do
    if (← peek) = .LBracket then do
      let _ ← advance
      skipArrayQualifiers n
      if (← peek) = .RBracket then do
        let _ ← advance
        ppdAbstractArrLoop n { st with arrayDims := st.arrayDims ++ [none] }
      else do
        let e ← parseExpr n
        let _ ← expect .RBracket
        ppdAbstractArrLoop n
          { st with arrayDims := st.arrayDims ++ [some e] }
    else pure st
termination_by structural fuel => fuel

/-- The `[…]` collection loops of `parseParenParamDeclarator` (with
array qualifiers). -/
def tpadArrQualDimsLoop : Nat → List (Option Expression) →
    PM (List (Option Expression))
  | 0, acc => do exhaust; pure acc
  | n + 1, acc => do
    if (← peek) = .LBracket then do
      let _ ← advance
      skipArrayQualifiers n
      if (← peek) = .RBracket then do
        let _ ← advance
        tpadArrQualDimsLoop n (acc ++ [none])
      else do
        let e ← parseExpr n
        let _ ← expect .RBracket
        tpadArrQualDimsLoop n (acc ++ [some e])
    else pure acc
termination_by structural fuel => fuel

def parseDeclaratorWithAttrs : Nat → PM (Option JsStr ×
    List DerivedDeclarator × Option ModeKind × Bool × Option Int × Bool)
  | 0 => do exhaust; pure (none, [], none, false, none, false)
  | n + 1 => do
    let (prePacked, preAligned, _, _) ← parseGccAttributes n
    let derived ← dwaPtrLoop n []
    let (name, innerDerived) ← do
      let k ← peek
      if k = .Identifier then do
        let nm ← peekValueStr
        let _ ← advance
        pure (some nm, ([] : List DerivedDeclarator))
      else if k = .LParen then do
        if ← isParenDeclarator then do
          let save := (← get).pos
          let _ ← advance
          let (innerName, innerDer) ← parseDeclarator n
          if ← consumeIf .RParen then pure (innerName, innerDer)
          else do
            modify fun st => { st with pos := save }
            pure (none, [])
        else pure (none, [])
      else pure (none, [])
    let outerSuffixes ← dwaSuffixLoop n []
    let combined := combineDeclaratorParts derived innerDerived outerSuffixes
    let (postPacked, postAligned, modeKind, hasCommon) ←
      parseGccAttributes n
    let isPacked := prePacked || postPacked
    let aligned : Option Int := match preAligned, postAligned with
      | some a, some b => some (max a b)
      | some a, none => some a
      | none, some b => some b
      | none, none => none
    pure (name, combined, modeKind, hasCommon, aligned, isPacked)
termination_by structural fuel => fuel

def dwaPtrLoop : Nat → List DerivedDeclarator → PM (List DerivedDeclarator)
  | 0, derived => do exhaust; pure derived
  | n + 1, derived => do
    if ← consumeIf .Star then do
      skipCvQualifiers n
      skipGccExtensions n
      dwaPtrLoop n (derived ++ [.Pointer])
    else pure derived
termination_by structural fuel => fuel

def dwaSuffixLoop : Nat → List DerivedDeclarator →
    PM (List DerivedDeclarator)
  | 0, suffixes => do exhaust; pure suffixes
  | n + 1, suffixes => do
    let cur ← peek
    if cur = .LBracket then do
      let _ ← advance
      skipArrayQualifiers n
      let size ← do
        if (← peek) = .RBracket then pure (none : Option Expression)
        else do
          let isVlaStar ← do
            let k ← peek
            let s ← get
            pure (decide (k = .Star ∧ s.pos + 1 < s.tokens.length ∧
              (s.tokens.getD (s.pos + 1) eofToken).kind = .RBracket))
          if isVlaStar then do
            let _ ← advance
            pure none
          else do
            let e ← parseExpr n
            pure (some e)
      let _ ← expectClosing .RBracket
      dwaSuffixLoop n (suffixes ++ [.Array size])
    else if cur = .LParen then do
      let (params, variadic) ← parseParamList n
      dwaSuffixLoop n (suffixes ++ [.Function params variadic])
    else pure suffixes
termination_by structural fuel => fuel

def parseDeclarator : Nat → PM (Option JsStr × List DerivedDeclarator)
  | 0 => do exhaust; pure (none, [])
  | n + 1 => do
    let (name, derived, _, _, _, _) ← parseDeclaratorWithAttrs n
    pure (name, derived)
termination_by structural fuel => fuel

def parseCompoundStmt : Nat → PM CompoundStmt
  | 0 => do exhaust; pure (.mk (mkMeta 0 0) [] [])
  | n + 1 => do
    let open_ ← peekSpan
    let _ ← expect .LBrace
    let savedShadowed := (← get).shadowedTypedefs
    let savedAttrFlags ← saveAttrFlags
    let localLabels0 ← gnuLabelBlockLoop n []
    let (items, localLabels) ← compoundItemsLoop n [] localLabels0
    let _ ← expectClosing .RBrace
    modify fun st => { st with shadowedTypedefs := savedShadowed }
    restoreAttrFlags savedAttrFlags
    pure (.mk (mkMeta open_.start open_.end_) items localLabels)
termination_by structural fuel => fuel

def compoundItemsLoop : Nat → List BlockItem → List JsStr →
    PM (List BlockItem × List JsStr)
  | 0, items, labels => do exhaust; pure (items, labels)
  | n + 1, items, labels => do
    if (← peek) ≠ .RBrace ∧ (← peek) ≠ .Eof then do
      skipGccExtensions n
      pragmaPackWhile n
      pragmaVisWhile n
      if (← peek) = .RBrace ∨ (← peek) = .Eof then pure (items, labels)
      else if (← peek) = .GnuLabel then do
        let _ ← advance
        let labels' ← gnuLabelNamesLoop n labels
        let _ ← expectAfter .Semicolon
        compoundItemsLoop n items labels'
      else if (← peek) = .StaticAssert then do
        let _ ← parseStaticAssert n
        compoundItemsLoop n items labels
      else do
        let isTS ← isTypeSpecifier
        let isLbl ← isTypedefLabel
        if isTS && !isLbl then do
          match ← parseLocalDeclaration n with
          | some decl => compoundItemsLoop n (items ++ [.decl decl]) labels
          | none => compoundItemsLoop n items labels
        else do
          let stmt ← parseStmt n
          compoundItemsLoop n (items ++ [.stmt stmt]) labels
    else pure (items, labels)
termination_by structural fuel => fuel

def parseStmt : Nat → PM Statement
  | 0 => do exhaust; pure (.ExpressionStatement (mkMeta 0 0) none)
  | n + 1 => do
    skipGccExtensions n
    let isTS ← isTypeSpecifier
    let isLbl ← isTypedefLabel
    if isTS && !isLbl then do
      match ← parseLocalDeclaration n with
      | some decl =>
        pure (.DeclarationStatement
          (mkMeta (declMeta decl).start (declMeta decl).end_) decl)
      | none => pure (.ExpressionStatement (mkMeta 0 0) none)
    else do
      match (← peek) with
      | .Return => do
        let span ← peekSpan
        let _ ← advance
        let expr ← do
          if (← peek) ≠ .Semicolon then do
            let e ← parseExpr n
            pure (some e)
          else pure none
        let _ ← expectAfter .Semicolon
        pure (.ReturnStatement (mkMeta span.start span.end_) expr)
      | .If => do
        let span ← peekSpan
        let _ ← advance
        let _ ← expectContext .LParen
        let cond ← parseExpr n
        let _ ← expectClosing .RParen
        let thenStmt ← parseStmt n
        let elseStmt ← do
          if ← consumeIf .Else then do
            let e ← parseStmt n
            pure (some e)
          else pure none
        pure (.IfStatement (mkMeta span.start span.end_) cond thenStmt elseStmt)
      | .While => do
        let span ← peekSpan
        let _ ← advance
        let _ ← expectContext .LParen
        let cond ← parseExpr n
        let _ ← expectClosing .RParen
        let body ← parseStmt n
        pure (.WhileStatement (mkMeta span.start span.end_) cond body)
      | .Do => do
        let span ← peekSpan
        let _ ← advance
        let body ← parseStmt n
        let _ ← expectAfter .While
        let _ ← expectContext .LParen
        let cond ← parseExpr n
        let _ ← expectClosing .RParen
        let _ ← expectAfter .Semicolon
        pure (.DoWhileStatement (mkMeta span.start span.end_) body cond)
      | .For => parseForStmt n
      | .LBrace => do
        let compound ← parseCompoundStmt n
        pure (.CompoundStatement compound)
      | .Break => do
        let span ← peekSpan
        let _ ← advance
        let _ ← expectAfter .Semicolon
        pure (.BreakStatement (mkMeta span.start span.end_))
      | .Continue => do
        let span ← peekSpan
        let _ ← advance
        let _ ← expectAfter .Semicolon
        pure (.ContinueStatement (mkMeta span.start span.end_))
      | .Switch => do
        let span ← peekSpan
        let _ ← advance
        let _ ← expectContext .LParen
        let expr ← parseExpr n
        let _ ← expectClosing .RParen
        let body ← parseStmt n
        pure (.SwitchStatement (mkMeta span.start span.end_) expr body)
      | .Case => do
        let span ← peekSpan
        let _ ← advance
        let expr ← parseExpr n
        if ← consumeIf .Ellipsis then do
          let high ← parseExpr n
          let _ ← expectContext .Colon
          let stmt ← parseStmt n
          pure (.CaseRangeStatement (mkMeta span.start span.end_) expr high stmt)
        else do
          let _ ← expectContext .Colon
          let stmt ← parseStmt n
          pure (.CaseStatement (mkMeta span.start span.end_) expr stmt)
      | .Default => do
        let span ← peekSpan
        let _ ← advance
        let _ ← expectContext .Colon
        let stmt ← parseStmt n
        pure (.DefaultStatement (mkMeta span.start span.end_) stmt)
      | .Goto => do
        let span ← peekSpan
        let _ ← advance
        if (← peek) = .Star then do
          let _ ← advance
          let expr ← parseExpr n
          let _ ← expectAfter .Semicolon
          pure (.GotoIndirectStatement (mkMeta span.start span.end_) expr)
        else do
          let label ← do
            if (← peek) = .Identifier then do
              let l ← peekValueStr
              let _ ← advance
              pure l
            else pure []
          let _ ← expectAfter .Semicolon
          pure (.GotoStatement (mkMeta span.start span.end_) label)
      | .Identifier => do
        let nameVal ← peekValueStr
        let span ← peekSpan
        let s ← get
        if s.pos + 1 < s.tokens.length ∧
            (s.tokens.getD (s.pos + 1) eofToken).kind = .Colon then do
          let _ ← advance
          let _ ← advance
          skipLabelAttributes n
          let stmt ← parseStmt n
          pure (.LabelStatement (mkMeta span.start span.end_) nameVal stmt)
        else do
          let expr ← parseExpr n
          let _ ← expectAfter .Semicolon
          pure (.ExpressionStatement (mkMeta span.start span.end_) (some expr))
      | .Asm => parseInlineAsm n
      | .Semicolon => do
        let span ← peekSpan
        let _ ← advance
        pure (.ExpressionStatement (mkMeta span.start span.end_) none)
      | _ => do
        let span ← peekSpan
        let expr ← parseExpr n
        let _ ← expectAfter .Semicolon
        pure (.ExpressionStatement (mkMeta span.start span.end_) (some expr))
termination_by structural fuel => fuel

def parseForStmt : Nat → PM Statement
  | 0 => do exhaust; pure (.ExpressionStatement (mkMeta 0 0) none)
  | n + 1 => do
    let span ← peekSpan
    let _ ← advance
    let _ ← expectContext .LParen
    let savedShadowed := (← get).shadowedTypedefs
    let savedAttrFlags ← saveAttrFlags
    let init ← do
      if (← peek) = .Semicolon then do
        let _ ← advance
        pure (none : Option ForInit)
      else do
        let isTS ← isTypeSpecifier
        let isLbl ← isTypedefLabel
        if isTS && !isLbl then do
          match ← parseLocalDeclaration n with
          | some decl => pure (some (.Declaration decl))
          | none => pure none
        else do
          let expr ← parseExpr n
          let _ ← expectAfter .Semicolon
          pure (some (.Expression expr))
    let condition ← do
      if (← peek) ≠ .Semicolon then do
        let e ← parseExpr n
        pure (some e)
      else pure none
    let _ ← expectAfter .Semicolon
    let update ← do
      if (← peek) ≠ .RParen then do
        let e ← parseExpr n
        pure (some e)
      else pure none
    let _ ← expectClosing .RParen
    let body ← parseStmt n
    modify fun st => { st with shadowedTypedefs := savedShadowed }
    restoreAttrFlags savedAttrFlags
    pure (.ForStatement (mkMeta span.start span.end_) init condition update body)
termination_by structural fuel => fuel

def parseInlineAsm : Nat → PM Statement
  | 0 => do exhaust; pure (.ExpressionStatement (mkMeta 0 0) none)
  | n + 1 => do
    let span ← peekSpan
    let _ ← advance
    let isGoto ← asmQualLoop n false
    let _ ← expectContext .LParen
    let template ← parseAsmString n []
    let (outputs, inputs, clobbers, gotoLabels) ← do
      if ← consumeIf .Colon then do
        let outputs ← do
          if (← peek) ≠ .Colon ∧ (← peek) ≠ .RParen then
            parseAsmOperands n
          else pure []
        if ← consumeIf .Colon then do
          let inputs ← do
            if (← peek) ≠ .Colon ∧ (← peek) ≠ .RParen then
              parseAsmOperands n
            else pure []
          if ← consumeIf .Colon then do
            let clobbers ← do
              if (← peek) ≠ .Colon ∧ (← peek) ≠ .RParen then
                parseAsmClobbers n []
              else pure []
            if isGoto then do
              if ← consumeIf .Colon then do
                let gl ← do
                  if (← peek) ≠ .RParen then parseAsmGotoLabels n []
                  else pure []
                pure (outputs, inputs, clobbers, gl)
              else pure (outputs, inputs, clobbers, [])
            else pure (outputs, inputs, clobbers, [])
          else pure (outputs, inputs, [], [])
        else pure (outputs, [], [], [])
      else pure ([], [], [], [])
    let _ ← expectClosing .RParen
    let _ ← expectAfter .Semicolon
    pure (.InlineAsmStatement (mkMeta span.start span.end_) template outputs
      inputs clobbers gotoLabels)
termination_by structural fuel => fuel

def parseAsmOperands : Nat → PM (List AsmOperand)
  | 0 => do exhaust; pure []
  | n + 1 => do
    let op ← parseOneAsmOperand n
    asmOperandsLoop n [op]
termination_by structural fuel => fuel

def asmOperandsLoop : Nat → List AsmOperand → PM (List AsmOperand)
  | 0, acc => do exhaust; pure acc
  | n + 1, acc => do
    if ← consumeIf .Comma then do
      if (← peek) = .Colon ∨ (← peek) = .RParen then pure acc
      else do
        let op ← parseOneAsmOperand n
        asmOperandsLoop n (acc ++ [op])
    else pure acc
termination_by structural fuel => fuel

def parseOneAsmOperand : Nat → PM AsmOperand
  | 0 => do exhaust; pure (.mk none [] (.IntLiteral (mkMeta 0 0) 0))
  | n + 1 => do
    let name ← do
      if (← peek) = .LBracket then do
        let _ ← advance
        let nm ← do
          if (← peek) = .Identifier then do
            let v ← peekValue
            let _ ← advance
            pure (match v with
              | some (.str s) => some s
              | _ => none)
          else pure none
        let _ ← expectClosing .RBracket
        pure nm
      else pure none
    let constraint ← parseAsmString n []
    let _ ← expectContext .LParen
    let expr ← parseExpr n
    let _ ← expectClosing .RParen
    pure (.mk name constraint expr)
termination_by structural fuel => fuel

def parseExternalDecl : Nat → PM (Option ExternalDeclaration)
  | 0 => do exhaust; pure none
  | n + 1 => do
    modify fun st => { st with attrs := defaultAttrs }
    skipGccExtensions n
    pragmaPackWhile n
    pragmaVisWhile n
    if ← atEof then pure none
    else if (← peek) = .Asm then do
      let _ ← advance
      let _ ← consumeIf .Volatile
      if (← peek) = .LParen then do
        let _ ← advance
        let asmStr ← topAsmStrLoop n []
        if (← peek) = .RParen then do
          let _ ← advance
          pure ()
        else pure ()
        let _ ← consumeIf .Semicolon
        if decide (asmStr.length > 0) then do
          let span ← peekSpan
          pure (some (.asm
            { meta := mkMeta span.start span.end_
              asm := asmStr }))
        else pure (some (.decl (emptyDeclaration none)))
      else do
        let _ ← consumeIf .Semicolon
        pure (some (.decl (emptyDeclaration none)))
    else if (← peek) = .StaticAssert then do
      let span ← parseStaticAssert n
      pure (some (.decl (emptyDeclaration (some span))))
    else do
      let start ← peekSpan
      let ts0 ← parseTypeSpecifier n
      let typeSpecOpt ← do
        match ts0 with
        | some t => pure (some t)
        | none => do
          let s ← get
          if (← peek) = .Identifier ∧ s.pos + 1 < s.tokens.length ∧
              (s.tokens.getD (s.pos + 1) eofToken).kind = .LParen then
            pure (some (TypeSpecifier.IntType noSpanMeta))
          else pure none
      match typeSpecOpt with
      | none => pure none
      | some typeSpec => do
        let typeLevelCtor ← getAttrFlag ATTR_CONSTRUCTOR
        let typeLevelDtor ← getAttrFlag ATTR_DESTRUCTOR
        let bareEnd ← do
          if ← atEof then
            if (← peek) = .Semicolon then do
              let e ← expectAfter .Semicolon
              pure (some e)
            else pure (some start)
          else if (← peek) = .Semicolon then do
            let e ← expectAfter .Semicolon
            pure (some e)
          else pure none
        match bareEnd with
        | some declEnd => do
          let s2 ← get
          let fIsStatic ← getAttrFlag ATTR_STATIC
          let fIsExtern ← getAttrFlag ATTR_EXTERN
          let fIsTypedef ← getAttrFlag ATTR_TYPEDEF
          let fIsConst ← getAttrFlag ATTR_CONST
          let fIsVolatile ← getAttrFlag ATTR_VOLATILE
          let fIsTL ← getAttrFlag ATTR_THREAD_LOCAL
          pure (some (.decl (.mk (mkMeta start.start declEnd.end_) typeSpec []
            fIsStatic fIsExtern fIsTypedef fIsConst fIsVolatile false
            fIsTL false false none none none s2.attrs.parsingAddressSpace
            s2.attrs.parsingVectorSize s2.attrs.parsingExtVectorNelem)))
        | none => do
          consumePostTypeQualifiers n
          let (name, derived, declMode, declCommon, declAligned, _ip) ←
            parseDeclaratorWithAttrs n
          let firstAsmReg ← parseAsmRegister
          let (_postPacked, postAligned, postMode, _ptu) ←
            parseGccAttributes n
          let modeKind := match declMode with
            | some m => some m
            | none => postMode
          let s1 ← get
          let mergedAlignment :=
            mergeAligns (mergeAligns s1.attrs.parsedAlignas declAligned)
              postAligned
          let alignasType := s1.attrs.parsedAlignasType
          let alignmentSizeofType := s1.attrs.parsedAlignmentSizeofType
          let ctorFlag ← getAttrFlag ATTR_CONSTRUCTOR
          let dtorFlag ← getAttrFlag ATTR_DESTRUCTOR
          let isWeak ← getAttrFlag ATTR_WEAK
          let s2 ← get
          let visibility := match s2.attrs.parsingVisibility with
            | some v => some v
            | none => s2.pragmaDefaultVisibility
          let isErrorAttr ← getAttrFlag ATTR_ERROR_ATTR
          let isNoreturn ← getAttrFlag ATTR_NORETURN
          let isUsed ← getAttrFlag ATTR_USED
          let isFastcall ← getAttrFlag ATTR_FASTCALL
          let isNaked ← getAttrFlag ATTR_NAKED
          let declAttrs : DeclAttributes :=
            { isConstructor := typeLevelCtor || ctorFlag,
              isDestructor := typeLevelDtor || dtorFlag,
              isWeak := isWeak, isErrorAttr := isErrorAttr,
              isNoreturn := isNoreturn, isUsed := isUsed,
              isFastcall := isFastcall, isNaked := isNaked,
              aliasTarget := s2.attrs.parsingAliasTarget,
              visibility := visibility,
              section_ := s2.attrs.parsingSection,
              asmRegister := firstAsmReg,
              cleanupFn := s2.attrs.parsingCleanupFn,
              symver := s2.attrs.parsingSymver }
          let typeSpec2 := match modeKind with
            | some mKind => applyModeKind mKind typeSpec
            | none => typeSpec
          let isFuncdef ← do
            match derived.getLast? with
            | some (.Function _ _) => do
              if (← peek) = .LBrace then pure true
              else isTypeSpecifier
            | _ => pure false
          if isFuncdef then
            parseFunctionDef n typeSpec2 name derived start declAttrs
          else do
            let ctx : DeclContext :=
              { attrs := declAttrs, alignment := mergedAlignment,
                alignasType := alignasType,
                alignmentSizeofType := alignmentSizeofType,
                isCommon := declCommon }
            parseDeclarationRest n typeSpec2 name derived start ctx
termination_by structural fuel => fuel

def parseFunctionDef : Nat → TypeSpecifier → Option JsStr →
    List DerivedDeclarator → Span → DeclAttributes →
    PM (Option ExternalDeclaration)
  | 0, _, _, _, _, _ => do exhaust; pure none
  | n + 1, typeSpec, name, derived, startPos, declAttrs => do
    setAttrFlag ATTR_TYPEDEF false
    let (params0, variadic) := match derived.getLast? with
      | some (.Function ps v) => (ps, v)
      | _ => ([], false)
    let k ← peek
    let isKrStyle := decide (k ≠ .LBrace)
    let finalParams ←
      if isKrStyle then parseKrParams n params0 else pure params0
    let isStatic ← getAttrFlag ATTR_STATIC
    let isInline ← getAttrFlag ATTR_INLINE
    let isExtern ← getAttrFlag ATTR_EXTERN
    let isGnuInline ← getAttrFlag ATTR_GNU_INLINE
    let isAlwaysInline ← getAttrFlag ATTR_ALWAYS_INLINE
    let isNoinline ← getAttrFlag ATTR_NOINLINE
    let returnType := buildReturnType typeSpec derived
    let savedShadowed := (← get).shadowedTypedefs
    finalParams.forM fun p => match p with
      | .mk _ (some pname) _ _ _ _ => do
        let s ← get
        if s.typedefs.contains pname ∧
            ¬(s.shadowedTypedefs.contains pname) then
          modify fun st =>
            { st with
              shadowedTypedefs := jsSetAdd st.shadowedTypedefs pname }
        else pure ()
      | _ => pure ()
    setAttrFlag ATTR_NORETURN false
    let body ← parseCompoundStmt n
    modify fun st => { st with shadowedTypedefs := savedShadowed }
    let funcAttrs : FunctionAttributes :=
      { isStatic := isStatic, isInline := isInline, isExtern := isExtern,
        isGnuInline := isGnuInline, isAlwaysInline := isAlwaysInline,
        isNoinline := isNoinline, isConstructor := declAttrs.isConstructor,
        isDestructor := declAttrs.isDestructor, isWeak := declAttrs.isWeak,
        isUsed := declAttrs.isUsed, isFastcall := declAttrs.isFastcall,
        isNaked := declAttrs.isNaked, isNoreturn := declAttrs.isNoreturn,
        section_ := declAttrs.section_, visibility := declAttrs.visibility,
        symver := declAttrs.symver }
    pure (some (.func
      { meta := mkMeta startPos.start startPos.end_
        returnType := returnType, name := name.getD []
        params := finalParams, variadic := variadic, body := body
        attrs := funcAttrs, isKr := isKrStyle }))
termination_by structural fuel => fuel

def parseKrParams : Nat → List ParamDeclaration →
    PM (List ParamDeclaration)
  | 0, result => do exhaust; pure result
  | n + 1, result => do
    let isTS ← isTypeSpecifier
    let k ← peek
    if isTS && decide (k ≠ .LBrace) then do
      match ← parseTypeSpecifier n with
      | none => pure result
      | some ts => do
        let result' ← krDeclLoop n ts result
        let _ ← expectAfter .Semicolon
        parseKrParams n result'
    else pure result
termination_by structural fuel => fuel

def krDeclLoop : Nat → TypeSpecifier → List ParamDeclaration →
    PM (List ParamDeclaration)
  | 0, _, result => do exhaust; pure result
  | n + 1, ts, result => do
    let (pname, pderived, _, _, _, _) ← parseDeclaratorWithAttrs n
    let result' := match pname with
      | some nm =>
        let (fullType, fptrParams) := applyKrDerivations ts pderived
        let innerDepth : Int := match fptrParams with
          | some _ => 1 + Int.ofNat (krPtrsAfter pderived)
          | none => 0
        krUpdateParam result nm fullType fptrParams innerDepth
      | none => result
    if ← consumeIf .Comma then krDeclLoop n ts result'
    else pure result'
termination_by structural fuel => fuel

def parseDeclarationRest : Nat → TypeSpecifier → Option JsStr →
    List DerivedDeclarator → Span → DeclContext →
    PM (Option ExternalDeclaration)
  | 0, _, _, _, _, _ => do exhaust; pure none
  | n + 1, typeSpec, name, derived, startPos, ctx => do
    let init ← do
      if ← consumeIf .Assign then do
        let i ← parseInitializer n
        pure (some i)
      else pure none
    let sectionFromFirst := ctx.attrs.section_
    let extraAsmReg ← parseAsmRegister
    let (_xp, extraAligned, _xm, _xtu) ← parseGccAttributes n
    let s ← get
    let a0 := ctx.attrs
    let ctorFlag ← getAttrFlag ATTR_CONSTRUCTOR
    let dtorFlag ← getAttrFlag ATTR_DESTRUCTOR
    let weakFlag ← getAttrFlag ATTR_WEAK
    let usedFlag ← getAttrFlag ATTR_USED
    let noretFlag ← getAttrFlag ATTR_NORETURN
    let fastFlag ← getAttrFlag ATTR_FASTCALL
    let nakedFlag ← getAttrFlag ATTR_NAKED
    let errFlag ← getAttrFlag ATTR_ERROR_ATTR
    let a1 : DeclAttributes :=
      { a0 with
        asmRegister := match extraAsmReg with
          | some r => some r
          | none => a0.asmRegister,
        isConstructor := a0.isConstructor || ctorFlag,
        isDestructor := a0.isDestructor || dtorFlag,
        isWeak := a0.isWeak || weakFlag,
        aliasTarget :=
          if optStrTruthy s.attrs.parsingAliasTarget then
            s.attrs.parsingAliasTarget
          else a0.aliasTarget,
        visibility :=
          if optStrTruthy s.attrs.parsingVisibility then
            s.attrs.parsingVisibility
          else a0.visibility,
        section_ :=
          if optStrTruthy s.attrs.parsingSection then
            s.attrs.parsingSection
          else a0.section_,
        cleanupFn :=
          if optStrTruthy s.attrs.parsingCleanupFn then
            s.attrs.parsingCleanupFn
          else a0.cleanupFn,
        isUsed := a0.isUsed || usedFlag,
        isNoreturn := a0.isNoreturn || noretFlag,
        isFastcall := a0.isFastcall || fastFlag,
        isNaked := a0.isNaked || nakedFlag,
        isErrorAttr := a0.isErrorAttr || errFlag }
    let firstDecl : InitDeclarator :=
      .mk (mkMeta startPos.start startPos.end_) (name.getD []) derived init a1
    setAttrFlag ATTR_WEAK false
    modify fun st => { st with attrs := { st.attrs with
      parsingAliasTarget := none, parsingVisibility := none,
      parsingSection := none } }
    setAttrFlag ATTR_ERROR_ATTR false
    setAttrFlag ATTR_NORETURN false
    modify fun st =>
      { st with attrs := { st.attrs with parsingCleanupFn := none } }
    setAttrFlag ATTR_USED false
    setAttrFlag ATTR_FASTCALL false
    setAttrFlag ATTR_NAKED false
    let ctxAlignment1 := mergeAligns ctx.alignment extraAligned
    let (declarators, ctxAlignment) ← declRestCommaLoop n startPos
      sectionFromFirst [firstDecl] ctxAlignment1
    let isTypedef ← getAttrFlag ATTR_TYPEDEF
    let isTransparentUnion ← getAttrFlag ATTR_TRANSPARENT_UNION
    setAttrFlag ATTR_TRANSPARENT_UNION false
    registerTypedefs declarators
    let declEnd ← expectAfter .Semicolon
    let s3 ← get
    let dIsStatic ← getAttrFlag ATTR_STATIC
    let dIsExtern ← getAttrFlag ATTR_EXTERN
    let dIsConst ← getAttrFlag ATTR_CONST
    let dIsVolatile ← getAttrFlag ATTR_VOLATILE
    let dIsTL ← getAttrFlag ATTR_THREAD_LOCAL
    let dIsInline ← getAttrFlag ATTR_INLINE
    pure (some (.decl (.mk (mkMeta startPos.start declEnd.end_) typeSpec
      declarators dIsStatic dIsExtern isTypedef dIsConst dIsVolatile
      ctx.isCommon dIsTL isTransparentUnion dIsInline ctxAlignment
      ctx.alignasType ctx.alignmentSizeofType s3.attrs.parsingAddressSpace
      s3.attrs.parsingVectorSize s3.attrs.parsingExtVectorNelem)))
termination_by structural fuel => fuel

def declRestCommaLoop : Nat → Span → Option JsStr →
    List InitDeclarator → Option Int →
    PM (List InitDeclarator × Option Int)
  | 0, _, _, declarators, al => do exhaust; pure (declarators, al)
  | n + 1, startPos, sectionFromFirst, declarators, ctxAlign => do
    if ← consumeIf .Comma then do
      let (dname, dderived, _, _, _, _) ← parseDeclaratorWithAttrs n
      let dAsmReg ← parseAsmRegister
      let _ ← parseGccAttributes n
      let dWeak ← getAttrFlag ATTR_WEAK
      let s ← get
      let dAlias := s.attrs.parsingAliasTarget
      let dVis := match s.attrs.parsingVisibility with
        | some v => some v
        | none => s.pragmaDefaultVisibility
      let dSection := match s.attrs.parsingSection with
        | some v => some v
        | none => sectionFromFirst
      let dCleanupFn := s.attrs.parsingCleanupFn
      let dUsed ← getAttrFlag ATTR_USED
      let dNoreturn ← getAttrFlag ATTR_NORETURN
      let dErrorAttr ← getAttrFlag ATTR_ERROR_ATTR
      setAttrFlag ATTR_WEAK false
      setAttrFlag ATTR_USED false
      setAttrFlag ATTR_FASTCALL false
      setAttrFlag ATTR_NAKED false
      setAttrFlag ATTR_NORETURN false
      setAttrFlag ATTR_ERROR_ATTR false
      let dinit ← do
        if ← consumeIf .Assign then do
          let i ← parseInitializer n
          pure (some i)
        else pure none
      let dFastcall ← getAttrFlag ATTR_FASTCALL
      let dCtor ← getAttrFlag ATTR_CONSTRUCTOR
      let dDtor ← getAttrFlag ATTR_DESTRUCTOR
      let dAttrs : DeclAttributes :=
        { isConstructor := dCtor, isDestructor := dDtor, isWeak := dWeak,
          isErrorAttr := dErrorAttr, isNoreturn := dNoreturn,
          isUsed := dUsed, isFastcall := dFastcall, isNaked := false,
          aliasTarget := dAlias, visibility := dVis, section_ := dSection,
          asmRegister := dAsmReg, cleanupFn := dCleanupFn, symver := none }
      let newDecl : InitDeclarator :=
        .mk (mkMeta startPos.start startPos.end_) (dname.getD []) dderived dinit
          dAttrs
      let trailingReg ← parseAsmRegister
      let newDecl2 := match trailingReg, newDecl with
        | some r, .mk m nm dv i a =>
          .mk m nm dv i { a with asmRegister := some r }
        | none, d => d
      let (_, skipAligned2, _, _) ← parseGccAttributes n
      let ctxAlign' := mergeAligns ctxAlign skipAligned2
      declRestCommaLoop n startPos sectionFromFirst
        (declarators ++ [newDecl2]) ctxAlign'
    else pure (declarators, ctxAlign)
termination_by structural fuel => fuel

def parseLocalDeclaration : Nat → PM (Option Declaration)
  | 0 => do exhaust; pure none
  | n + 1 => do
    let savedFlags ← saveAttrFlags
    setAttrFlag ATTR_STATIC false
    setAttrFlag ATTR_EXTERN false
    setAttrFlag ATTR_TYPEDEF false
    setAttrFlag ATTR_INLINE false
    setAttrFlag ATTR_THREAD_LOCAL false
    setAttrFlag ATTR_CONST false
    setAttrFlag ATTR_VOLATILE false
    modify fun st =>
      { st with attrs := { st.attrs with parsingAddressSpace := .Default } }
    skipGccExtensions n
    if (← peek) = .StaticAssert then do
      let span ← parseStaticAssert n
      restoreAttrFlags savedFlags
      pure (some (emptyDeclaration (some span)))
    else do
      let start ← peekSpan
      match ← parseTypeSpecifier n with
      | none => do
        restoreAttrFlags savedFlags
        pure none
      | some typeSpec0 => do
        if (← peek) = .Semicolon then do
          let declEnd ← peekSpan
          let _ ← advance
          let bIsStatic ← getAttrFlag ATTR_STATIC
          let bIsExtern ← getAttrFlag ATTR_EXTERN
          let bIsTypedef ← getAttrFlag ATTR_TYPEDEF
          let bIsConst ← getAttrFlag ATTR_CONST
          let bIsVolatile ← getAttrFlag ATTR_VOLATILE
          let bIsTL ← getAttrFlag ATTR_THREAD_LOCAL
          restoreAttrFlags savedFlags
          pure (some (.mk (mkMeta start.start declEnd.end_) typeSpec0 []
            bIsStatic bIsExtern bIsTypedef bIsConst bIsVolatile false
            bIsTL false false none none none .Default none none))
        else do
          consumePostTypeQualifiers n
          let isStatic ← getAttrFlag ATTR_STATIC
          let isExtern ← getAttrFlag ATTR_EXTERN
          let alignment0 := (← get).attrs.parsedAlignas
          let (declarators, alignment1, modeKind) ←
            localDeclLoop n start [] alignment0 none
          let typeSpec := match modeKind with
            | some mKind => applyModeKind mKind typeSpec0
            | none => typeSpec0
          let isTypedef ← getAttrFlag ATTR_TYPEDEF
          if isTypedef then do
            declarators.forM fun d => match d with
              | .mk _ nm _ _ _ =>
                if nm ≠ [] then
                  modify fun st =>
                    { st with
                      typedefs := jsSetAdd st.typedefs nm
                      shadowedTypedefs :=
                        jsSetDelete st.shadowedTypedefs nm }
                else pure ()
            setAttrFlag ATTR_TYPEDEF false
          else
            declarators.forM fun d => match d with
              | .mk _ nm _ _ _ => do
                let s ← get
                if nm ≠ [] ∧ s.typedefs.contains nm then
                  modify fun st =>
                    { st with shadowedTypedefs :=
                        jsSetAdd st.shadowedTypedefs nm }
                else pure ()
          let declEnd ← expectAfter .Semicolon
          let s ← get
          let alignment2 := match s.attrs.parsedAlignas with
            | some a => some (match alignment1 with
              | some x => max x a
              | none => a)
            | none => alignment1
          match s.attrs.parsedAlignas with
          | some _ =>
            modify fun st =>
              { st with attrs := { st.attrs with parsedAlignas := none } }
          | none => pure ()
          let alignasType := (← get).attrs.parsedAlignasType
          modify fun st =>
            { st with attrs := { st.attrs with parsedAlignasType := none } }
          let alignmentSizeofType := (← get).attrs.parsedAlignmentSizeofType
          modify fun st =>
            { st with attrs :=
                { st.attrs with parsedAlignmentSizeofType := none } }
          let isTransparentUnion ← getAttrFlag ATTR_TRANSPARENT_UNION
          setAttrFlag ATTR_TRANSPARENT_UNION false
          let lIsConst ← getAttrFlag ATTR_CONST
          let lIsVolatile ← getAttrFlag ATTR_VOLATILE
          let lIsTL ← getAttrFlag ATTR_THREAD_LOCAL
          let s4 ← get
          let d : Declaration := .mk (mkMeta start.start declEnd.end_) typeSpec
            declarators isStatic isExtern isTypedef lIsConst lIsVolatile
            false lIsTL isTransparentUnion false alignment2 alignasType
            alignmentSizeofType s4.attrs.parsingAddressSpace
            s4.attrs.parsingVectorSize s4.attrs.parsingExtVectorNelem
          restoreAttrFlags savedFlags
          pure (some d)
termination_by structural fuel => fuel

def localDeclLoop : Nat → Span → List InitDeclarator → Option Int →
    Option ModeKind →
    PM (List InitDeclarator × Option Int × Option ModeKind)
  | 0, _, declarators, al, mKind => do exhaust; pure (declarators, al, mKind)
  | n + 1, start, declarators, alignment, modeKind => do
    let (dname, dderived, dMode, _dCommon, dAligned, _dPacked) ←
      parseDeclaratorWithAttrs n
    let dAsmReg ← parseAsmRegister
    let (_sp, skipAligned, skipMode, _stu) ← parseGccAttributes n
    let s ← get
    let localCleanupFn := s.attrs.parsingCleanupFn
    modify fun st =>
      { st with attrs := { st.attrs with parsingCleanupFn := none } }
    let localSection := (← get).attrs.parsingSection
    modify fun st =>
      { st with attrs := { st.attrs with parsingSection := none } }
    let modeKind2 := match modeKind with
      | some m => some m
      | none => match dMode with
        | some m => some m
        | none => skipMode
    let alignment2 := mergeAligns (mergeAligns alignment dAligned)
      skipAligned
    let dinit ← do
      if ← consumeIf .Assign then do
        let i ← parseInitializer n
        pure (some i)
      else pure none
    let dCtor ← getAttrFlag ATTR_CONSTRUCTOR
    let dDtor ← getAttrFlag ATTR_DESTRUCTOR
    let dWeak ← getAttrFlag ATTR_WEAK
    let dErr ← getAttrFlag ATTR_ERROR_ATTR
    let dNoret ← getAttrFlag ATTR_NORETURN
    let dUsed ← getAttrFlag ATTR_USED
    let dFast ← getAttrFlag ATTR_FASTCALL
    let dNaked ← getAttrFlag ATTR_NAKED
    let s2 ← get
    let dVis := match s2.attrs.parsingVisibility with
      | some v => some v
      | none => s2.pragmaDefaultVisibility
    let dAttrs : DeclAttributes :=
      { isConstructor := dCtor, isDestructor := dDtor, isWeak := dWeak,
        isErrorAttr := dErr, isNoreturn := dNoret, isUsed := dUsed,
        isFastcall := dFast, isNaked := dNaked,
        aliasTarget := s2.attrs.parsingAliasTarget, visibility := dVis,
        section_ := localSection, asmRegister := dAsmReg,
        cleanupFn := localCleanupFn, symver := s2.attrs.parsingSymver }
    let newDecl : InitDeclarator :=
      .mk (mkMeta start.start start.end_) (dname.getD []) dderived dinit dAttrs
    let _ ← parseAsmRegister
    let (_, postInitAligned, _, _) ← parseGccAttributes n
    let alignment3 := mergeAligns alignment2 postInitAligned
    if ← consumeIf .Comma then
      localDeclLoop n start (declarators ++ [newDecl]) alignment3 modeKind2
    else pure (declarators ++ [newDecl], alignment3, modeKind2)
termination_by structural fuel => fuel

def parseInitializer : Nat → PM Initializer
  | 0 => do exhaust; pure (.Expr (.IntLiteral (mkMeta 0 0) 0))
  | n + 1 => do
    if (← peek) ≠ .LBrace then do
      let expr ← parseAssignmentExpr n
      pure (.Expr expr)
    else do
      let _ ← advance
      let items ← initItemsLoop n []
      let _ ← expectClosing .RBrace
      let s ← get
      let enumConsts :=
        if decide (s.enumConstants.length > 0) then some s.enumConstants
        else none
      pure (.List (expandRangeDesignators items enumConsts))
termination_by structural fuel => fuel

def initItemsLoop : Nat → List InitializerItem → PM (List InitializerItem)
  | 0, items => do exhaust; pure items
  | n + 1, items => do
    let k ← peek
    let e ← atEof
    if decide (k ≠ .RBrace) && !e then do
      let designators ← designatorsLoop n []
      let designators2 ← do
        if designators.length = 0 then do
          let s ← get
          if (← peek) = .Identifier ∧ s.pos + 1 < s.tokens.length ∧
              (s.tokens.getD (s.pos + 1) eofToken).kind = .Colon then do
            let fieldName ← peekValueStr
            let _ ← advance
            let _ ← advance
            pure [Designator.Field fieldName]
          else pure designators
        else pure designators
      if decide (designators2.length > 0) then do
        let _ ← consumeIf .Assign
        pure ()
      else pure ()
      let init ← parseInitializer n
      let items' := items ++ [InitializerItem.mk designators2 init]
      if ← consumeIf .Comma then initItemsLoop n items'
      else pure items'
    else pure items
termination_by structural fuel => fuel

def designatorsLoop : Nat → List Designator → PM (List Designator)
  | 0, acc => do exhaust; pure acc
  | n + 1, acc => do
    let k ← peek
    if k = .LBracket then do
      let _ ← advance
      let indexExpr ← parseAssignmentExpr n
      if (← peek) = .Ellipsis then do
        let _ ← advance
        let hiExpr ← parseAssignmentExpr n
        let _ ← expectClosing .RBracket
        designatorsLoop n (acc ++ [.Range indexExpr hiExpr])
      else do
        let _ ← expectClosing .RBracket
        designatorsLoop n (acc ++ [.Index indexExpr])
    else if k = .Dot then do
      let _ ← advance
      if (← peek) = .Identifier then do
        let fieldName ← peekValueStr
        let _ ← advance
        designatorsLoop n (acc ++ [.Field fieldName])
      else do
        let _ ← advance
        designatorsLoop n acc
    else pure acc
termination_by structural fuel => fuel

def parseStaticAssert : Nat → PM Span
  | 0 => do exhaust; pure ⟨0, 0⟩
  | n + 1 => do
    let begin_ ← peekSpan
    let _ ← advance
    let _ ← expectContext .LParen
    let condExpr ← parseAssignmentExpr n
    let _message ← do
      if ← consumeIf .Comma then do
        let msg ← staticAssertMsgLoop n []
        pure (some msg)
      else pure (none : Option JsStr)
    let close ← expectClosing .RParen
    let endOff ← do
      if (← peek) = .Semicolon then do
        let semi ← peekSpan
        let _ ← advance
        pure semi.end_
      else pure close.end_
    let s ← get
    let enumConsts :=
      if decide (s.enumConstants.length > 0) then some s.enumConstants
      else none
    let tagAligns :=
      if decide (s.structTagAlignments.length > 0) then
        some s.structTagAlignments
      else none
    let val := evalConstIntExprWithEnums condExpr enumConsts tagAligns
    if val = some 0 then emitError else pure ()
    pure ⟨begin_.start, endOff⟩
termination_by structural fuel => fuel

end

end Parser

/-! ## The `parse` entry point (`src/index.ts`) -/

structure ParseOptions where
  gnuExtensions : Option Bool := none
  loc : Option Bool := none

/-- The `while (!parser.atEof())` driver loop of `parse`. -/
def parseDriverLoop : Nat → List ExternalDeclaration →
    PM (List ExternalDeclaration)
  | 0, acc => do exhaust; pure acc
  | n + 1, acc => do
    if ¬(← Parser.atEof) then do
      match ← Parser.parseExternalDecl n with
      | some decl => parseDriverLoop n (acc ++ [decl])
      | none => do
        if ¬(← Parser.atEof) then do
          let _ ← Parser.advance
          pure ()
        else pure ()
        parseDriverLoop n acc
    else pure acc

/-- `parse(source, options)`; the `TranslationUnit` is built with
`start: 0, end: source.length` and no `loc` field, then
`normalizeAstLocations` rewrites the tree.  The final parser state is
returned alongside so that runs can be checked fuel-clean
(`fuelExhausted = false`). -/
def parse (source : JsStr) (options : Option ParseOptions) (fuel : Nat) :
    TranslationUnit × Parser :=
  let gnuExtensions := match options with
    | some o => o.gnuExtensions.getD true
    | none => true
  let includeLoc := match options with
    | some o => o.loc.getD false
    | none => false
  let tokens := Scanner.scan source gnuExtensions
  let (decls, st) := (parseDriverLoop fuel []).run (Parser.init tokens)
  let ast : TranslationUnit :=
    { meta := { start := 0, end_ := source.length, loc := none },
      decls := decls }
  (normalizeAstLocations ast source includeLoc, st)

/-! ## Claim theorems -/

open Scanner in
/-- C3: for every input string (a JS string, i.e. a sequence of 16-bit
code units) and every `gnuExtensions` flag, `scan` terminates (it is a
total Lean function, defined without fuel) and never throws (the
embedding has no exceptional path), and the returned token list is an
`Eof`-free prefix followed by exactly one `Eof` token — the last
element — whose span is `[len, len]`.  Moreover a byte that starts no
recognized token produces no token: at any token-start position whose
character opens no token class, `nextToken` returns exactly what it
returns one position further. -/
theorem C3_scan_contract (src : JsStr) (gnuExtensions : Bool)
    (hwf : JsWF src) :
    (∃ pre, scan src gnuExtensions =
        pre ++ [{ kind := .Eof, start := src.length,
                  end_ := src.length }] ∧
      ∀ t ∈ pre, t.kind ≠ .Eof) ∧
    (∀ pos, pos < src.length → skipWsLoop src pos = pos →
      ¬(isDigit (chAt src pos) = true ∨
        (chAt src pos = CH_DOT ∧ pos + 1 < src.length ∧
         isDigit (chAt src (pos + 1)) = true)) →
      ¬(chAt src pos = CH_DQUOTE) → ¬(chAt src pos = CH_SQUOTE) →
      ¬(isIdentStart (chAt src pos) = true) →
      punctSwitch src pos = none →
      nextToken src gnuExtensions pos =
        nextToken src gnuExtensions (pos + 1)) := by
  constructor
  · exact scanFrom_eof src gnuExtensions hwf src.length 0 (by omega) (by omega)
  · intro pos hlt hskip hnum hdq hsq hid hps
    exact nextToken_skips_unknown src gnuExtensions pos hlt hskip hnum hdq
      hsq hid hps

open Scanner in
/-- Witness: the C3 contract instantiated at the concrete source `"@"`,
whose only byte starts no recognized token. -/
theorem C3_scan_contract_witness :
    JsWF (litStr "@") ∧
    ((∃ pre, scan (litStr "@") true =
        pre ++ [{ kind := .Eof, start := (litStr "@").length,
                  end_ := (litStr "@").length }] ∧
      ∀ t ∈ pre, t.kind ≠ .Eof) ∧
    (∀ pos, pos < (litStr "@").length → skipWsLoop (litStr "@") pos = pos →
      ¬(isDigit (chAt (litStr "@") pos) = true ∨
        (chAt (litStr "@") pos = CH_DOT ∧ pos + 1 < (litStr "@").length ∧
         isDigit (chAt (litStr "@") (pos + 1)) = true)) →
      ¬(chAt (litStr "@") pos = CH_DQUOTE) →
      ¬(chAt (litStr "@") pos = CH_SQUOTE) →
      ¬(isIdentStart (chAt (litStr "@") pos) = true) →
      punctSwitch (litStr "@") pos = none →
      nextToken (litStr "@") true pos =
        nextToken (litStr "@") true (pos + 1))) :=
  ⟨by decide, C3_scan_contract (litStr "@") true (by decide)⟩

open Scanner in
/-- C7 (amended): the integer-literal promotion ladder of `makeIntToken`.
`u ll` and `u l` suffixes are honored outright; a plain `u` suffix is
promoted to unsigned long when the value exceeds the unsigned-int range;
plain `l`/`ll` suffixes on hex/octal/binary literals fall to the
unsigned kind when the value exceeds the signed 64-bit range (so a
suffix is *not* always honored exactly); an un-suffixed hex/octal/binary
literal takes the smallest of int/unsigned-int/long/unsigned-long that
holds its value; an un-suffixed decimal literal promotes
int → long → unsigned long. -/
theorem C7_int_promotion (v : Int) (u l ll hx : Bool) (s e : Nat) :
    (u = true ∧ ll = true →
      (makeIntToken v u l ll hx s e).kind = .ULongLongLiteral) ∧
    (u = true ∧ l = true ∧ ll = false →
      (makeIntToken v u l ll hx s e).kind = .ULongLiteral) ∧
    (u = true ∧ l = false ∧ ll = false →
      (makeIntToken v u l ll hx s e).kind =
        (if v ≤ 4294967295 then .UIntLiteral else .ULongLiteral)) ∧
    (u = false ∧ ll = true →
      (makeIntToken v u l ll hx s e).kind =
        (if hx = true ∧ 9223372036854775807 < v then .ULongLongLiteral
         else .LongLongLiteral)) ∧
    (u = false ∧ l = true ∧ ll = false →
      (makeIntToken v u l ll hx s e).kind =
        (if hx = true ∧ 9223372036854775807 < v then .ULongLiteral
         else .LongLiteral)) ∧
    (u = false ∧ l = false ∧ ll = false ∧ hx = true →
      (makeIntToken v u l ll hx s e).kind =
        (if v ≤ 2147483647 then .IntLiteral
         else if v ≤ 4294967295 then .UIntLiteral
         else if v ≤ 9223372036854775807 then .LongLiteral
         else .ULongLiteral)) ∧
    (u = false ∧ l = false ∧ ll = false ∧ hx = false →
      (makeIntToken v u l ll hx s e).kind =
        (if v ≤ 2147483647 then .IntLiteral
         else if v ≤ 9223372036854775807 then .LongLiteral
         else .ULongLiteral)) := by
  cases u <;> cases l <;> cases ll <;> cases hx <;>
    refine ⟨?_, ?_, ?_, ?_, ?_, ?_, ?_⟩ <;> intro h <;> (try simp at h) <;>
    (simp only [makeIntToken]
     split_ifs <;> rw [makeIntOrBigToken_kind] <;> first | omega | simp_all)

open Scanner in
/-- Witness: the C7 ladder instantiated at an un-suffixed decimal value
that exceeds the signed 32-bit range but fits the signed 64-bit one. -/
theorem C7_int_promotion_witness :
    (false = true ∧ false = true → (makeIntToken 2147483648 false false false
      false 0 10).kind = .ULongLongLiteral) ∧
    (false = true ∧ false = true ∧ false = false → (makeIntToken 2147483648
      false false false false 0 10).kind = .ULongLiteral) ∧
    (false = true ∧ false = false ∧ false = false → (makeIntToken 2147483648
      false false false false 0 10).kind =
        (if (2147483648 : Int) ≤ 4294967295 then .UIntLiteral
         else .ULongLiteral)) ∧
    (false = false ∧ false = true → (makeIntToken 2147483648 false false false
      false 0 10).kind =
        (if false = true ∧ 9223372036854775807 < (2147483648 : Int) then
          .ULongLongLiteral else .LongLongLiteral)) ∧
    (false = false ∧ false = true ∧ false = false → (makeIntToken 2147483648
      false false false false 0 10).kind =
        (if false = true ∧ 9223372036854775807 < (2147483648 : Int) then
          .ULongLiteral else .LongLiteral)) ∧
    (false = false ∧ false = false ∧ false = false ∧ false = true →
      (makeIntToken 2147483648 false false false false 0 10).kind =
        (if (2147483648 : Int) ≤ 2147483647 then .IntLiteral
         else if (2147483648 : Int) ≤ 4294967295 then .UIntLiteral
         else if (2147483648 : Int) ≤ 9223372036854775807 then .LongLiteral
         else .ULongLiteral)) ∧
    (false = false ∧ false = false ∧ false = false ∧ false = false →
      (makeIntToken 2147483648 false false false false 0 10).kind =
        (if (2147483648 : Int) ≤ 2147483647 then .IntLiteral
         else if (2147483648 : Int) ≤ 9223372036854775807 then .LongLiteral
         else .ULongLiteral)) :=
  C7_int_promotion 2147483648 false false false false 0 10

open Scanner in
/-- Counterexample to the literal C7 reading "a suffixed literal's token
kind honors its suffix exactly": scanning `0x8000000000000000l` (an `l`
suffix) produces a `ULongLiteral` token, not a `LongLiteral`. -/
theorem C7_counterexample :
    scan (litStr "0x8000000000000000l") true =
      [{ kind := .ULongLiteral, start := 0, end_ := 19,
         bigValue := some 9223372036854775808 },
       { kind := .Eof, start := 19, end_ := 19 }] ∧
    TokenKind.ULongLiteral ≠ TokenKind.LongLiteral := by
  refine ⟨?_, by decide⟩
  simp +decide [scan, scanFrom, nextToken, skipWsLoop, advanceWhile, chAt,
    isDigit, isHexDigit, hexDigitVal, isIdentStart, isIdentContinue, isAlpha,
    isAlphanumeric, isWhitespace, substring, litStr, isLineMarker, lexNumber,
    lexHexNumber, hexFracEnd, hexExpEnd, lexHexFloat, parseBigHex,
    finishIntLiteral, parseIntSuffix, intSuffixLoop, makeIntToken,
    makeIntOrBigToken, MAX_SAFE, parseSimpleFloatSuffix]

open Scanner in
/-- C10 (amended): a character literal whose body packs to at most one
byte — after escape processing, with any code point above `0xFF` first
expanded into its UTF-8 bytes — is a `CharLiteral`; a body of more than
one byte (e.g. `'ab'`, but also a single escape such as `'\u20ac'`
whose code point expands to several UTF-8 bytes) is an `IntLiteral`
whose numeric value packs the bytes most-significant-first via
`value = (value << 8) | byte`. -/
theorem C10_char_literal (src : JsStr) (start pos : Nat) :
    ((charBytes src (pos + 1)).1.length ≤ 1 →
      (lexChar src start pos).1.kind = .CharLiteral ∧
      (lexChar src start pos).1.value = some (.str
        (if (charBytes src (pos + 1)).1.foldl packByte 0 = 0 then [0]
         else fromCharCode
           (jsAnd ((charBytes src (pos + 1)).1.foldl packByte 0) 0xff)))) ∧
    (1 < (charBytes src (pos + 1)).1.length →
      (lexChar src start pos).1.kind = .IntLiteral ∧
      (lexChar src start pos).1.value =
        some (.num ((charBytes src (pos + 1)).1.foldl packByte 0))) := by
  have hL := lexCharLoop_charBytes src src.length (pos + 1) 0 0 (by omega)
  have hcount : (lexCharLoop src 0 0 (pos + 1)).2.1 =
      (charBytes src (pos + 1)).1.length := by
    rw [hL]; exact Nat.zero_add _
  have hval : (lexCharLoop src 0 0 (pos + 1)).1 =
      (charBytes src (pos + 1)).1.foldl packByte 0 := by rw [hL]
  constructor
  · intro hb
    simp only [lexChar]
    rw [hcount, hval, if_pos hb]
    exact ⟨rfl, rfl⟩
  · intro hb
    simp only [lexChar]
    rw [hcount, hval, if_neg (by omega)]
    exact ⟨rfl, rfl⟩

open Scanner in
/-- Witness: C10 at the concrete literals `'a'` (one byte, a
`CharLiteral` holding that byte) and `'ab'` (two bytes, an `IntLiteral`
packing `(97 << 8) | 98`). -/
theorem C10_char_literal_witness :
    ((charBytes (litStr "'a'") 1).1.length ≤ 1 ∧
     ((lexChar (litStr "'a'") 0 0).1.kind = .CharLiteral ∧
      (lexChar (litStr "'a'") 0 0).1.value = some (.str
        (if (charBytes (litStr "'a'") 1).1.foldl packByte 0 = 0 then [0]
         else fromCharCode
           (jsAnd ((charBytes (litStr "'a'") 1).1.foldl packByte 0) 0xff))))) ∧
    (1 < (charBytes (litStr "'ab'") 1).1.length ∧
     ((lexChar (litStr "'ab'") 0 0).1.kind = .IntLiteral ∧
      (lexChar (litStr "'ab'") 0 0).1.value =
        some (.num ((charBytes (litStr "'ab'") 1).1.foldl packByte 0)))) := by
  have h1 : (charBytes (litStr "'a'") 1).1.length ≤ 1 := by
    simp +decide [charBytes, charPackBytes, codePointAt, chAt, litStr]
  have h2 : 1 < (charBytes (litStr "'ab'") 1).1.length := by
    simp +decide [charBytes, charPackBytes, codePointAt, chAt, litStr]
  exact ⟨⟨h1, (C10_char_literal (litStr "'a'") 0 0).1 h1⟩,
         ⟨h2, (C10_char_literal (litStr "'ab'") 0 0).2 h2⟩⟩

open Scanner in
/-- Counterexample to the literal C10 reading "at most one (possibly
escaped) character gives a CharLiteral": scanning `'\u20ac'` — a single
escaped character — produces an `IntLiteral` (value `0xE282AC`, the
UTF-8 bytes of U+20AC packed most-significant-first), not a
`CharLiteral`. -/
theorem C10_counterexample :
    scan (litStr "'\\u20ac'") true =
      [{ kind := .IntLiteral, start := 0, end_ := 8,
         value := some (.num 14844588) },
       { kind := .Eof, start := 8, end_ := 8 }] ∧
    TokenKind.IntLiteral ≠ TokenKind.CharLiteral := by
  refine ⟨?_, by decide⟩
  simp +decide [scan, scanFrom, nextToken, skipWsLoop, advanceWhile, chAt,
    litStr, isDigit, isIdentStart, isIdentContinue, isAlpha, isAlphanumeric,
    isWhitespace, isLineMarker, lexChar, lexCharLoop, lexEscapeChar,
    escSimple, lexUnicodeEscape, uniEscLoop, octEscLoop, escHexLoop,
    fromCodePointOrReplacement, charPack, codePointAt, isHexDigit,
    hexDigitVal, List.foldl]
